import Mathlib

/-! # Name resolution core of `source3/libsmb/namequery.c`

A shallow embedding of the address ranking, de-duplication and resolver
orchestration code of `namequery.c`, with theorems about it.

Conventions of the embedding:
* a C array together with its element count is a `List` (the allocated
  slots) and a `Nat` (the count);
* `int` values that can be negative are `Int`, counts and ports are `Nat`;
* C strings are `String`, one `Char` per C `char`;
* collaborators that live outside `namequery.c` (DNS, getaddrinfo, the
  interface list, the name cache, `qsort`) are explicit parameters or
  explicit state;
* memory allocation always succeeds, so the `NT_STATUS_NO_MEMORY` returns that
  follow a failed `malloc` or `talloc` are left out;
* an asynchronous operation (`*_send`, its callbacks, `*_recv`) is its state
  structure together with the state of its request, and each callback is a
  function from the state before to the state after;
* undefined behaviour of the C code (a NULL dereference, an access outside
  an array) is the outcome `fault`, or a flag of the state.
-/

namespace Namequery

/-! ## Data model -/

/-- Address family of a socket address.  The resolver only ever builds
`AF_INET` and `AF_INET6` addresses. -/
inductive sa_family_t
  | AF_INET
  | AF_INET6
deriving DecidableEq, Repr

open sa_family_t

/-- The part of `struct sockaddr_storage` the code looks at: the family and
the address bytes (`sin_addr`, 4 bytes, or `sin6_addr`, 16 bytes) read as a
big-endian number. -/
structure sockaddr_storage where
  ss_family : sa_family_t
  addr : Nat
deriving DecidableEq, Repr

/-- An address with a port: `struct ip_service`. -/
structure ip_service where
  ss : sockaddr_storage
  port : Nat
deriving DecidableEq, Repr

/-- The header constant `PORT_NONE`. -/
def PORT_NONE : Nat := 0

/-- Modelled from the spec: `is_zero_addr` of the address utilities (not part
of `namequery.c`), the "zero test": an IPv4 or IPv6 address all of whose
address bytes are zero. -/
def is_zero_addr (pss : sockaddr_storage) : Bool :=
  pss.addr == 0

/-- Modelled from the spec: `zero_sockaddr` of the address utilities: clear
the whole structure, then set the family to `AF_INET`. -/
def zero_sockaddr : sockaddr_storage :=
  { ss_family := AF_INET, addr := 0 }

/-- Modelled from the spec: `sockaddr_equal` of the address utilities, the
"equality" test: same family and same address bytes. -/
def sockaddr_equal (ip1 ip2 : sockaddr_storage) : Bool :=
  ip1.ss_family == ip2.ss_family && ip1.addr == ip2.addr

instance : Inhabited ip_service := ⟨{ ss := zero_sockaddr, port := 0 }⟩

/-! ## `remove_duplicate_addrs2` -/

/-- The inner `for ( j=i+1; j<count; j++ )` loop of the first pass; the first
argument is the number of iterations left, `count - j`. -/
def mark_inner (i : Nat) : Nat → Nat → List ip_service → List ip_service
  | 0, _, iplist => iplist
  | n + 1, j, iplist =>
    mark_inner i n (j + 1)
      (if sockaddr_equal (iplist.getD i default).ss (iplist.getD j default).ss
            && (iplist.getD i default).port == (iplist.getD j default).port then
        iplist.set j { iplist.getD j default with ss := zero_sockaddr }
      else iplist)

/-- The outer `for ( i=0; i<count; i++ )` loop of the first pass ("One loop to
set duplicates to a zero addr"); the second argument is `count - i`. -/
def mark_outer (count : Nat) : Nat → Nat → List ip_service → List ip_service
  | 0, _, iplist => iplist
  | n + 1, i, iplist =>
    mark_outer count n (i + 1)
      (if is_zero_addr (iplist.getD i default).ss then iplist
       else mark_inner i (count - (i + 1)) (i + 1) iplist)

/-- The call `memmove(&a[dst], &a[src], n*sizeof(a[0]))` on an array. -/
def memmove (a : List ip_service) (dst src n : Nat) : List ip_service :=
  a.take dst ++ (a.drop src).take n ++ a.drop (dst + n)

/-- The `while (i < count && is_zero_addr(&iplist[i].ss))` loop of the second
pass.  The first argument bounds the number of iterations; `none` means the
bound was too small. -/
def compact_while : Nat → List ip_service → Nat → Nat → Option (List ip_service × Nat)
  | 0, _, _, _ => none
  | fuel + 1, iplist, count, i =>
    if i < count ∧ is_zero_addr (iplist.getD i default).ss = true then
      compact_while fuel
        (if count - i - 1 > 0 then memmove iplist i (i + 1) (count - i - 1) else iplist)
        (count - 1) i
    else some (iplist, count)

/-- The `for (i = 0; i < count; i++)` loop of the second pass ("Now remove any
addresses set to zero above"). -/
def compact_for : Nat → List ip_service → Nat → Nat → Option (List ip_service × Nat)
  | 0, _, _, _ => none
  | fuel + 1, iplist, count, i =>
    if i < count then
      match compact_while (count + 1) iplist count i with
      | none => none
      | some (iplist', count') => compact_for fuel iplist' count' (i + 1)
    else some (iplist, count)

/-- The function `remove_duplicate_addrs2(iplist, count)`: the array after the call and the
returned count. -/
def remove_duplicate_addrs2 (iplist : List ip_service) (count : Nat) :
    Option (List ip_service × Nat) :=
  compact_for (count + 1) (mark_outer count count 0 iplist) count 0

/-- The entries of a list that are first occurrences: an entry survives when
its address is not zero and no entry kept before it has the same address and
port. -/
def first_occurrences (seen : List ip_service) : List ip_service → List ip_service
  | [] => []
  | x :: xs =>
    if is_zero_addr x.ss || seen.any (fun y => sockaddr_equal y.ss x.ss && y.port == x.port) then
      first_occurrences seen xs
    else x :: first_occurrences (x :: seen) xs

/-! ## Auxiliary functions used to state the loop invariants -/

/-- What the first pass does to a later entry `y` while it handles entry `x`. -/
def zero_if_same (x y : ip_service) : ip_service :=
  if sockaddr_equal x.ss y.ss && x.port == y.port then { y with ss := zero_sockaddr } else y

/-- The first pass as a function on lists. -/
def mark_list : List ip_service → List ip_service
  | [] => []
  | x :: xs =>
    if is_zero_addr x.ss then x :: mark_list xs
    else x :: mark_list (xs.map (zero_if_same x))
termination_by l => l.length
decreasing_by all_goals simp_wf

/-- The state of a not yet visited entry `y` once the first pass has handled
the entries of which `K` are the kept ones. -/
def zero_if_seen (K : List ip_service) (y : ip_service) : ip_service :=
  if is_zero_addr y.ss = false ∧ y ∈ K then { y with ss := zero_sockaddr } else y

/-! ## Status codes, strings, collaborators -/

/-- An `NTSTATUS` value, by its 32-bit code. -/
abbrev NTSTATUS := Nat

/-- The status `NT_STATUS_OK`. -/
def NT_STATUS_OK : NTSTATUS := 0
/-- The status `NT_STATUS_UNSUCCESSFUL`. -/
def NT_STATUS_UNSUCCESSFUL : NTSTATUS := 0xC0000001
/-- The status `NT_STATUS_INVALID_PARAMETER`. -/
def NT_STATUS_INVALID_PARAMETER : NTSTATUS := 0xC000000D
/-- The status `NT_STATUS_NO_MEMORY`. -/
def NT_STATUS_NO_MEMORY : NTSTATUS := 0xC0000017

/-- The test `NT_STATUS_IS_OK(status)`. -/
def NT_STATUS_IS_OK (status : NTSTATUS) : Bool := status == NT_STATUS_OK

/-- The synthetic name type `#define KDC_NAME_TYPE 0xDCDC`. -/
def KDC_NAME_TYPE : Nat := 0xDCDC

/-- The header constant `MAX_NETBIOSNAME_LEN`. -/
def MAX_NETBIOSNAME_LEN : Nat := 16

/-- Modelled from the spec: `strequal` of the string utilities, the
case-insensitive comparison of two method tokens. -/
def strequal (s1 s2 : String) : Bool :=
  s1.data.map Char.toLower == s2.data.map Char.toLower

/-- One SRV record as `resolve_ads` reads it: `ss_s` is `none` when the record
carries only a host name (`ss_s == NULL`), otherwise its `num_ips` addresses. -/
structure dns_rr_srv where
  hostname : String
  port : Nat
  ss_s : Option (List sockaddr_storage)

/-- The collaborators of the resolver that are outside `namequery.c` (string
parsing, getaddrinfo, DNS SRV queries, the lmhosts file) and the two NetBIOS
back ends, each as the function from its arguments to what it returns. -/
structure Env where
  is_ipaddress : String → Bool
  interpret_string_addr : String → Option sockaddr_storage
  getaddrinfo : String → List sockaddr_storage
  interpret_string_addr_internal : String → Option (List sockaddr_storage)
  ads_dns_query_pdc : String → NTSTATUS × List dns_rr_srv
  ads_dns_query_dcs : String → Option String → NTSTATUS × List dns_rr_srv
  ads_dns_query_kdcs : String → Option String → NTSTATUS × List dns_rr_srv
  resolve_lmhosts_file_as_sockaddr : String → Nat → NTSTATUS × List sockaddr_storage
  resolve_wins : String → Nat → NTSTATUS × List sockaddr_storage
  name_resolve_bcast : String → Nat → NTSTATUS × List sockaddr_storage

/-- Modelled from the spec: the name cache, "(key=(name,type), list of IP
service, expiry)", without the expiry: the entries, newest first. -/
abbrev NameCache := List ((String × Nat) × List ip_service)

/-- Modelled from the spec: `namecache_fetch`, the cache lookup; a hit may be a
negative entry, "represented by an empty list". -/
def namecache_fetch (cache : NameCache) (name : String) (name_type : Nat) :
    Option (List ip_service) :=
  match cache with
  | [] => none
  | (k, v) :: rest => if k = (name, name_type) then some v else namecache_fetch rest name name_type

/-- Modelled from the spec: `namecache_store(name, name_type, num_names,
ip_list)`, which stores the first `num_names` entries under `(name, type)`. -/
def namecache_store (cache : NameCache) (name : String) (name_type : Nat) (num_names : Nat)
    (ip_list : List ip_service) : NameCache :=
  ((name, name_type), ip_list.take num_names) :: cache

/-- The resolution methods that have a back end. -/
inductive Method
  | host
  | kdc
  | ads
  | lmhosts
  | wins
  | bcast
deriving DecidableEq, Repr

/-- What a call of `internal_resolve_name` does to the outside: cache reads,
cache writes, and back end calls with the name type passed and the status
returned. -/
inductive Event
  | fetch (name : String) (name_type : Nat)
  | store (name : String) (name_type : Nat) (iplist : List ip_service)
  | backend (m : Method) (name_type : Nat) (status : NTSTATUS)
deriving DecidableEq, Repr

/-- How a call ends: with a status and the first `*return_count` entries of
`*return_iplist`, or in undefined behaviour (a NULL pointer is read). -/
inductive Outcome
  | fault
  | ret (status : NTSTATUS) (iplist : List ip_service)
deriving DecidableEq, Repr

/-- The result of a call of `internal_resolve_name`: how it ended, the name
cache after the call, and the events of the call in order. -/
structure Result where
  outcome : Outcome
  cache : NameCache
  trace : List Event
deriving DecidableEq, Repr

/-! ## The back ends inside `namequery.c` -/

/-- The function `convert_ss2service`: `none` is the return value `false`, in which case
`*return_iplist` and `*pcount` are left as they were. -/
def convert_ss2service (ss_list : List sockaddr_storage) : Option (List ip_service) :=
  if ss_list.length = 0 then none
  else if (ss_list.filter (fun ss => !is_zero_addr ss)).length = 0 then none
  else some ((ss_list.filter (fun ss => !is_zero_addr ss)).map
    (fun ss => { ss := ss, port := PORT_NONE }))

/-- The function `resolve_hosts`: the name type check, then the walk over the getaddrinfo
answers that drops zero addresses. -/
def resolve_hosts (env : Env) (name : String) (name_type : Nat) :
    NTSTATUS × List sockaddr_storage :=
  if name_type ≠ 0x20 ∧ name_type ≠ 0x0 then (NT_STATUS_INVALID_PARAMETER, [])
  else
    let return_iplist := (env.getaddrinfo name).filter (fun ss => !is_zero_addr ss)
    if return_iplist.length ≠ 0 then (NT_STATUS_OK, return_iplist)
    else (NT_STATUS_UNSUCCESSFUL, return_iplist)

/-- The two inner loops of `resolve_ads` that copy the addresses of one SRV
record: a zero address is skipped, and the loop stops when `*return_count`
reaches `numaddrs`. -/
def ads_copy_addrs (port : Nat) (numaddrs : Nat) :
    List sockaddr_storage → List ip_service → List ip_service
  | [], iplist => iplist
  | ss :: rest, iplist =>
    if is_zero_addr ss then ads_copy_addrs port numaddrs rest iplist
    else if (iplist ++ [(⟨ss, port⟩ : ip_service)]).length ≥ numaddrs then
      iplist ++ [(⟨ss, port⟩ : ip_service)]
    else ads_copy_addrs port numaddrs rest (iplist ++ [(⟨ss, port⟩ : ip_service)])

/-- The loop `for (i = 0; i < numdcs && (*return_count<numaddrs); i++)` of
`resolve_ads` ("now unroll the list of IP addresses"). -/
def ads_unroll (env : Env) : List dns_rr_srv → List ip_service → Nat → List ip_service
  | [], iplist, _ => iplist
  | dc :: dcs, iplist, numaddrs =>
    if iplist.length < numaddrs then
      match dc.ss_s with
      | none =>
        match env.interpret_string_addr_internal dc.hostname with
        | none => ads_unroll env dcs iplist numaddrs
        | some res =>
          let extra_addrs := (res.filter (fun ss => !is_zero_addr ss)).length
          let numaddrs' := if extra_addrs > 1 then numaddrs + (extra_addrs - 1) else numaddrs
          ads_unroll env dcs (ads_copy_addrs dc.port numaddrs' res iplist) numaddrs'
      | some ips => ads_unroll env dcs (ads_copy_addrs dc.port numaddrs ips iplist) numaddrs
    else iplist

/-- The function `resolve_ads`: the status and the list it leaves in `*return_iplist`. -/
def resolve_ads (env : Env) (name : String) (name_type : Nat) (sitename : Option String) :
    NTSTATUS × List ip_service :=
  if name_type ≠ 0x1c ∧ name_type ≠ KDC_NAME_TYPE ∧ name_type ≠ 0x1b then
    (NT_STATUS_INVALID_PARAMETER, [])
  else
    let (status, dcs) :=
      if name_type = 0x1b then env.ads_dns_query_pdc name
      else if name_type = 0x1c then env.ads_dns_query_dcs name sitename
      else env.ads_dns_query_kdcs name sitename
    if !NT_STATUS_IS_OK status then (status, [])
    else if dcs.length = 0 then (NT_STATUS_OK, [])
    else
      let numaddrs := (dcs.map (fun dc =>
        match dc.ss_s with
        | none => 1
        | some ips => ips.length)).sum
      (NT_STATUS_OK, ads_unroll env dcs [] numaddrs)

/-! ## `filter_out_nbt_lookup` and `internal_resolve_name` -/

/-- The copy loop of `filter_out_nbt_lookup`; `result` holds the tokens copied
so far (`result[0 .. result_idx)`). -/
def filter_out_nbt_loop (result : List String) : List String → List String
  | [] => result
  | tok :: rest =>
    if strequal tok "lmhosts" || strequal tok "wins" || strequal tok "bcast" then
      filter_out_nbt_loop result rest
    else filter_out_nbt_loop (result ++ [tok]) rest

/-- The function `filter_out_nbt_lookup(mem_ctx, resolve_order)`. -/
def filter_out_nbt_lookup (resolve_order : List String) : List String :=
  filter_out_nbt_loop [] resolve_order

/-- What one pass through the body of the method loop does: nothing (unknown
token, or `wins` for a 0x1D name), a back end call that failed, or a back end
call that succeeded and jumps to `done` with the final `status`,
`*return_iplist` (`none` is NULL), `*return_count` and the `name_type` used for
the cache. -/
inductive Attempt
  | skipped
  | failed (m : Method) (called_type : Nat) (status : NTSTATUS)
  | done (m : Method) (called_type : Nat) (status : NTSTATUS)
      (iplist : Option (List ip_service)) (count : Nat) (name_type : Nat)
deriving DecidableEq, Repr

/-- The common shape of the `host`, `lmhosts`, `wins` and `bcast` branches: on
success convert the address list, a failed conversion turns the status into
`NT_STATUS_NO_MEMORY`, and jump to `done` in both cases. -/
def ss_attempt (m : Method) (name_type : Nat) (r : NTSTATUS × List sockaddr_storage) :
    Attempt :=
  if NT_STATUS_IS_OK r.1 then
    match convert_ss2service r.2 with
    | some iplist => .done m name_type r.1 (some iplist) iplist.length name_type
    | none => .done m name_type NT_STATUS_NO_MEMORY none r.2.length name_type
  else .failed m name_type r.1

/-- The body of the loop `for (i=0; resolve_order[i]; i++)` for the token
`tok`. -/
def try_method (env : Env) (name : String) (name_type : Nat) (sitename : Option String)
    (tok : String) : Attempt :=
  if strequal tok "host" || strequal tok "hosts" then
    ss_attempt .host name_type (resolve_hosts env name name_type)
  else if strequal tok "kdc" then
    if NT_STATUS_IS_OK (resolve_ads env name KDC_NAME_TYPE sitename).1 then
      .done .kdc KDC_NAME_TYPE (resolve_ads env name KDC_NAME_TYPE sitename).1
        (some (resolve_ads env name KDC_NAME_TYPE sitename).2)
        (resolve_ads env name KDC_NAME_TYPE sitename).2.length KDC_NAME_TYPE
    else .failed .kdc KDC_NAME_TYPE (resolve_ads env name KDC_NAME_TYPE sitename).1
  else if strequal tok "ads" then
    if NT_STATUS_IS_OK (resolve_ads env name name_type sitename).1 then
      .done .ads name_type (resolve_ads env name name_type sitename).1
        (some (resolve_ads env name name_type sitename).2)
        (resolve_ads env name name_type sitename).2.length name_type
    else .failed .ads name_type (resolve_ads env name name_type sitename).1
  else if strequal tok "lmhosts" then
    ss_attempt .lmhosts name_type (env.resolve_lmhosts_file_as_sockaddr name name_type)
  else if strequal tok "wins" then
    if name_type ≠ 0x1D then ss_attempt .wins name_type (env.resolve_wins name name_type)
    else .skipped
  else if strequal tok "bcast" then
    ss_attempt .bcast name_type (env.name_resolve_bcast name name_type)
  else .skipped

/-- The code from the label `done:` on: remove duplicates, store a non-empty
list in the name cache, return `status`. -/
def finish (cache : NameCache) (name : String) (name_type : Nat) (status : NTSTATUS)
    (iplist : Option (List ip_service)) (count : Nat) (trace : List Event) : Result :=
  match iplist with
  | none =>
    if count = 0 then { outcome := .ret status [], cache := cache, trace := trace }
    else { outcome := .fault, cache := cache, trace := trace }
  | some l =>
    match remove_duplicate_addrs2 l count with
    | none => { outcome := .fault, cache := cache, trace := trace }
    | some (out, c) =>
      if c ≠ 0 then
        { outcome := .ret status (out.take c),
          cache := namecache_store cache name name_type c out,
          trace := trace ++ [.store name name_type (out.take c)] }
      else { outcome := .ret status (out.take c), cache := cache, trace := trace }

/-- The method loop ("iterate through the name resolution backends") followed
by either the fall-through return or the code at `done:`. -/
def run_methods (env : Env) (cache : NameCache) (name : String) (name_type : Nat)
    (sitename : Option String) : List String → List Event → Result
  | [], trace => { outcome := .ret NT_STATUS_UNSUCCESSFUL [], cache := cache, trace := trace }
  | tok :: rest, trace =>
    match try_method env name name_type sitename tok with
    | .skipped => run_methods env cache name name_type sitename rest trace
    | .failed m t status =>
      run_methods env cache name name_type sitename rest (trace ++ [.backend m t status])
    | .done m t status iplist count name_type' =>
      finish cache name name_type' status iplist count (trace ++ [.backend m t NT_STATUS_OK])

/-- How the code between the cache lookup and the method loop ends: in
undefined behaviour (`strcmp` on the NULL first element of an empty order),
with `NT_STATUS_INVALID_PARAMETER` ("all lookups disabled"), or with the list
of methods the loop is going to iterate. -/
inductive OrderPlan
  | fault
  | disabled
  | iterate (methods : List String)
deriving DecidableEq, Repr

/-- The code under "set the name resolution order": the `"NULL"` test, the `host` default for
a missing order, and the NetBIOS filter for names that are longer than
`MAX_NETBIOSNAME_LEN - 1` or contain a dot.  `none` is the NULL pointer. -/
def effective_order (name : String) (resolve_order : Option (List String)) : OrderPlan :=
  match resolve_order with
  | some [] => .fault
  | some (tok :: rest) =>
    if tok = "NULL" then .disabled
    else if name.length > MAX_NETBIOSNAME_LEN - 1 ∨ '.' ∈ name.data then
      .iterate (filter_out_nbt_lookup (tok :: rest))
    else .iterate (tok :: rest)
  | none =>
    if name.length > MAX_NETBIOSNAME_LEN - 1 ∨ '.' ∈ name.data then
      .iterate (filter_out_nbt_lookup ["host"])
    else .iterate ["host"]

/-- The function `internal_resolve_name(name, name_type, sitename, &iplist, &count,
resolve_order)` with the name cache as explicit state. -/
def internal_resolve_name (env : Env) (cache : NameCache) (name : String) (name_type : Nat)
    (sitename : Option String) (resolve_order : Option (List String)) : Result :=
  if env.is_ipaddress name then
    match env.interpret_string_addr name with
    | none => { outcome := .ret NT_STATUS_INVALID_PARAMETER [], cache := cache, trace := [] }
    | some ss =>
      if is_zero_addr ss then
        { outcome := .ret NT_STATUS_UNSUCCESSFUL [], cache := cache, trace := [] }
      else
        { outcome := .ret NT_STATUS_OK [{ ss := ss, port := PORT_NONE }],
          cache := cache, trace := [] }
  else
    match namecache_fetch cache name name_type with
    | some iplist =>
      match remove_duplicate_addrs2 iplist iplist.length with
      | none => { outcome := .fault, cache := cache, trace := [.fetch name name_type] }
      | some (out, c) =>
        if c > 0 then
          { outcome := .ret NT_STATUS_OK (out.take c), cache := cache,
            trace := [.fetch name name_type] }
        else
          { outcome := .ret NT_STATUS_UNSUCCESSFUL (out.take c), cache := cache,
            trace := [.fetch name name_type] }
    | none =>
      match effective_order name resolve_order with
      | .fault => { outcome := .fault, cache := cache, trace := [.fetch name name_type] }
      | .disabled =>
        { outcome := .ret NT_STATUS_INVALID_PARAMETER [], cache := cache,
          trace := [.fetch name name_type] }
      | .iterate methods =>
        run_methods env cache name name_type sitename methods [.fetch name name_type]

/-! ## Auxiliary functions used to state the claims -/

/-- Whether a pass through the loop body ended the loop (jumped to `done`),
which it does exactly when the back end it called reported success. -/
def Attempt.is_done : Attempt → Bool
  | .done _ _ _ _ _ _ => true
  | _ => false

/-- The back end calls made while the loop passes over tokens none of which
ends the loop, in order. -/
def failed_events (env : Env) (name : String) (name_type : Nat) (sitename : Option String) :
    List String → List Event
  | [] => []
  | tok :: rest =>
    match try_method env name name_type sitename tok with
    | .failed m t status => .backend m t status :: failed_events env name name_type sitename rest
    | _ => failed_events env name name_type sitename rest

/-- Whether an event is a back end call. -/
def Event.is_backend : Event → Bool
  | .backend _ _ _ => true
  | _ => false

/-- Whether a token names one of the three NetBIOS methods. -/
def is_nbt_method (tok : String) : Bool :=
  strequal tok "lmhosts" || strequal tok "wins" || strequal tok "bcast"

/-- Whether a token is one of the seven the method loop knows. -/
def is_known_method (tok : String) : Bool :=
  strequal tok "host" || strequal tok "hosts" || strequal tok "kdc" || strequal tok "ads"
    || strequal tok "lmhosts" || strequal tok "wins" || strequal tok "bcast"

/-! ## Concrete collaborators, used to evaluate the code on examples -/

/-- A small world: `10.0.0.5` and `0.0.0.0` are the literal addresses,
getaddrinfo knows the host `srv` (with a duplicate and a zero address), the
KDC SRV query for `REALM` has one record, the DC SRV query for `EMPTY`
succeeds with no record, and lmhosts, WINS and broadcast find nothing. -/
def example_env : Env :=
  { is_ipaddress := fun s => s == "10.0.0.5" || s == "0.0.0.0"
    interpret_string_addr := fun s =>
      if s == "10.0.0.5" then some ⟨AF_INET, 0x0A000005⟩
      else if s == "0.0.0.0" then some ⟨AF_INET, 0⟩ else none
    getaddrinfo := fun s =>
      if s == "srv" then [⟨AF_INET, 0x0A000001⟩, ⟨AF_INET, 0⟩, ⟨AF_INET, 0x0A000001⟩] else []
    interpret_string_addr_internal := fun _ => none
    ads_dns_query_pdc := fun _ => (NT_STATUS_UNSUCCESSFUL, [])
    ads_dns_query_dcs := fun s _ =>
      if s == "EMPTY" then (NT_STATUS_OK, []) else (NT_STATUS_UNSUCCESSFUL, [])
    ads_dns_query_kdcs := fun s _ =>
      if s == "REALM" then (NT_STATUS_OK, [⟨"kdc1", 88, some [⟨AF_INET, 0x0A000007⟩]⟩])
      else (NT_STATUS_UNSUCCESSFUL, [])
    resolve_lmhosts_file_as_sockaddr := fun _ _ => (NT_STATUS_UNSUCCESSFUL, [])
    resolve_wins := fun _ _ => (NT_STATUS_UNSUCCESSFUL, [])
    name_resolve_bcast := fun _ _ => (NT_STATUS_UNSUCCESSFUL, []) }

/-! ## Address ranking: `addr_compare`, `ip_service_compare`, `sort_service_list` -/

/-- The interface module as `addr_compare` sees it: `bcast` lists
`iface_n_bcast(i)` for `i < iface_count()`, and `iface_local` is the test of
the same name. -/
structure Interfaces where
  bcast : List sockaddr_storage
  iface_local : sockaddr_storage → Bool

/-- The number of leading bits in which `p1` and `p2` agree, among their low
`w` bits read from the most significant one. -/
def matching_bits (p1 p2 : Nat) : Nat → Nat
  | 0 => 0
  | w + 1 => if p1.testBit w = p2.testBit w then matching_bits p1 p2 w + 1 else 0

/-- Modelled from the spec: `matching_len_bits(p1, p2, len)` of the address
utilities, the "longest-prefix match": "the count of leading bits in which each
address agrees with the interface address", over `len` bytes. -/
def matching_len_bits (p1 p2 : Nat) (len : Nat) : Nat :=
  matching_bits p1 p2 (8 * len)

/-- The loop over the interfaces in `addr_compare`, which keeps the two running
maxima `max_bits1` and `max_bits2`. -/
def addr_compare_loop (ss1 ss2 : sockaddr_storage) :
    List sockaddr_storage → Int → Int → Int × Int
  | [], max_bits1, max_bits2 => (max_bits1, max_bits2)
  | pss :: rest, max_bits1, max_bits2 =>
    if pss.ss_family ≠ ss1.ss_family then addr_compare_loop ss1 ss2 rest max_bits1 max_bits2
    else
      let len := if pss.ss_family = AF_INET then 4 else 0
      let len := if pss.ss_family = AF_INET6 then 16 else len
      if len = 0 then addr_compare_loop ss1 ss2 rest max_bits1 max_bits2
      else
        addr_compare_loop ss1 ss2 rest
          (max (matching_len_bits ss1.addr pss.addr len : Int) max_bits1)
          (max (matching_len_bits ss2.addr pss.addr len : Int) max_bits2)

/-- The function `addr_compare(ss1, ss2)`, the "comparison function used by
sort_addr_list". -/
def addr_compare (ifs : Interfaces) (ss1 ss2 : sockaddr_storage) : Int :=
  if ss1.ss_family ≠ ss2.ss_family then
    if ss2.ss_family = AF_INET then 1 else -1
  else
    let max_bits := addr_compare_loop ss1 ss2 ifs.bcast 0 0
    let max_bits1 :=
      if ifs.iface_local ss1 then
        (if ss1.ss_family = AF_INET then max_bits.1 + 32 else max_bits.1 + 128)
      else max_bits.1
    let max_bits2 :=
      if ifs.iface_local ss2 then
        (if ss2.ss_family = AF_INET then max_bits.2 + 32 else max_bits.2 + 128)
      else max_bits.2
    max_bits2 - max_bits1

/-- The function `ip_service_compare(ss1, ss2)`: `addr_compare` first, then the port. -/
def ip_service_compare (ifs : Interfaces) (ss1 ss2 : ip_service) : Int :=
  if addr_compare ifs ss1.ss ss2.ss ≠ 0 then addr_compare ifs ss1.ss ss2.ss
  else if ss1.port > ss2.port then 1
  else if ss1.port < ss2.port then -1
  else 0

/-- The C library `qsort` as called through `TYPESAFE_QSORT(base, numel,
comparison)`: a function from the comparison and the array to the array after
the call. -/
abbrev Qsort := (ip_service → ip_service → Int) → List ip_service → List ip_service

/-- What the C library promises of `qsort`: the array is rearranged, and it is
in ascending order when the comparison is a total preorder.  The order of
elements that compare equal is unspecified. -/
def qsort_contract (qsort : Qsort) : Prop :=
  ∀ (compar : ip_service → ip_service → Int) (base : List ip_service),
    (qsort compar base).Perm base ∧
    ((∀ a b, compar a b ≤ 0 ∨ compar b a ≤ 0) →
      (∀ a b c, compar a b ≤ 0 → compar b c ≤ 0 → compar a c ≤ 0) →
      (qsort compar base).Pairwise (fun a b => compar a b ≤ 0))

/-- The function `sort_service_list(servlist, count)`, for the array of the first `count`
entries. -/
def sort_service_list (qsort : Qsort) (ifs : Interfaces) (servlist : List ip_service) :
    List ip_service :=
  if servlist.length ≤ 1 then servlist
  else qsort (ip_service_compare ifs) servlist

/-- The family's address length in bytes: "4 bytes for IPv4, 16 for IPv6". -/
def addr_len : sa_family_t → Nat
  | AF_INET => 4
  | AF_INET6 => 16

/-- The score of an address as the ranking rule words it: the maximum, over
the interfaces whose broadcast address has the family of `x`, of the number of
leading bits `x` shares with that broadcast address (0 when there is none),
plus 32 for IPv4 or 128 for IPv6 when the interface module reports `x` as
local. -/
def proximity_score (ifs : Interfaces) (x : sockaddr_storage) : Int :=
  (((ifs.bcast.filter (fun b => b.ss_family = x.ss_family)).map
      (fun b => (matching_len_bits x.addr b.addr (addr_len x.ss_family) : Int))).foldr max 0)
  + (if ifs.iface_local x then
      (match x.ss_family with
       | AF_INET => 32
       | AF_INET6 => 128)
     else 0)

/-- A `qsort` that meets the contract but is not stable: an insertion sort of
the reversed array. -/
def qsort_reversing : Qsort :=
  fun compar base => List.insertionSort (fun a b => compar a b ≤ 0) base.reverse

/-- A `qsort` that keeps elements that compare equal in the order they had in
the array (a stable sort, as a merge sort is): when the comparison is a total
preorder, the elements that compare equal to any `a` stand in the result in
the order they have in the array. -/
def qsort_stable (qsort : Qsort) : Prop :=
  ∀ (compar : ip_service → ip_service → Int) (base : List ip_service),
    (∀ a b, compar a b ≤ 0 ∨ compar b a ≤ 0) →
    (∀ a b c, compar a b ≤ 0 → compar b c ≤ 0 → compar a c ≤ 0) →
    ∀ a : ip_service,
      (qsort compar base).filter (fun x => decide (compar a x ≤ 0) && decide (compar x a ≤ 0))
        = base.filter (fun x => decide (compar a x ≤ 0) && decide (compar x a ≤ 0))

/-- A stable `qsort` that meets the contract: the insertion sort of the array. -/
def qsort_insertion : Qsort :=
  fun compar base => List.insertionSort (fun a b => compar a b ≤ 0) base

/-- Two interfaces, `192.168.1.255` and `10.255.255.255`; the addresses in
`192.168.1.0/24` are local. -/
def example_interfaces : Interfaces :=
  { bcast := [⟨AF_INET, 0xC0A801FF⟩, ⟨AF_INET, 0x0AFFFFFF⟩]
    iface_local := fun ss => ss.ss_family = AF_INET ∧ ss.addr / 256 = 0xC0A801 }

/-- The rank of a family in the sort order: IPv4 before IPv6. -/
def family_rank : sa_family_t → Nat
  | AF_INET => 0
  | AF_INET6 => 1

/-- The sort key `ip_service_compare` orders by: family, then descending score,
then port, compared lexicographically. -/
def sort_key (ifs : Interfaces) (x : ip_service) : Lex (Nat × Lex (Int × Nat)) :=
  toLex (family_rank x.ss.ss_family, toLex (-(proximity_score ifs x.ss), x.port))

/-! ## `prioritize_ipv4_list` and `resolve_name` -/

/-- The first copy loop of `prioritize_ipv4_list` ("Copy IPv4 first"):
`iplist_new[j++] = iplist[i]` for the entries whose family is `AF_INET`;
`iplist_new` holds the `j` entries copied so far. -/
def prioritize_copy_ipv4 : List ip_service → List ip_service → List ip_service
  | [], iplist_new => iplist_new
  | e :: rest, iplist_new =>
    if e.ss.ss_family = AF_INET then prioritize_copy_ipv4 rest (iplist_new ++ [e])
    else prioritize_copy_ipv4 rest iplist_new

/-- The second copy loop of `prioritize_ipv4_list` ("Copy IPv6"), for the
entries whose family is not `AF_INET`. -/
def prioritize_copy_other : List ip_service → List ip_service → List ip_service
  | [], iplist_new => iplist_new
  | e :: rest, iplist_new =>
    if e.ss.ss_family ≠ AF_INET then prioritize_copy_other rest (iplist_new ++ [e])
    else prioritize_copy_other rest iplist_new

/-- The function `prioritize_ipv4_list(iplist, count)`: the array after the
call (the two copy loops over the first `count` entries, then the `memcpy` of
`count` entries back). -/
def prioritize_ipv4_list (iplist : List ip_service) (count : Nat) : List ip_service :=
  (prioritize_copy_other (iplist.take count)
      (prioritize_copy_ipv4 (iplist.take count) [])).take count
    ++ iplist.drop count

/-- Modelled from the spec: `is_broadcast_addr` of the address utilities, the
"broadcast test": the IPv4 address 255.255.255.255; no IPv6 address is a
broadcast address. -/
def is_broadcast_addr (pss : sockaddr_storage) : Bool :=
  pss.ss_family = AF_INET && pss.addr == 0xFFFFFFFF

/-- The configuration readers (`lp_*`) and the other collaborators of
`resolve_name` and `get_dc_list` that are outside `namequery.c`:
`realm_sitename` is `sitename_fetch(frame, lp_realm())`, `next_tokens` lists the
tokens that repeated calls of `next_token_talloc(ctx, &p, &name, LIST_SEP)`
yield from a string, `atoi` is the C function of that name followed by the
conversion to the unsigned port, and `check_negative_conn_cache` is the
negative-connection cache check for a domain and an address. -/
structure Config where
  name_resolve_order : List String
  workgroup : String
  realm : String
  password_server : String
  realm_sitename : Option String
  next_tokens : String → List String
  atoi : String → Nat
  check_negative_conn_cache : String → sockaddr_storage → NTSTATUS

/-- How a call of `resolve_name` ends: in undefined behaviour, or with the
return value `false` (`none`) or `true` and the address left in `*return_ss`. -/
inductive NameOutcome
  | fault
  | ret (return_ss : Option sockaddr_storage)
deriving DecidableEq, Repr

/-- The result of a call of `resolve_name`: how it ended, the name cache after
the call, and the events of the `internal_resolve_name` call it made. -/
structure NameResult where
  outcome : NameOutcome
  cache : NameCache
  trace : List Event
deriving DecidableEq, Repr

/-- The first loop of `resolve_name`, entered when `prefer_ipv4` is set: the
first entry that is not zero, not broadcast and of family `AF_INET`. -/
def resolve_name_ipv4_loop : List ip_service → Option sockaddr_storage
  | [] => none
  | e :: rest =>
    if !is_zero_addr e.ss && !is_broadcast_addr e.ss && e.ss.ss_family = AF_INET then some e.ss
    else resolve_name_ipv4_loop rest

/-- The second loop of `resolve_name` ("only return valid addresses for TCP
connections"): the first entry that is not zero and not broadcast. -/
def resolve_name_valid_loop : List ip_service → Option sockaddr_storage
  | [] => none
  | e :: rest =>
    if !is_zero_addr e.ss && !is_broadcast_addr e.ss then some e.ss
    else resolve_name_valid_loop rest

/-- The function `resolve_name(name, return_ss, name_type, prefer_ipv4)` with
the name cache as explicit state. -/
def resolve_name (env : Env) (cfg : Config) (cache : NameCache) (name : String)
    (name_type : Nat) (prefer_ipv4 : Bool) : NameResult :=
  if env.is_ipaddress name then
    { outcome := .ret (env.interpret_string_addr name), cache := cache, trace := [] }
  else
    match internal_resolve_name env cache name name_type cfg.realm_sitename
        (some cfg.name_resolve_order) with
    | { outcome := .fault, cache := cache', trace := trace } =>
      { outcome := .fault, cache := cache', trace := trace }
    | { outcome := .ret status ss_list, cache := cache', trace := trace } =>
      if NT_STATUS_IS_OK status then
        if prefer_ipv4 then
          match resolve_name_ipv4_loop ss_list with
          | some ss => { outcome := .ret (some ss), cache := cache', trace := trace }
          | none =>
            { outcome := .ret (resolve_name_valid_loop ss_list), cache := cache', trace := trace }
        else
          { outcome := .ret (resolve_name_valid_loop ss_list), cache := cache', trace := trace }
      else { outcome := .ret none, cache := cache', trace := trace }

/-- A configuration for the examples: workgroup `WG`, realm `EXAMPLE.COM`, the
resolve order `lmhosts wins host bcast`, the password server list `*`; tokens
are split at the separators blank, comma and semicolon, `atoi` knows the ports
389 and 3268, and only `10.0.0.66` is in the negative-connection cache. -/
def example_config : Config :=
  { name_resolve_order := ["lmhosts", "wins", "host", "bcast"]
    workgroup := "WG"
    realm := "EXAMPLE.COM"
    password_server := "*"
    realm_sitename := none
    next_tokens := fun s =>
      ((s.data.splitOn ' ').flatMap
          (fun w => (w.splitOn ',').flatMap (fun v => v.splitOn ';'))).filterMap
        (fun w => if w = [] then none else some (String.mk w))
    atoi := fun s => if s = "389" then 389 else if s = "3268" then 3268 else 0
    check_negative_conn_cache := fun _ ss =>
      if ss.addr = 0x0A000042 then NT_STATUS_UNSUCCESSFUL else NT_STATUS_OK }

/-- A name cache that holds, for `mixed`, the broadcast address, an IPv6
address and `10.0.0.1`, in this order. -/
def example_mixed_cache : NameCache :=
  [(("mixed", 0x20),
    [⟨⟨AF_INET, 0xFFFFFFFF⟩, 0⟩, ⟨⟨AF_INET6, 0x20010DB8⟩, 0⟩, ⟨⟨AF_INET, 0x0A000001⟩, 0⟩])]

/-! ## Server affinity cache: `saf_store`, `saf_join_store`, `saf_delete`, `saf_fetch` -/

/-- Modelled from the spec: the generic key/value cache behind `gencache_get`,
`gencache_set` and `gencache_del`, as the list of the entries that are present
and have not expired (the expiry time given to `gencache_set` is not
modelled). -/
abbrev GenCache := List (String × String)

/-- Modelled from the spec: `gencache_get(key, …, &value, &timeout)`, the value
stored under `key`, `none` when the call returns false. -/
def gencache_get (c : GenCache) (key : String) : Option String :=
  (c.find? (fun kv => kv.1 = key)).map (fun kv => kv.2)

/-- Modelled from the spec: `gencache_set(key, value, timeout)`, returning true
and the cache in which `key` holds `value`. -/
def gencache_set (c : GenCache) (key value : String) : Bool × GenCache :=
  (true, (key, value) :: c.filter (fun kv => !decide (kv.1 = key)))

/-- Modelled from the spec: `gencache_del(key)`, returning whether `key` was
present, and the cache without it. -/
def gencache_del (c : GenCache) (key : String) : Bool × GenCache :=
  ((gencache_get c key).isSome, c.filter (fun kv => !decide (kv.1 = key)))

/-- Modelled from the spec: `talloc_asprintf_strupper_m(ctx, fmt, domain)` for a
format `lead%s`: the formatted string in upper case (ASCII letters). -/
def talloc_asprintf_strupper_m (lead domain : String) : String :=
  ⟨(lead ++ domain).data.map Char.toUpper⟩

/-- The function `saf_key(domain)`, with `SAFKEY_FMT` = `SAF/DOMAIN/%s`. -/
def saf_key (domain : String) : String :=
  talloc_asprintf_strupper_m "SAF/DOMAIN/" domain

/-- The function `saf_join_key(domain)`, with `SAFJOINKEY_FMT` = `SAFJOIN/DOMAIN/%s`. -/
def saf_join_key (domain : String) : String :=
  talloc_asprintf_strupper_m "SAFJOIN/DOMAIN/" domain

/-- The function `saf_store(domain, servername)`; `none` is the NULL pointer. -/
def saf_store (c : GenCache) (domain servername : Option String) : Bool × GenCache :=
  match domain, servername with
  | some d, some s =>
    if d.length = 0 ∨ s.length = 0 then (false, c)
    else gencache_set c (saf_key d) s
  | _, _ => (false, c)

/-- The function `saf_join_store(domain, servername)`. -/
def saf_join_store (c : GenCache) (domain servername : Option String) : Bool × GenCache :=
  match domain, servername with
  | some d, some s =>
    if d.length = 0 ∨ s.length = 0 then (false, c)
    else gencache_set c (saf_join_key d) s
  | _, _ => (false, c)

/-- The function `saf_delete(domain)`: `gencache_del` of the join key, then of
the plain key; the value returned is that of the second call. -/
def saf_delete (c : GenCache) (domain : Option String) : Bool × GenCache :=
  match domain with
  | none => (false, c)
  | some d =>
    let r1 := gencache_del c (saf_join_key d)
    gencache_del r1.2 (saf_key d)

/-- The function `saf_fetch(mem_ctx, domain)`: `none` is the NULL result. -/
def saf_fetch (c : GenCache) (domain : Option String) : Option String :=
  match domain with
  | none => none
  | some d =>
    if d.length = 0 then none
    else
      match gencache_get c (saf_join_key d) with
      | some server => some server
      | none => gencache_get c (saf_key d)

/-- The caches that the users of the generic cache can produce: from the empty
cache by `saf_store`, `saf_join_store` and `saf_delete` with any arguments, by
the removal of an entry (its expiry, or a `gencache_del`), and by the
`gencache_set` of a key of another module, one that does not begin with
`SAF/DOMAIN/` or with `SAFJOIN/DOMAIN/`. -/
inductive saf_reachable : GenCache → Prop
  | empty : saf_reachable []
  | store (c : GenCache) (domain servername : Option String) :
      saf_reachable c → saf_reachable (saf_store c domain servername).2
  | join_store (c : GenCache) (domain servername : Option String) :
      saf_reachable c → saf_reachable (saf_join_store c domain servername).2
  | delete (c : GenCache) (domain : Option String) :
      saf_reachable c → saf_reachable (saf_delete c domain).2
  | removed (c : GenCache) (key : String) :
      saf_reachable c → saf_reachable (gencache_del c key).2
  | other (c : GenCache) (key value : String) :
      saf_reachable c → ¬ "SAF/DOMAIN/".data <+: key.data →
      ¬ "SAFJOIN/DOMAIN/".data <+: key.data →
      saf_reachable (gencache_set c key value).2

/-- A cache written by the server affinity routines: `saf_store` of `dc1` and
then `saf_join_store` of `dc2` for the domain `wg`, and `saf_store` of `dc3`
for the domain `other`. -/
def example_saf_cache : GenCache :=
  (saf_store
    (saf_join_store (saf_store [] (some "wg") (some "dc1")).2 (some "wg") (some "dc2")).2
    (some "other") (some "dc3")).2

/-! ## `name_query_done`, `name_query_recv` and `sort_addr_list` -/

/-- The status `NT_STATUS_IO_TIMEOUT`. -/
def NT_STATUS_IO_TIMEOUT : NTSTATUS := 0xC00000B5
/-- The status `NT_STATUS_NOT_FOUND`. -/
def NT_STATUS_NOT_FOUND : NTSTATUS := 0xC0000225
/-- The status `NT_STATUS_INTERNAL_ERROR`. -/
def NT_STATUS_INTERNAL_ERROR : NTSTATUS := 0xC00000E5

/-- Modelled from the spec: the state of an asynchronous request (`struct
tevent_req`): still running, finished with `tevent_req_done`, failed with
`tevent_req_nterror(req, status)`, or ended by the deadline set with
`tevent_req_set_endtime`. -/
inductive tevent_req_state
  | in_progress
  | done
  | user_error (status : NTSTATUS)
  | timed_out
  deriving DecidableEq, Repr

/-- Modelled from the spec: `tevent_req_is_nterror(req, &status)`, `none` when
it returns false.  The deadline reads as `NT_STATUS_IO_TIMEOUT`; a request
that has not finished reads as `NT_STATUS_INTERNAL_ERROR`. -/
def tevent_req_is_nterror : tevent_req_state → Option NTSTATUS
  | .done => none
  | .user_error status => some status
  | .timed_out => some NT_STATUS_IO_TIMEOUT
  | .in_progress => some NT_STATUS_INTERNAL_ERROR

/-- Modelled from the spec: `tevent_req_nterror(req, status)` on a running
request: `none` when it returns false (the status is success and the request
is left as it is), else the failed request. -/
def tevent_req_nterror (status : NTSTATUS) : Option tevent_req_state :=
  if NT_STATUS_IS_OK status then none else some (.user_error status)

/-- The fields of `struct name_query_state` that the validator and the receive
function use; `addrs` holds the `num_addrs` addresses accumulated so far. -/
structure name_query_state where
  bcast : Bool
  validate_error : NTSTATUS
  flags : Nat
  addrs : List sockaddr_storage
  deriving DecidableEq, Repr

/-- The callback `name_query_done(subreq)`: the state of the query's request
after the transaction `subreq` ended with `status` (from `nb_trans_recv`). -/
def name_query_done (state : name_query_state) (status : NTSTATUS) : tevent_req_state :=
  match tevent_req_nterror status with
  | some failed => failed
  | none =>
    if !NT_STATUS_IS_OK state.validate_error then .user_error state.validate_error
    else .done

/-- The C library `qsort` on an array of `struct sockaddr_storage`. -/
abbrev QsortAddr :=
  (sockaddr_storage → sockaddr_storage → Int) → List sockaddr_storage → List sockaddr_storage

/-- What the C library promises of `qsort`, for arrays of addresses. -/
def qsort_addr_contract (qsort : QsortAddr) : Prop :=
  ∀ (compar : sockaddr_storage → sockaddr_storage → Int) (base : List sockaddr_storage),
    (qsort compar base).Perm base ∧
    ((∀ a b, compar a b ≤ 0 ∨ compar b a ≤ 0) →
      (∀ a b c, compar a b ≤ 0 → compar b c ≤ 0 → compar a c ≤ 0) →
      (qsort compar base).Pairwise (fun a b => compar a b ≤ 0))

/-- The function `sort_addr_list(sslist, count)`, for the array of the first
`count` entries. -/
def sort_addr_list (qsort : QsortAddr) (ifs : Interfaces) (sslist : List sockaddr_storage) :
    List sockaddr_storage :=
  if sslist.length ≤ 1 then sslist
  else qsort (addr_compare ifs) sslist

/-- The out-parameters of `name_query_recv`, written on success only: `*addrs`,
`*num_addrs`, and `*flags` when `flags` is not NULL. -/
structure name_query_out where
  addrs : List sockaddr_storage
  num_addrs : Nat
  flags : Option Nat
  deriving DecidableEq, Repr

/-- The function `name_query_recv(req, mem_ctx, addrs, num_addrs, flags)`;
`want_flags` says that `flags` is not NULL. -/
def name_query_recv (qsort : QsortAddr) (ifs : Interfaces) (req : tevent_req_state)
    (state : name_query_state) (want_flags : Bool) : NTSTATUS × Option name_query_out :=
  let proceed : NTSTATUS × Option name_query_out :=
    if state.addrs.length = 0 then (NT_STATUS_NOT_FOUND, none)
    else
      (NT_STATUS_OK,
        some { addrs := sort_addr_list qsort ifs state.addrs
               num_addrs := state.addrs.length
               flags := if want_flags then some state.flags else none })
  match tevent_req_is_nterror req with
  | some status =>
    let status :=
      if state.bcast && status == NT_STATUS_IO_TIMEOUT then NT_STATUS_OK else status
    if !NT_STATUS_IS_OK status then (status, none) else proceed
  | none => proceed

/-- An implementation of `qsort` on addresses that reverses its input first, as
the C library is free to do with equal elements. -/
def qsort_addr_reversing : QsortAddr :=
  fun compar base => List.insertionSort (fun a b => compar a b ≤ 0) base.reverse

/-! ## `parse_node_status` -/

/-- The macro `CVAL(buf, pos)`: the unsigned byte at `buf + pos`; the memory
is a function from offsets to byte values. -/
def CVAL (buf : Nat → Nat) (pos : Nat) : Nat := buf pos % 256

/-- Modelled from the spec: `StrnCpy(dest, src, n)`, the bytes copied to
`dest` before its terminator: those of `src` (at offset `p`) up to the first
NUL, at most `n`. -/
def StrnCpy (buf : Nat → Nat) : Nat → Nat → List Nat
  | _, 0 => []
  | p, n + 1 => if CVAL buf p = 0 then [] else CVAL buf p :: StrnCpy buf (p + 1) n

/-- Modelled from the spec: `trim_char(s, '\0', ' ')`, which removes the
blanks at the end of `s`. -/
def trim_char (s : List Nat) : List Nat :=
  (s.reverse.dropWhile (fun c => c == 32)).reverse

/-- An entry `struct node_status`: the name (bytes before the terminator), the
suffix `type` and the `flags` byte. -/
structure node_status where
  name : List Nat
  type : Nat
  flags : Nat
  deriving DecidableEq, Repr

/-- The loop of `parse_node_status` for the remaining `n` entries with the
pointer at offset `p`: the entries, and the pointer after the loop. -/
def parse_node_status_loop (buf : Nat → Nat) : Nat → Nat → List node_status × Nat
  | 0, p => ([], p)
  | n + 1, p =>
    let entry : node_status :=
      { name := trim_char (StrnCpy buf p 15)
        type := CVAL buf (p + 15)
        flags := CVAL buf (p + 16) }
    let r := parse_node_status_loop buf n (p + 18)
    (entry :: r.1, r.2)

/-- The result of `parse_node_status`: the array returned (`none` for NULL),
`*num_names`, and `extra->mac_addr` when `extra` is not NULL. -/
structure node_status_result where
  ret : Option (List node_status)
  num_names : Nat
  mac_addr : Option (List Nat)
  deriving DecidableEq, Repr

/-- The function `parse_node_status(mem_ctx, p, num_names, extra)` on the
memory `buf` at `p`; `extra` says that the pointer `extra` is not NULL. -/
def parse_node_status (buf : Nat → Nat) (extra : Bool) : node_status_result :=
  let num_names := CVAL buf 0
  if num_names = 0 then { ret := none, num_names := num_names, mac_addr := none }
  else
    let r := parse_node_status_loop buf num_names 1
    { ret := some r.1
      num_names := num_names
      mac_addr :=
        if extra then some ((List.range 6).map (fun k => CVAL buf (r.2 + k))) else none }

/-- The name field as the wire format words it: the 15 bytes at offset `p`,
cut at the first NUL, without the blanks at the end. -/
def wire_name (buf : Nat → Nat) (p : Nat) : List Nat :=
  ((((List.range 15).map (fun k => CVAL buf (p + k))).takeWhile (fun c => c != 0)).reverse.dropWhile
    (fun c => c == 32)).reverse

/-- A node-status RDATA with two names: `AB` padded with blanks (type 0x20,
flags 0x04), `WG` padded with blanks (type 0x00, flags 0x84), then the MAC
address `00:11:22:33:44:55`. -/
def example_rdata : Nat → Nat :=
  fun i =>
    ([2, 65, 66, 32, 32, 32, 32, 32, 32, 32, 32, 32, 32, 32, 32, 32, 0x20, 0x04, 0,
      87, 71, 32, 32, 32, 32, 32, 32, 32, 32, 32, 32, 32, 32, 32, 0x00, 0x84, 0,
      0x00, 0x11, 0x22, 0x33, 0x44, 0x55] : List Nat).getD i 0

/-! ## Query fan-out: `name_queries_send`, `name_queries_done`, `name_queries_next`, `name_queries_recv` -/

/-- The fields of `struct name_queries_state` that the callbacks use, with the
state `req` of the fan-out request.  The sub-request started for target
`addrs[k]` is identified by the handle `k`; `subreqs` is the array of
`num_addrs` handles (`none` is NULL).  `started` lists the indices of `addrs`
for which `name_query_send` was called, `wakeup` says that a wait for the next
send is pending, and `oob` that an index outside the arrays was used. -/
structure name_queries_state where
  num_addrs : Nat
  subreqs : List (Option Nat)
  num_received : Nat
  num_sent : Nat
  received_index : Nat
  result_addrs : List sockaddr_storage
  num_result_addrs : Nat
  flags : Nat
  started : List Nat
  wakeup : Bool
  oob : Bool
  req : tevent_req_state
  deriving DecidableEq, Repr

/-- The function `name_queries_send(…, addrs, num_addrs, wait_msec, timeout_msec)`:
the state after the first query (to `addrs[0]`) has been started. -/
def name_queries_send (num_addrs : Nat) : name_queries_state :=
  { num_addrs := num_addrs
    subreqs := (List.replicate num_addrs none).set 0 (some 0)
    num_received := 0
    num_sent := 1
    received_index := 0
    result_addrs := []
    num_result_addrs := 0
    flags := 0
    started := [0]
    wakeup := decide (1 < num_addrs)
    oob := decide (num_addrs ≤ 0)
    req := .in_progress }

/-- The search loop of `name_queries_done`, `for (i=0; i<state->num_sent; i++)`
with `break` at `state->subreqs[i] == subreq`, from index `i` with `fuel`
iterations left: the value of `i` after the loop. -/
def name_queries_find (subreqs : List (Option Nat)) (subreq num_sent : Nat) : Nat → Nat → Nat
  | 0, i => i
  | fuel + 1, i =>
    if i < num_sent then
      if subreqs.getD i none = some subreq then i
      else name_queries_find subreqs subreq num_sent fuel (i + 1)
    else i

/-- The callback `name_queries_done(subreq)` for the sub-request with handle
`subreq`, whose request is in the state `sub_req` and whose query state is
`sub_state`. -/
def name_queries_done (qsort : QsortAddr) (ifs : Interfaces) (state : name_queries_state)
    (subreq : Nat) (sub_req : tevent_req_state) (sub_state : name_query_state) :
    name_queries_state :=
  let r := name_query_recv qsort ifs sub_req sub_state true
  let state : name_queries_state :=
    match r.2 with
    | some out =>
      { state with
        result_addrs := out.addrs
        num_result_addrs := out.num_addrs
        flags := out.flags.getD state.flags }
    | none => state
  let i := name_queries_find state.subreqs subreq state.num_sent state.num_sent 0
  if i = state.num_sent then
    { state with req := .user_error NT_STATUS_INTERNAL_ERROR }
  else
    let state : name_queries_state :=
      { state with
        subreqs := state.subreqs.set i none
        num_received := state.num_received + 1 }
    if !NT_STATUS_IS_OK r.1 then
      if state.num_received ≥ state.num_addrs then
        { state with req := (tevent_req_nterror r.1).getD state.req }
      else state
    else
      { state with received_index := i, req := .done }

/-- The callback `name_queries_next(subreq)` of the wait; `wakeup_ok` is the
result of `tevent_wakeup_recv`. -/
def name_queries_next (state : name_queries_state) (wakeup_ok : Bool) : name_queries_state :=
  if !wakeup_ok then
    { state with wakeup := false, req := .user_error NT_STATUS_INTERNAL_ERROR }
  else
    { state with
      started := state.started ++ [state.num_sent]
      oob := state.oob || decide (state.num_addrs ≤ state.num_sent)
      subreqs := state.subreqs.set state.num_sent (some state.num_sent)
      num_sent := state.num_sent + 1
      wakeup := decide (state.num_sent + 1 < state.num_addrs) }

/-- An event of the fan-out: the wait for the next send is over, or the
sub-request with handle `subreq` has finished. -/
inductive name_queries_event
  | wakeup (wakeup_ok : Bool)
  | completed (subreq : Nat) (sub_req : tevent_req_state) (sub_state : name_query_state)
  deriving DecidableEq, Repr

/-- Modelled from the spec: the event loop calls a callback of the fan-out only
while the fan-out is running, the wait callback only when a wait is pending and
the completion callback only for a sub-request that is outstanding; any other
event leaves the state as it is. -/
def name_queries_step (qsort : QsortAddr) (ifs : Interfaces) (state : name_queries_state) :
    name_queries_event → name_queries_state
  | .wakeup wakeup_ok =>
    if state.req = .in_progress ∧ state.wakeup = true then name_queries_next state wakeup_ok
    else state
  | .completed subreq sub_req sub_state =>
    if state.req = .in_progress ∧ state.subreqs.getD subreq none = some subreq then
      name_queries_done qsort ifs state subreq sub_req sub_state
    else state

/-- The state of the fan-out after the events `evs`, from `state`. -/
def name_queries_run (qsort : QsortAddr) (ifs : Interfaces) (state : name_queries_state)
    (evs : List name_queries_event) : name_queries_state :=
  evs.foldl (name_queries_step qsort ifs) state

/-- The number of sub-requests that are outstanding: the entries of `subreqs`
that are not NULL. -/
def name_queries_outstanding : List (Option Nat) → Nat
  | [] => 0
  | none :: rest => name_queries_outstanding rest
  | some _ :: rest => name_queries_outstanding rest + 1

/-- The invariant of the fan-out states: `subreqs` has `num_addrs` slots, at
most `num_addrs` queries were started, slot `k` holds either NULL or the handle
`k` of a started query, `num_received` counts the started queries that are no
longer outstanding, and a wait is pending only when a target is left. -/
def name_queries_inv (s : name_queries_state) : Prop :=
  s.subreqs.length = s.num_addrs
  ∧ s.num_sent ≤ s.num_addrs
  ∧ (∀ k h, s.subreqs.getD k none = some h → h = k ∧ k < s.num_sent)
  ∧ s.num_received + name_queries_outstanding s.subreqs = s.num_sent
  ∧ (s.wakeup = true → s.num_sent < s.num_addrs)
  ∧ s.oob = false

/-- The state of a fan-out over `n` targets after the events `evs`. -/
def name_queries_reached (qsort : QsortAddr) (ifs : Interfaces) (n : Nat)
    (evs : List name_queries_event) : name_queries_state :=
  name_queries_run qsort ifs (name_queries_send n) evs

/-! ## Per-tag WINS probe: `query_wins_list_send`, `query_wins_list_done`, `query_wins_list_recv` -/

/-- The function `set_socket_addr_v4(addr)`, the source address of the name
queries; `interpreted` is the result of `interpret_string_addr` on
`lp_nbt_client_socket_address()` (`none` when it returns false). -/
def set_socket_addr_v4 (interpreted : Option sockaddr_storage) : sockaddr_storage :=
  let addr :=
    match interpreted with
    | some a => a
    | none => zero_sockaddr
  if addr.ss_family ≠ AF_INET then zero_sockaddr else addr

/-- The function `my_socket_addr_v4()`: the IPv4 address of `set_socket_addr_v4`. -/
def my_socket_addr_v4 (interpreted : Option sockaddr_storage) : Nat :=
  (set_socket_addr_v4 interpreted).addr

/-- Modelled from the spec: `in_addr_to_sockaddr_storage(ss, ip)`. -/
def in_addr_to_sockaddr_storage (ip : Nat) : sockaddr_storage :=
  { ss_family := AF_INET, addr := ip }

/-- The fields of `struct query_wins_list_state` with the state `req` of the
probe; `servers` is the array of `num_servers` addresses.  `queried` lists
the destinations of the `name_query_send` calls and `dead` the arguments of
the `wins_srv_died` calls, both in call order. -/
structure query_wins_list_state where
  servers : List Nat
  server : sockaddr_storage
  num_sent : Nat
  addrs : List sockaddr_storage
  num_addrs : Nat
  flags : Nat
  queried : List sockaddr_storage
  dead : List (Nat × Nat)
  req : tevent_req_state
  deriving DecidableEq, Repr

/-- The function `query_wins_list_send(…, src_ip, name, name_type, servers,
num_servers)`; the parameter `src_ip` is not used by the code. -/
def query_wins_list_send (servers : List Nat) : query_wins_list_state :=
  if servers.length = 0 then
    { servers := servers, server := zero_sockaddr, num_sent := 0, addrs := [], num_addrs := 0,
      flags := 0, queried := [], dead := [], req := .user_error NT_STATUS_NOT_FOUND }
  else
    { servers := servers
      server := in_addr_to_sockaddr_storage (servers.getD 0 0)
      num_sent := 1
      addrs := []
      num_addrs := 0
      flags := 0
      queried := [in_addr_to_sockaddr_storage (servers.getD 0 0)]
      dead := []
      req := .in_progress }

/-- The callback `query_wins_list_done(subreq)` for the query whose request is
in the state `sub_req` and whose query state is `sub_state`; `interpreted`
is as for `set_socket_addr_v4`. -/
def query_wins_list_done (qsort : QsortAddr) (ifs : Interfaces)
    (interpreted : Option sockaddr_storage) (state : query_wins_list_state)
    (sub_req : tevent_req_state) (sub_state : name_query_state) : query_wins_list_state :=
  let r := name_query_recv qsort ifs sub_req sub_state true
  let state : query_wins_list_state :=
    match r.2 with
    | some out =>
      { state with
        addrs := out.addrs
        num_addrs := out.num_addrs
        flags := out.flags.getD state.flags }
    | none => state
  if NT_STATUS_IS_OK r.1 then { state with req := .done }
  else if !(r.1 == NT_STATUS_IO_TIMEOUT) then
    { state with req := (tevent_req_nterror r.1).getD state.req }
  else
    let state : query_wins_list_state :=
      { state with
        dead := state.dead ++
          [(state.servers.getD (state.num_sent - 1) 0, my_socket_addr_v4 interpreted)] }
    if state.num_sent = state.servers.length then
      { state with req := .user_error NT_STATUS_NOT_FOUND }
    else
      { state with
        server := in_addr_to_sockaddr_storage (state.servers.getD state.num_sent 0)
        queried := state.queried ++
          [in_addr_to_sockaddr_storage (state.servers.getD state.num_sent 0)]
        num_sent := state.num_sent + 1 }

/-- The function `query_wins_list_recv(req, mem_ctx, addrs, num_addrs,
flags)`; the booleans say which of the pointers are not NULL. -/
def query_wins_list_recv (state : query_wins_list_state)
    (want_addrs want_num want_flags : Bool) :
    NTSTATUS × Option (Option (List sockaddr_storage) × Option Nat × Option Nat) :=
  match tevent_req_is_nterror state.req with
  | some status => (status, none)
  | none =>
    (NT_STATUS_OK,
      some (if want_addrs then some state.addrs else none,
            if want_num then some state.num_addrs else none,
            if want_flags then some state.flags else none))

/-- Modelled from the spec: the event loop calls the completion callback only
while the probe is running; the probe has one query outstanding at a time. -/
def query_wins_list_step (qsort : QsortAddr) (ifs : Interfaces)
    (interpreted : Option sockaddr_storage) (state : query_wins_list_state)
    (outcome : tevent_req_state × name_query_state) : query_wins_list_state :=
  if state.req = .in_progress then
    query_wins_list_done qsort ifs interpreted state outcome.1 outcome.2
  else state

/-- The state of the probe of `servers` after its queries ended as `outcomes`
says, in order. -/
def query_wins_list_reached (qsort : QsortAddr) (ifs : Interfaces)
    (interpreted : Option sockaddr_storage) (servers : List Nat)
    (outcomes : List (tevent_req_state × name_query_state)) : query_wins_list_state :=
  outcomes.foldl (query_wins_list_step qsort ifs interpreted) (query_wins_list_send servers)

/-! ## Domain controller lists: `get_dc_list` and `get_kdc_list` -/

/-- The status `NT_STATUS_NO_LOGON_SERVERS`. -/
def NT_STATUS_NO_LOGON_SERVERS : NTSTATUS := 0xC000005E
/-- The constant `LDAP_PORT`. -/
def LDAP_PORT : Nat := 389
/-- The constant `DEFAULT_KRB5_PORT`. -/
def DEFAULT_KRB5_PORT : Nat := 88

/-- The private type `enum dc_lookup_type`. -/
inductive dc_lookup_type
  | DC_NORMAL_LOOKUP
  | DC_ADS_ONLY
  | DC_KDC_ONLY
  deriving DecidableEq, Repr

export dc_lookup_type (DC_NORMAL_LOOKUP DC_ADS_ONLY DC_KDC_ONLY)

/-- Modelled from the spec: `str_list_check_ci(list, s)`, whether `s` is in
the list, compared without regard to case. -/
def str_list_check_ci (list : List String) (s : String) : Bool :=
  list.any (fun t => strequal t s)

/-- The choices made at the start of `get_dc_list`. -/
structure DcPolicy where
  resolve_order : List String
  ordered : Bool
  auto_name_type : Nat
  deriving DecidableEq, Repr

/-- The start of `get_dc_list`: from the lookup type and the configured order
(`lp_name_resolve_order()`), the order and the name type of the automatic
lookup and the initial value of `*ordered`. -/
def get_dc_list_policy (lookup_type : dc_lookup_type) (configured : List String) : DcPolicy :=
  if lookup_type = DC_ADS_ONLY then
    if str_list_check_ci configured "host" then
      { resolve_order := ["ads"], ordered := true, auto_name_type := 0x1C }
    else
      { resolve_order := ["NULL"], ordered := false, auto_name_type := 0x1C }
  else if lookup_type = DC_KDC_ONLY then
    { resolve_order := ["kdc"], ordered := true, auto_name_type := KDC_NAME_TYPE }
  else
    { resolve_order := configured, ordered := false, auto_name_type := 0x1C }

/-- What `get_dc_list` does, in order: the automatic lookup with its
arguments and status, and for each token of the second pass the entries
copied into the result and those left out. -/
inductive DcEvent
  | lookup (name_type : Nat) (sitename : Option String) (resolve_order : List String)
      (status : NTSTATUS)
  | auto_copied (entry : ip_service)
  | auto_negative (entry : ip_service)
  | named_copied (name : String) (entry : ip_service)
  | named_negative (name : String) (ss : sockaddr_storage)
  | named_unresolved (name : String)
  deriving DecidableEq, Repr

/-- The variables of the first token loop of `get_dc_list`; `fault` says
that the automatic lookup had undefined behaviour. -/
structure DcCount where
  num_addresses : Nat
  done_auto_lookup : Bool
  auto_ip_list : List ip_service
  cache : NameCache
  trace : List DcEvent
  fault : Bool
  deriving DecidableEq, Repr

/-- The first token loop of `get_dc_list`, over the tokens that are left. -/
def get_dc_list_count (env : Env) (domain : String) (sitename : Option String)
    (policy : DcPolicy) : List String → DcCount → DcCount
  | [], st => st
  | name :: rest, st =>
    if st.fault then st
    else if !st.done_auto_lookup && strequal name "*" then
      let r := internal_resolve_name env st.cache domain policy.auto_name_type sitename
        (some policy.resolve_order)
      match r.outcome with
      | .fault => { st with fault := true, cache := r.cache }
      | .ret status iplist =>
        get_dc_list_count env domain sitename policy rest
          { num_addresses :=
              if NT_STATUS_IS_OK status then st.num_addresses + iplist.length
              else st.num_addresses
            done_auto_lookup := true
            auto_ip_list := iplist
            cache := r.cache
            trace := st.trace ++
              [.lookup policy.auto_name_type sitename policy.resolve_order status]
            fault := false }
    else
      get_dc_list_count env domain sitename policy rest
        { st with num_addresses := st.num_addresses + 1 }

/-- The variables of the second token loop of `get_dc_list`: `return_iplist`
holds the `local_count` entries written so far; `fault` says that an entry
was written past the `num_addresses` allocated slots, or that `resolve_name`
had undefined behaviour. -/
structure DcFill where
  return_iplist : List ip_service
  ordered : Bool
  cache : NameCache
  trace : List DcEvent
  fault : Bool
  deriving DecidableEq, Repr

/-- The inner loop of the second pass, `for (j=0; j<auto_count; j++)`, over
the entries of the automatic lookup that are left. -/
def get_dc_list_copy_auto (cfg : Config) (domain : String) (num_addresses : Nat) :
    List ip_service → DcFill → DcFill
  | [], st => st
  | e :: rest, st =>
    if st.fault then st
    else if !NT_STATUS_IS_OK (cfg.check_negative_conn_cache domain e.ss) then
      get_dc_list_copy_auto cfg domain num_addresses rest
        { st with trace := st.trace ++ [.auto_negative e] }
    else if num_addresses ≤ st.return_iplist.length then
      { st with fault := true }
    else
      get_dc_list_copy_auto cfg domain num_addresses rest
        { st with
          return_iplist := st.return_iplist ++ [{ ss := e.ss, port := e.port }]
          trace := st.trace ++ [.auto_copied e] }

/-- The port of a named token in `get_dc_list`: the default of the lookup
type, or what follows the first colon of the token (except for
`DC_KDC_ONLY`). -/
def get_dc_list_port (cfg : Config) (lookup_type : dc_lookup_type) (name : String) : Nat :=
  let port :=
    if lookup_type = DC_ADS_ONLY then LDAP_PORT
    else if lookup_type = DC_KDC_ONLY then DEFAULT_KRB5_PORT
    else PORT_NONE
  if ':' ∈ name.data then
    if lookup_type ≠ DC_KDC_ONLY then
      cfg.atoi ⟨(name.data.dropWhile (fun c => c != ':')).drop 1⟩
    else port
  else port

/-- The name of a named token after `*port_str = 0`: the token cut at its
first colon. -/
def get_dc_list_name (name : String) : String :=
  ⟨name.data.takeWhile (fun c => c != ':')⟩

/-- The second token loop of `get_dc_list` ("fill in the return list now
with real IP's"), over the tokens that are left. -/
def get_dc_list_fill (env : Env) (cfg : Config) (domain : String)
    (lookup_type : dc_lookup_type) (num_addresses : Nat) (auto_ip_list : List ip_service) :
    List String → DcFill → DcFill
  | [], st => st
  | name :: rest, st =>
    if st.fault then st
    else if ¬ st.return_iplist.length < num_addresses then st
    else if strequal name "*" then
      get_dc_list_fill env cfg domain lookup_type num_addresses auto_ip_list rest
        (get_dc_list_copy_auto cfg domain num_addresses auto_ip_list st)
    else
      let port := get_dc_list_port cfg lookup_type name
      let name := get_dc_list_name name
      let r := resolve_name env cfg st.cache name 0x20 true
      match r.outcome with
      | .fault => { st with fault := true, cache := r.cache }
      | .ret none =>
        get_dc_list_fill env cfg domain lookup_type num_addresses auto_ip_list rest
          { st with cache := r.cache, trace := st.trace ++ [.named_unresolved name] }
      | .ret (some name_ss) =>
        if !NT_STATUS_IS_OK (cfg.check_negative_conn_cache domain name_ss) then
          get_dc_list_fill env cfg domain lookup_type num_addresses auto_ip_list rest
            { st with cache := r.cache, trace := st.trace ++ [.named_negative name name_ss] }
        else
          get_dc_list_fill env cfg domain lookup_type num_addresses auto_ip_list rest
            { return_iplist := st.return_iplist ++ [{ ss := name_ss, port := port }]
              ordered := true
              cache := r.cache
              trace := st.trace ++ [.named_copied name { ss := name_ss, port := port }]
              fault := false }

/-- The result of `get_dc_list`: the status with `*ip_list` (its first
`*count` entries), or `fault`; `*ordered`; the name cache afterwards; and
what was done. -/
structure DcResult where
  outcome : Outcome
  ordered : Bool
  cache : NameCache
  trace : List DcEvent
  deriving DecidableEq, Repr

/-- The string `pserver` of `get_dc_list`: the server we have affinity for
and the `password server` list, or `*` for a domain other than ours. -/
def get_dc_list_pserver (cfg : Config) (gencache : GenCache) (domain : String) : String :=
  let saf_servername := saf_fetch gencache (some domain)
  if strequal domain cfg.workgroup || strequal domain cfg.realm then
    saf_servername.getD "" ++ ", " ++ cfg.password_server
  else
    saf_servername.getD "" ++ ", *"

/-- The end of `get_dc_list`, from `remove_duplicate_addrs2` on. -/
def get_dc_list_finish (st : DcFill) : DcResult :=
  if st.fault then
    { outcome := .fault, ordered := st.ordered, cache := st.cache, trace := st.trace }
  else
    match remove_duplicate_addrs2 st.return_iplist st.return_iplist.length with
    | none => { outcome := .fault, ordered := st.ordered, cache := st.cache, trace := st.trace }
    | some (return_iplist, local_count) =>
      let return_iplist :=
        if local_count ≠ 0 then prioritize_ipv4_list return_iplist local_count
        else return_iplist
      { outcome :=
          if local_count ≠ 0 then .ret NT_STATUS_OK (return_iplist.take local_count)
          else .ret NT_STATUS_NO_LOGON_SERVERS []
        ordered := st.ordered
        cache := st.cache
        trace := st.trace }

/-- The function `get_dc_list(domain, sitename, ip_list, count, lookup_type,
ordered)` with the server affinity cache `gencache` and the name cache as
explicit state; `cfg.next_tokens` lists the tokens that `next_token_talloc`
yields for `LIST_SEP`. -/
def get_dc_list (env : Env) (cfg : Config) (gencache : GenCache) (cache : NameCache)
    (domain : String) (sitename : Option String) (lookup_type : dc_lookup_type) : DcResult :=
  let policy := get_dc_list_policy lookup_type cfg.name_resolve_order
  let tokens := cfg.next_tokens (get_dc_list_pserver cfg gencache domain)
  let c := get_dc_list_count env domain sitename policy tokens
    { num_addresses := 0, done_auto_lookup := false, auto_ip_list := [], cache := cache,
      trace := [], fault := false }
  if c.fault then
    { outcome := .fault, ordered := policy.ordered, cache := c.cache, trace := c.trace }
  else if c.num_addresses = 0 then
    if c.done_auto_lookup then
      { outcome := .ret NT_STATUS_NO_LOGON_SERVERS [], ordered := policy.ordered,
        cache := c.cache, trace := c.trace }
    else
      let r := internal_resolve_name env c.cache domain policy.auto_name_type sitename
        (some policy.resolve_order)
      match r.outcome with
      | .fault =>
        { outcome := .fault, ordered := policy.ordered, cache := r.cache, trace := c.trace }
      | .ret status iplist =>
        { outcome := if NT_STATUS_IS_OK status then .ret status iplist else .ret status []
          ordered := policy.ordered
          cache := r.cache
          trace := c.trace ++
            [.lookup policy.auto_name_type sitename policy.resolve_order status] }
  else
    get_dc_list_finish
      (get_dc_list_fill env cfg domain lookup_type c.num_addresses c.auto_ip_list tokens
        { return_iplist := [], ordered := policy.ordered, cache := c.cache, trace := c.trace,
          fault := false })

/-- The function `get_kdc_list(realm, sitename, ip_list, count)`: the status
with the list, or `fault`. -/
def get_kdc_list (qsort : Qsort) (ifs : Interfaces) (env : Env) (cfg : Config)
    (gencache : GenCache) (cache : NameCache) (realm : String) (sitename : Option String) :
    Outcome :=
  let r := get_dc_list env cfg gencache cache realm sitename DC_KDC_ONLY
  match r.outcome with
  | .fault => .fault
  | .ret status ip_list =>
    if !NT_STATUS_IS_OK status then .ret status []
    else if !r.ordered then .ret NT_STATUS_OK (sort_service_list qsort ifs ip_list)
    else .ret NT_STATUS_OK ip_list

/-- Whether an event is the automatic lookup. -/
def DcEvent.is_lookup : DcEvent → Bool
  | .lookup _ _ _ _ => true
  | _ => false

/-- Whether an event is the copy of a named server into the result. -/
def DcEvent.is_named_copied : DcEvent → Bool
  | .named_copied _ _ => true
  | _ => false

/-- One change of the variables of the second token loop of `get_dc_list`:
an entry of the automatic lookup is left out or copied, a named server is not
resolved, left out or copied, or the loop stops on undefined behaviour.  An
entry is copied only when `check_negative_conn_cache` reports success for
it. -/
inductive DcFillStep (cfg : Config) (domain : String) : DcFill → DcFill → Prop
  | auto_negative (st : DcFill) (e : ip_service)
      (h : NT_STATUS_IS_OK (cfg.check_negative_conn_cache domain e.ss) = false) :
      DcFillStep cfg domain st { st with trace := st.trace ++ [.auto_negative e] }
  | auto_copied (st : DcFill) (e : ip_service)
      (h : NT_STATUS_IS_OK (cfg.check_negative_conn_cache domain e.ss) = true) :
      DcFillStep cfg domain st
        { st with
          return_iplist := st.return_iplist ++ [{ ss := e.ss, port := e.port }]
          trace := st.trace ++ [.auto_copied e] }
  | fault (st : DcFill) (cache : NameCache) :
      DcFillStep cfg domain st { st with fault := true, cache := cache }
  | named_unresolved (st : DcFill) (cache : NameCache) (name : String) :
      DcFillStep cfg domain st
        { st with cache := cache, trace := st.trace ++ [.named_unresolved name] }
  | named_negative (st : DcFill) (cache : NameCache) (name : String) (ss : sockaddr_storage)
      (h : NT_STATUS_IS_OK (cfg.check_negative_conn_cache domain ss) = false) :
      DcFillStep cfg domain st
        { st with cache := cache, trace := st.trace ++ [.named_negative name ss] }
  | named_copied (st : DcFill) (cache : NameCache) (name : String) (ss : sockaddr_storage)
      (port : Nat)
      (h : NT_STATUS_IS_OK (cfg.check_negative_conn_cache domain ss) = true) :
      DcFillStep cfg domain st
        { return_iplist := st.return_iplist ++ [{ ss := ss, port := port }]
          ordered := true
          cache := cache
          trace := st.trace ++ [.named_copied name { ss := ss, port := port }]
          fault := false }

/-! ## The reply validator of a name query: `name_query_validator` -/

/-- The flags `nm_flags` of the header of an NMB packet. -/
structure nmb_flags where
  bcast : Bool
  recursion_available : Bool
  recursion_desired : Bool
  trunc : Bool
  authoritative : Bool
  deriving DecidableEq, Repr

/-- The fields of the header of an NMB packet (`nmb->header`) that the code
reads. -/
structure nmb_header where
  name_trn_id : Nat
  opcode : Nat
  response : Bool
  nm_flags : nmb_flags
  rcode : Nat
  ancount : Nat
  deriving DecidableEq, Repr

/-- A resource record (`struct res_rec`): its type, the length `rdlength` and
the bytes `rdata`, a function from offsets to byte values. -/
structure res_rec where
  rr_type : Nat
  rdlength : Nat
  rdata : Nat → Nat

/-- An NMB packet (`struct nmb_packet` inside `struct packet_struct`): the
header and the answer record `nmb->answers`, which the packet codec provides
whenever `ancount` is not 0. -/
structure nmb_packet where
  header : nmb_header
  answers : res_rec

/-- The header constant `NM_FLAGS_RS`. -/
def NM_FLAGS_RS : Nat := 0x80
/-- The header constant `NM_FLAGS_AA`. -/
def NM_FLAGS_AA : Nat := 0x40
/-- The header constant `NM_FLAGS_TC`. -/
def NM_FLAGS_TC : Nat := 0x20
/-- The header constant `NM_FLAGS_RD`. -/
def NM_FLAGS_RD : Nat := 0x10
/-- The header constant `NM_FLAGS_RA`. -/
def NM_FLAGS_RA : Nat := 0x08
/-- The header constant `NM_FLAGS_B`. -/
def NM_FLAGS_B : Nat := 0x01

/-- The macro `RSVAL(buf, pos)`: the 16-bit value at `buf + pos`, most
significant byte first. -/
def RSVAL (buf : Nat → Nat) (pos : Nat) : Nat :=
  CVAL buf pos * 256 + CVAL buf (pos + 1)

/-- The address that `putip` and `in_addr_to_sockaddr_storage` make of the four
bytes at `buf + pos`. -/
def putip (buf : Nat → Nat) (pos : Nat) : sockaddr_storage :=
  in_addr_to_sockaddr_storage
    (((CVAL buf pos * 256 + CVAL buf (pos + 1)) * 256 + CVAL buf (pos + 2)) * 256
      + CVAL buf (pos + 3))

/-- The search loop `for (j=0; j<state->num_addrs; j++)` of the validator:
whether it ends with `j < state->num_addrs`, that is, `addr` is among the
accumulated addresses. -/
def name_query_have_addr (addr : sockaddr_storage) : List sockaddr_storage → Bool
  | [] => false
  | a :: rest => if sockaddr_equal addr a then true else name_query_have_addr addr rest

/-- The record loop `for (i=0; i<nmb->answers->rdlength/6; i++)` of the
validator, for the `n` records from index `i` on: the accumulated addresses
and `got_unique_netbios_name` after the loop. -/
def name_query_records (rdata : Nat → Nat) :
    Nat → Nat → List sockaddr_storage × Bool → List sockaddr_storage × Bool
  | 0, _, acc => acc
  | n + 1, i, (addrs, got_unique_netbios_name) =>
    let flags := RSVAL rdata (i * 6)
    let got_unique_netbios_name := got_unique_netbios_name || (flags &&& 0x8000 == 0)
    let addr := putip rdata (2 + i * 6)
    if is_zero_addr addr then
      name_query_records rdata n (i + 1) (addrs, got_unique_netbios_name)
    else if name_query_have_addr addr addrs then
      name_query_records rdata n (i + 1) (addrs, got_unique_netbios_name)
    else
      name_query_records rdata n (i + 1) (addrs ++ [addr], got_unique_netbios_name)

/-- The function `name_query_validator(p, private_data)`: the value returned
(whether the reply is accepted) and the query state afterwards. -/
def name_query_validator (state : name_query_state) (nmb : nmb_packet) :
    Bool × name_query_state :=
  if nmb.header.opcode = 0 ∧ state.bcast = false ∧ nmb.header.rcode ≠ 0 then
    (true, { state with validate_error := NT_STATUS_NOT_FOUND })
  else if nmb.header.opcode ≠ 0 ∨ nmb.header.nm_flags.bcast = true ∨ nmb.header.rcode ≠ 0
      ∨ nmb.header.ancount = 0 then
    (false, state)
  else
    let r := name_query_records nmb.answers.rdata (nmb.answers.rdlength / 6) 0
      (state.addrs, false)
    let flags := state.flags
    let flags := if nmb.header.response then flags ||| NM_FLAGS_RS else flags
    let flags := if nmb.header.nm_flags.authoritative then flags ||| NM_FLAGS_AA else flags
    let flags := if nmb.header.nm_flags.trunc then flags ||| NM_FLAGS_TC else flags
    let flags := if nmb.header.nm_flags.recursion_desired then flags ||| NM_FLAGS_RD else flags
    let flags :=
      if nmb.header.nm_flags.recursion_available then flags ||| NM_FLAGS_RA else flags
    let flags := if nmb.header.nm_flags.bcast then flags ||| NM_FLAGS_B else flags
    let state : name_query_state := { state with addrs := r.1, flags := flags }
    if state.bcast then (r.2, state) else (true, state)

/-- The query state after the replies `replies` were passed to the validator
one after the other. -/
def name_query_validate_all (state : name_query_state) (replies : List nmb_packet) :
    name_query_state :=
  replies.foldl (fun s nmb => (name_query_validator s nmb).2) state

/-- The state of a name query when `name_query_send` has started it: no
validation error, no flags, no address. -/
def name_query_start (bcast : Bool) : name_query_state :=
  { bcast := bcast, validate_error := NT_STATUS_OK, flags := 0, addrs := [] }

/-- A negative name query response: opcode 0, rcode 3 ("the name requested
does not exist"), no answer. -/
def example_negative_reply : nmb_packet :=
  { header :=
      { name_trn_id := 7, opcode := 0, response := true,
        nm_flags := { bcast := false, recursion_available := true, recursion_desired := true,
                      trunc := false, authoritative := true },
        rcode := 3, ancount := 0 }
    answers := { rr_type := 0, rdlength := 0, rdata := fun _ => 0 } }

/-- A positive name query response with the three records (group, `10.0.0.7`),
(group, `0.0.0.0`) and (unique, `10.0.0.7`) when `unique` is true, and with
the first two only otherwise. -/
def example_positive_reply (unique : Bool) : nmb_packet :=
  { header :=
      { name_trn_id := 7, opcode := 0, response := true,
        nm_flags := { bcast := false, recursion_available := false, recursion_desired := true,
                      trunc := false, authoritative := true },
        rcode := 0, ancount := 1 }
    answers :=
      { rr_type := 0x20
        rdlength := if unique then 18 else 12
        rdata := fun i =>
          ([0x80, 0, 10, 0, 0, 7, 0x80, 0, 0, 0, 0, 0, 0x00, 0, 10, 0, 0, 7] : List Nat).getD i 0 } }

/-! ## The socket path of the transaction engine: `sock_packet_read_got_socket` -/

/-- The fields of `struct sock_packet_read_state` that the socket callback
uses, with the state `req` of the read request: `has_reader_req` and
`has_socket_req` say that `reader_req` and `socket_req` are not NULL, and the
validator works on the private data of type `π`. -/
structure sock_packet_read_state (π : Type) where
  trn_id : Int
  has_reader_req : Bool
  has_socket_req : Bool
  validator : Option (nmb_packet → π → Bool × π)
  private_data : π
  packet : Option nmb_packet
  req : tevent_req_state

/-- What the socket callback learns about a datagram: the result `received`
of `tdgram_recvfrom_recv` with its error `err`, the result of
`tsocket_address_is_inet(addr, "ipv4")`, the result `bsd_sockaddr` of
`tsocket_address_bsd_sockaddr` with the `errno` it leaves, and the packet that
`parse_packet_talloc` makes of the bytes (`none` for NULL). -/
structure received_datagram where
  received : Int
  err : Nat
  is_inet_ipv4 : Bool
  bsd_sockaddr : Int
  errno : Nat
  parsed : Option nmb_packet

/-- The code at the label `retry` of `sock_packet_read_got_socket`: free the
packet, the buffer and the address, and post a new receive. -/
def sock_packet_read_retry {π : Type} (state : sock_packet_read_state π) :
    sock_packet_read_state π :=
  { state with packet := none, has_socket_req := true }

/-- The callback `sock_packet_read_got_socket(subreq)` for the datagram `d`;
`map_nt_error_from_unix` and `packet_trn_id` are the functions of these
names. -/
def sock_packet_read_got_socket {π : Type} (map_nt_error_from_unix : Nat → NTSTATUS)
    (packet_trn_id : nmb_packet → Int) (state : sock_packet_read_state π)
    (d : received_datagram) : sock_packet_read_state π :=
  let state : sock_packet_read_state π := { state with has_socket_req := false }
  if d.received = -1 then
    if state.has_reader_req then state
    else
      { state with req := (tevent_req_nterror (map_nt_error_from_unix d.err)).getD state.req }
  else if !d.is_inet_ipv4 then sock_packet_read_retry state
  else if d.bsd_sockaddr = -1 then
    { state with req := (tevent_req_nterror (map_nt_error_from_unix d.errno)).getD state.req }
  else
    match d.parsed with
    | none => sock_packet_read_retry state
    | some p =>
      let state : sock_packet_read_state π := { state with packet := some p }
      if state.trn_id ≠ -1 ∧ state.trn_id ≠ packet_trn_id p then sock_packet_read_retry state
      else
        match state.validator with
        | none => { state with req := .done }
        | some validator =>
          let r := validator p state.private_data
          if !r.1 then sock_packet_read_retry { state with private_data := r.2 }
          else { state with private_data := r.2, req := .done }

/-- The conditions under which a datagram completes the read. -/
def sock_packet_read_accepts {π : Type} (packet_trn_id : nmb_packet → Int)
    (state : sock_packet_read_state π) (d : received_datagram) : Prop :=
  d.is_inet_ipv4 = true
  ∧ ∃ p, d.parsed = some p
      ∧ (state.trn_id = -1 ∨ state.trn_id = packet_trn_id p)
      ∧ ∀ validator, state.validator = some validator →
          (validator p state.private_data).1 = true

/-- A read for transaction 7 that waits on the socket only, with the
validator of a unicast name query. -/
def example_read_state : sock_packet_read_state name_query_state :=
  { trn_id := 7
    has_reader_req := false
    has_socket_req := true
    validator := some (fun p st => name_query_validator st p)
    private_data := name_query_start false
    packet := none
    req := .in_progress }

/-- A table for `map_nt_error_from_unix`: `EINVAL` (22) is
`NT_STATUS_INVALID_PARAMETER`. -/
def example_map_nt_error (err : Nat) : NTSTATUS :=
  if err = 22 then NT_STATUS_INVALID_PARAMETER else NT_STATUS_UNSUCCESSFUL

/-- A datagram from an IPv4 peer that parses as the positive reply with a
unique name for transaction 7; `bsd_sockaddr` is the result of the address
conversion. -/
def example_datagram (bsd_sockaddr : Int) : received_datagram :=
  { received := 62, err := 0, is_inet_ipv4 := true, bsd_sockaddr := bsd_sockaddr, errno := 22,
    parsed := some (example_positive_reply true) }

/-! ## Node status query: `node_status_query_validator`, `node_status_query_done`, `node_status_query_recv` -/

/-- The function `node_status_query_validator(p, private_data)`. -/
def node_status_query_validator (nmb : nmb_packet) : Bool :=
  if nmb.header.opcode ≠ 0 ∨ nmb.header.nm_flags.bcast = true ∨ nmb.header.rcode ≠ 0
      ∨ nmb.header.ancount = 0 ∨ nmb.answers.rr_type ≠ 0x21 then false
  else true

/-- The callback `node_status_query_done(subreq)`: the state of the query's
request after the transaction ended with `status` (from `nb_trans_recv`, which
also leaves the accepted packet in `state->packet`). -/
def node_status_query_done (status : NTSTATUS) : tevent_req_state :=
  match tevent_req_nterror status with
  | some failed => failed
  | none => .done

/-- The value and the out-parameters of `node_status_query_recv`:
`*pnode_status` and `*pnum_names` are written on success only, and
`extra->mac_addr` by `parse_node_status`. -/
structure node_status_out where
  status : NTSTATUS
  node_status : Option (List node_status)
  num_names : Option Nat
  mac_addr : Option (List Nat)
  deriving DecidableEq, Repr

/-- The function `node_status_query_recv(req, mem_ctx, pnode_status,
pnum_names, extra)` for the request state `req` and the packet
`state->packet`; `extra` says that the pointer `extra` is not NULL. -/
def node_status_query_recv (req : tevent_req_state) (packet : nmb_packet) (extra : Bool) :
    node_status_out :=
  match tevent_req_is_nterror req with
  | some status => { status := status, node_status := none, num_names := none, mac_addr := none }
  | none =>
    let r := parse_node_status packet.answers.rdata extra
    match r.ret with
    | none =>
      { status := NT_STATUS_NO_MEMORY, node_status := none, num_names := none,
        mac_addr := r.mac_addr }
    | some node_status =>
      { status := NT_STATUS_OK, node_status := some node_status, num_names := some r.num_names,
        mac_addr := r.mac_addr }

/-- A node status reply (opcode 0, rcode 0, one answer of type 0x21) whose
RDATA starts with the name count 0. -/
def example_empty_node_status : nmb_packet :=
  { header :=
      { name_trn_id := 9, opcode := 0, response := true,
        nm_flags := { bcast := false, recursion_available := false, recursion_desired := false,
                      trunc := false, authoritative := true },
        rcode := 0, ancount := 1 }
    answers := { rr_type := 0x21, rdlength := 1, rdata := fun _ => 0 } }

/-! ## `find_master_ip` -/

/-- The statement `*master_ss = ip_list[0].ss` of `find_master_ip`: the read
of entry 0 is undefined behaviour when the list has no entry (`ip_list` is
NULL or has no slot). -/
def find_master_read (ip_list : List ip_service) : NameOutcome :=
  match ip_list with
  | [] => .fault
  | entry :: _ => .ret (some entry.ss)

/-- The function `find_master_ip(group, master_ss)` with the name cache as
explicit state; `disable_netbios` is `lp_disable_netbios()`, and `none` is the
return value false. -/
def find_master_ip (env : Env) (cfg : Config) (cache : NameCache) (disable_netbios : Bool)
    (group : String) : NameResult :=
  if disable_netbios then { outcome := .ret none, cache := cache, trace := [] }
  else
    let r1 := internal_resolve_name env cache group 0x1D none (some cfg.name_resolve_order)
    match r1.outcome with
    | .fault => { outcome := .fault, cache := r1.cache, trace := r1.trace }
    | .ret status1 ip_list1 =>
      if NT_STATUS_IS_OK status1 then
        { outcome := find_master_read ip_list1, cache := r1.cache, trace := r1.trace }
      else
        let r2 := internal_resolve_name env r1.cache group 0x1B none
          (some cfg.name_resolve_order)
        match r2.outcome with
        | .fault => { outcome := .fault, cache := r2.cache, trace := r1.trace ++ r2.trace }
        | .ret status2 ip_list2 =>
          if NT_STATUS_IS_OK status2 then
            { outcome := find_master_read ip_list2, cache := r2.cache,
              trace := r1.trace ++ r2.trace }
          else { outcome := .ret none, cache := r2.cache, trace := r1.trace ++ r2.trace }

/-- The world of `example_env` in which the PDC SRV query succeeds with no
record. -/
def example_env_no_pdc_record : Env :=
  { example_env with ads_dns_query_pdc := fun _ => (NT_STATUS_OK, []) }

/-! ## `name_resolve_bcast_send` -/

/-- The copy loop of `name_resolve_bcast_send` over the interfaces that are
left: `bcast_addrs` holds the `num_bcast_addrs` broadcast addresses of family
`AF_INET` copied so far. -/
def name_resolve_bcast_loop : List sockaddr_storage → List sockaddr_storage →
    List sockaddr_storage
  | [], bcast_addrs => bcast_addrs
  | pss :: rest, bcast_addrs =>
    if pss.ss_family ≠ AF_INET then name_resolve_bcast_loop rest bcast_addrs
    else name_resolve_bcast_loop rest (bcast_addrs ++ [pss])

/-- What `name_resolve_bcast_send` leaves: the state of its request, the
broadcast addresses it collected, and the fan-out it started (`none` when it
started none). -/
structure name_resolve_bcast_started where
  req : tevent_req_state
  bcast_addrs : List sockaddr_storage
  subreq : Option name_queries_state
  deriving DecidableEq, Repr

/-- The function `name_resolve_bcast_send(mem_ctx, ev, name, name_type)`;
`disable_netbios` is `lp_disable_netbios()`. -/
def name_resolve_bcast_send (disable_netbios : Bool) (ifs : Interfaces) :
    name_resolve_bcast_started :=
  if disable_netbios then
    { req := .user_error NT_STATUS_INVALID_PARAMETER, bcast_addrs := [], subreq := none }
  else
    let bcast_addrs := name_resolve_bcast_loop ifs.bcast []
    { req := .in_progress
      bcast_addrs := bcast_addrs
      subreq := some (name_queries_send bcast_addrs.length) }

/-- A host whose only interface has an IPv6 broadcast address. -/
def example_interfaces_ipv6 : Interfaces :=
  { bcast := [⟨AF_INET6, 0x20010DB8FFFF⟩]
    iface_local := fun _ => false }

/-! ## The result of `remove_duplicate_addrs2` in other words -/

/-- A list with every later duplicate removed: an entry stays, and the
entries equal to it are removed from what follows. -/
def without_later_duplicates : List ip_service → List ip_service
  | [] => []
  | x :: xs => x :: (without_later_duplicates xs).filter (fun y => !decide (y = x))

/-- The list restricted to the entries whose address is not zero. -/
def nonzero_entries (L : List ip_service) : List ip_service :=
  L.filter (fun e => !is_zero_addr e.ss)

/-! ## Correctness of `remove_duplicate_addrs2` -/

theorem same_iff_eq (x y : ip_service) :
    (sockaddr_equal x.ss y.ss && x.port == y.port) = true ↔ x = y := by
  rcases x with ⟨⟨f1, a1⟩, p1⟩
  rcases y with ⟨⟨f2, a2⟩, p2⟩
  simp [sockaddr_equal, and_assoc]

theorem getD_append_cons (P : List ip_service) (x : ip_service) (T : List ip_service) :
    (P ++ x :: T).getD P.length default = x := by
  rw [List.getD_eq_getElem?_getD, List.getElem?_append_right (le_refl _)]
  simp

theorem mark_inner_spec (x : ip_service) :
    ∀ (R P Q : List ip_service),
      mark_inner P.length R.length (P.length + 1 + Q.length) (P ++ x :: (Q ++ R))
        = P ++ x :: (Q ++ R.map (zero_if_same x)) := by
  intro R
  induction R with
  | nil => intro P Q; simp [mark_inner]
  | cons r R ih =>
    intro P Q
    have hi : (P ++ x :: (Q ++ r :: R)).getD P.length default = x := getD_append_cons P x _
    have hj : (P ++ x :: (Q ++ r :: R)).getD (P.length + 1 + Q.length) default = r := by
      have h := getD_append_cons (P ++ x :: Q) r R
      have h2 : (P ++ x :: Q).length = P.length + 1 + Q.length := by simp; omega
      rw [h2] at h
      simpa [List.append_assoc] using h
    have hset : (P ++ x :: (Q ++ r :: R)).set (P.length + 1 + Q.length)
        { r with ss := zero_sockaddr } = P ++ x :: (Q ++ { r with ss := zero_sockaddr } :: R) := by
      have h1 : P ++ x :: (Q ++ r :: R) = (P ++ x :: Q) ++ r :: R := by simp
      have h2 : P.length + 1 + Q.length = (P ++ x :: Q).length := by simp; omega
      rw [h1, h2, List.set_append_right _ _ (le_refl _)]
      simp
    have ih' := ih P (Q ++ [zero_if_same x r])
    simp only [List.length_append, List.length_singleton, List.append_assoc,
      List.singleton_append] at ih'
    simp only [List.length_cons, mark_inner, hi, hj, hset, List.map_cons]
    have hlen : P.length + 1 + Q.length + 1 = P.length + 1 + (Q.length + 1) := by omega
    rw [hlen]
    by_cases hs : (sockaddr_equal x.ss r.ss && x.port == r.port) = true
    · rw [if_pos hs]
      have hz : zero_if_same x r = { r with ss := zero_sockaddr } := by
        simp only [zero_if_same, hs, if_true]
      rw [hz] at ih' ⊢
      exact ih'
    · rw [if_neg hs]
      have hz : zero_if_same x r = r := by
        simp only [zero_if_same, hs]; simp
      rw [hz] at ih' ⊢
      exact ih'

theorem mark_outer_spec :
    ∀ (n : Nat) (S P : List ip_service), S.length = n →
      mark_outer (P.length + S.length) S.length P.length (P ++ S) = P ++ mark_list S := by
  intro n
  induction n with
  | zero =>
    intro S P hS
    have : S = [] := List.length_eq_zero.mp hS
    subst this
    simp [mark_outer, mark_list]
  | succ n ih =>
    intro S P hS
    match S, hS with
    | x :: S', hS =>
      have hlen : S'.length = n := by simpa using hS
      have hi : (P ++ x :: S').getD P.length default = x := getD_append_cons P x S'
      simp only [List.length_cons, mark_outer, hi]
      by_cases hz : is_zero_addr x.ss = true
      · rw [if_pos hz]
        have h := ih S' (P ++ [x]) hlen
        simp only [List.length_append, List.length_singleton, List.append_assoc,
          List.singleton_append] at h
        have e : P.length + (S'.length + 1) = P.length + 1 + S'.length := by omega
        rw [e, h, mark_list, if_pos hz]
      · rw [if_neg hz]
        have hin := mark_inner_spec x S' P []
        simp only [List.length_nil, Nat.add_zero, List.nil_append] at hin
        have e1 : P.length + (S'.length + 1) - (P.length + 1) = S'.length := by omega
        rw [e1, hin]
        have h := ih (S'.map (zero_if_same x)) (P ++ [x]) (by simpa using hlen)
        simp only [List.length_append, List.length_singleton, List.append_assoc,
          List.singleton_append, List.length_map] at h
        have e : P.length + (S'.length + 1) = P.length + 1 + S'.length := by omega
        rw [e, h, mark_list, if_neg hz]

theorem memmove_spec (K S' G : List ip_service) (s : ip_service) :
    ∃ G', G'.length = G.length + 1 ∧
      (if (K.length + (S'.length + 1)) - K.length - 1 > 0 then
          memmove (K ++ (s :: S') ++ G) K.length (K.length + 1)
            ((K.length + (S'.length + 1)) - K.length - 1)
        else K ++ (s :: S') ++ G) = K ++ S' ++ G' := by
  have e : (K.length + (S'.length + 1)) - K.length - 1 = S'.length := by omega
  rw [e]
  by_cases h : S'.length > 0
  · rw [if_pos h]
    refine ⟨List.drop S'.length (s :: (S' ++ G)), ?_, ?_⟩
    · simp; omega
    · unfold memmove
      have h1 : List.take K.length (K ++ (s :: S') ++ G) = K := by simp
      have h2 : List.take S'.length (List.drop (K.length + 1) (K ++ (s :: S') ++ G)) = S' := by
        have : K ++ (s :: S') ++ G = (K ++ [s]) ++ (S' ++ G) := by simp
        rw [this]
        have hl : K.length + 1 = (K ++ [s]).length := by simp
        rw [hl, List.drop_left]
        simp
      have h3 : List.drop (K.length + S'.length) (K ++ (s :: S') ++ G)
          = List.drop S'.length (s :: (S' ++ G)) := by
        have : K ++ (s :: S') ++ G = K ++ (s :: (S' ++ G)) := by simp
        rw [this, List.drop_append]
      rw [h1, h2, h3]
  · rw [if_neg h]
    have hS : S' = [] := List.length_eq_zero.mp (by omega)
    subst hS
    exact ⟨s :: G, by simp, by simp⟩

theorem compact_while_spec (K : List ip_service) :
    ∀ (S G : List ip_service) (fuel : Nat), S.length < fuel →
      ∃ G', G'.length + (S.dropWhile (fun x => is_zero_addr x.ss)).length = G.length + S.length ∧
        compact_while fuel (K ++ S ++ G) (K.length + S.length) K.length
          = some (K ++ S.dropWhile (fun x => is_zero_addr x.ss) ++ G',
                  K.length + (S.dropWhile (fun x => is_zero_addr x.ss)).length) := by
  intro S
  induction S with
  | nil =>
    intro G fuel hf
    match fuel, hf with
    | fuel + 1, _ =>
      refine ⟨G, by simp, ?_⟩
      simp [compact_while]
  | cons s S' ih =>
    intro G fuel hf
    match fuel, hf with
    | fuel + 1, hf =>
      have hi : (K ++ (s :: S') ++ G).getD K.length default = s := by
        have := getD_append_cons K s (S' ++ G)
        simpa using this
      by_cases hz : is_zero_addr s.ss = true
      · obtain ⟨G1, hG1, hmove⟩ := memmove_spec K S' G s
        obtain ⟨G', hG', hrec⟩ := ih G1 fuel (by simp at hf; omega)
        refine ⟨G', ?_, ?_⟩
        · simp only [List.dropWhile_cons, hz, if_true, List.length_cons]
          omega
        · simp only [List.length_cons] at hmove ⊢
          rw [compact_while, if_pos ⟨by omega, by rw [hi]; exact hz⟩, hmove]
          have e : K.length + (S'.length + 1) - 1 = K.length + S'.length := by omega
          rw [e, hrec]
          simp only [List.dropWhile_cons, hz, if_true]
      · refine ⟨G, ?_, ?_⟩
        · simp [List.dropWhile_cons, hz]
        · rw [compact_while, if_neg (by rw [hi]; intro h; exact hz h.2)]
          simp [List.dropWhile_cons, hz]

theorem compact_for_spec :
    ∀ (n : Nat) (S K G : List ip_service) (fuel : Nat), S.length = n → S.length < fuel →
      ∃ G', G'.length + (S.filter (fun x => !is_zero_addr x.ss)).length = G.length + S.length ∧
        compact_for fuel (K ++ S ++ G) (K.length + S.length) K.length
          = some (K ++ S.filter (fun x => !is_zero_addr x.ss) ++ G',
                  K.length + (S.filter (fun x => !is_zero_addr x.ss)).length) := by
  intro n
  induction n using Nat.strong_induction_on with
  | _ n ih =>
    intro S K G fuel hn hf
    match fuel, hf with
    | fuel + 1, hf =>
      match S, hn with
      | [], _ =>
        refine ⟨G, by simp, ?_⟩
        simp [compact_for]
      | s :: S', hn =>
        obtain ⟨G1, hG1, hw⟩ :=
          compact_while_spec K (s :: S') G (K.length + (s :: S').length + 1) (by omega)
        rw [compact_for, if_pos (by simp), hw]
        simp only
        have hfilt : ∀ T : List ip_service,
            (T.dropWhile (fun x => is_zero_addr x.ss)).filter (fun x => !is_zero_addr x.ss)
              = T.filter (fun x => !is_zero_addr x.ss) := by
          intro T
          induction T with
          | nil => rfl
          | cons t T iht =>
            by_cases ht : is_zero_addr t.ss = true
            · simp [List.dropWhile_cons, ht, iht]
            · simp [List.dropWhile_cons, ht]
        have hle : ((s :: S').dropWhile (fun x => is_zero_addr x.ss)).length ≤ (s :: S').length :=
          (List.dropWhile_suffix _).length_le
        rw [← hfilt (s :: S')]
        generalize hD : (s :: S').dropWhile (fun x => is_zero_addr x.ss) = D at hG1 hle ⊢
        match D, hD with
        | [], _ =>
          refine ⟨G1, ?_, ?_⟩
          · simpa using hG1
          · match fuel with
            | 0 => simp at hf
            | fuel + 1 => simp [compact_for]
        | d :: D', hD =>
          have hdnz : is_zero_addr d.ss = false := by
            have := List.head_dropWhile_not (fun x : ip_service => is_zero_addr x.ss) (s :: S')
              (by rw [hD]; simp)
            simpa [hD] using this
          have hlt : D'.length < n := by
            simp only [List.length_cons] at hle hn
            omega
          obtain ⟨G2, hG2, hrec⟩ := ih D'.length hlt D' (K ++ [d]) G1 fuel rfl (by
            simp only [List.length_cons] at hle hf; omega)
          refine ⟨G2, ?_, ?_⟩
          · simp only [List.filter_cons, hdnz, List.length_cons] at hG1 ⊢
            simp only [Bool.not_false, if_true, List.length_cons]
            omega
          · simp only [List.length_append, List.length_singleton, List.append_assoc,
              List.singleton_append] at hrec
            simp only [List.cons_append] at hrec
            simp only [List.length_cons, List.append_assoc, List.cons_append]
            have e : K.length + (D'.length + 1) = K.length + 1 + D'.length := by omega
            rw [e, hrec]
            simp [List.filter_cons, hdnz]
            omega

theorem seen_any_iff (K : List ip_service) (x : ip_service) :
    K.any (fun y => sockaddr_equal y.ss x.ss && y.port == x.port) = true ↔ x ∈ K := by
  rw [List.any_eq_true]
  constructor
  · rintro ⟨y, hy, h⟩
    rw [same_iff_eq] at h
    exact h ▸ hy
  · intro h
    exact ⟨x, h, (same_iff_eq x x).mpr rfl⟩

theorem zero_if_same_seen (K : List ip_service) (x y : ip_service)
    (hx : is_zero_addr x.ss = false) :
    zero_if_same x (zero_if_seen K y) = zero_if_seen (x :: K) y := by
  unfold zero_if_same zero_if_seen
  by_cases hyK : is_zero_addr y.ss = false ∧ y ∈ K
  · have hc : is_zero_addr y.ss = false ∧ y ∈ x :: K := ⟨hyK.1, List.mem_cons_of_mem _ hyK.2⟩
    rw [if_pos hyK, if_pos hc]
    have hne : ¬ ((sockaddr_equal x.ss ({ y with ss := zero_sockaddr } : ip_service).ss
        && x.port == ({ y with ss := zero_sockaddr } : ip_service).port) = true) := by
      rw [same_iff_eq]
      intro h
      rw [h] at hx
      simp [is_zero_addr, zero_sockaddr] at hx
    rw [if_neg hne]
  · rw [if_neg hyK]
    by_cases hxy : x = y
    · subst hxy
      rw [if_pos ((same_iff_eq x x).mpr rfl), if_pos ⟨hx, List.mem_cons_self _ _⟩]
    · have h1 : ¬ ((sockaddr_equal x.ss y.ss && x.port == y.port) = true) := by
        rw [same_iff_eq]; exact hxy
      have h2 : ¬ (is_zero_addr y.ss = false ∧ y ∈ x :: K) := by
        rintro ⟨hz, hm⟩
        rcases List.mem_cons.mp hm with h | h
        · exact hxy h.symm
        · exact hyK ⟨hz, h⟩
      rw [if_neg h1, if_neg h2]

theorem mark_list_filter :
    ∀ (S K : List ip_service),
      (mark_list (S.map (zero_if_seen K))).filter (fun x => !is_zero_addr x.ss)
        = first_occurrences K S := by
  intro S
  induction S with
  | nil => intro K; simp [mark_list, first_occurrences]
  | cons x S' ih =>
    intro K
    rw [List.map_cons, first_occurrences]
    by_cases hz : is_zero_addr x.ss = true
    · have hx : zero_if_seen K x = x := by simp [zero_if_seen, hz]
      rw [hx, mark_list, if_pos hz, List.filter_cons]
      simp [hz, ih K]
    · have hz' : is_zero_addr x.ss = false := by simpa using hz
      by_cases hK : x ∈ K
      · have hx : zero_if_seen K x = { x with ss := zero_sockaddr } := by
          simp [zero_if_seen, hz', hK]
        have hzz : is_zero_addr ({ x with ss := zero_sockaddr } : ip_service).ss = true := by
          simp [is_zero_addr, zero_sockaddr]
        rw [hx, mark_list, if_pos hzz, List.filter_cons]
        have hany := (seen_any_iff K x).mpr hK
        simp [hzz, hany, ih K]
      · have hx : zero_if_seen K x = x := by simp [zero_if_seen, hK]
        have hany : K.any (fun y => sockaddr_equal y.ss x.ss && y.port == x.port) = false := by
          rw [Bool.eq_false_iff]
          intro h
          exact hK ((seen_any_iff K x).mp h)
        rw [hx, mark_list, if_neg hz, List.filter_cons]
        have hmap : List.map (zero_if_same x) (List.map (zero_if_seen K) S')
            = List.map (zero_if_seen (x :: K)) S' := by
          rw [List.map_map]
          apply List.map_congr_left
          intro y _
          exact zero_if_same_seen K x y hz'
        rw [hmap, ih (x :: K)]
        simp [hz', hany]

theorem zero_if_seen_nil (S : List ip_service) : S.map (zero_if_seen []) = S := by
  have : zero_if_seen [] = id := by
    funext y
    simp [zero_if_seen]
  rw [this, List.map_id]

theorem mark_list_length :
    ∀ (n : Nat) (T : List ip_service), T.length = n → (mark_list T).length = T.length := by
  intro n
  induction n with
  | zero =>
    intro T hT
    have : T = [] := List.length_eq_zero.mp hT
    subst this
    simp [mark_list]
  | succ n ih =>
    intro T hT
    match T, hT with
    | t :: T', hT =>
      have hlt : T'.length = n := by simpa using hT
      rw [mark_list]
      split
      · simp [ih T' hlt]
      · simp [ih (T'.map (zero_if_same t)) (by simpa using hlt)]

/-- The function returns (the iteration bound is never reached), keeps the
array length, and leaves the first occurrences in the first `count` slots. -/
theorem remove_duplicate_addrs2_spec (L : List ip_service) :
    ∃ out, remove_duplicate_addrs2 L L.length = some (out, (first_occurrences [] L).length)
      ∧ out.length = L.length
      ∧ out.take (first_occurrences [] L).length = first_occurrences [] L := by
  have hm := mark_outer_spec L.length L [] rfl
  simp only [List.length_nil, Nat.zero_add, List.nil_append] at hm
  have hlen := mark_list_length L.length L rfl
  obtain ⟨G', hG', hc⟩ := compact_for_spec (mark_list L).length (mark_list L) [] []
    (L.length + 1) rfl (by omega)
  have hf := mark_list_filter L []
  rw [zero_if_seen_nil] at hf
  simp only [List.length_nil, Nat.zero_add, List.nil_append, List.append_nil, hlen, hf] at hc hG'
  refine ⟨first_occurrences [] L ++ G', ?_, ?_, ?_⟩
  · unfold remove_duplicate_addrs2
    rw [hm, hc]
  · simp only [List.length_append]; omega
  · simp

theorem first_occurrences_sublist :
    ∀ (L K : List ip_service), (first_occurrences K L).Sublist L := by
  intro L
  induction L with
  | nil => intro K; simp [first_occurrences]
  | cons x xs ih =>
    intro K
    rw [first_occurrences]
    split
    · exact (ih K).cons x
    · exact (ih (x :: K)).cons₂ x

theorem first_occurrences_mem :
    ∀ (L K : List ip_service) (x : ip_service), x ∈ first_occurrences K L →
      is_zero_addr x.ss = false ∧ x ∉ K ∧ x ∈ L := by
  intro L
  induction L with
  | nil => intro K x h; simp [first_occurrences] at h
  | cons y ys ih =>
    intro K x h
    rw [first_occurrences] at h
    split at h
    · obtain ⟨h1, h2, h3⟩ := ih K x h
      exact ⟨h1, h2, List.mem_cons_of_mem _ h3⟩
    · rename_i hc
      simp only [Bool.or_eq_true, not_or, Bool.not_eq_true] at hc
      rcases List.mem_cons.mp h with h | h
      · subst h
        refine ⟨hc.1, ?_, List.mem_cons_self _ _⟩
        intro hK
        have := (seen_any_iff K x).mpr hK
        rw [this] at hc
        exact absurd hc.2 (by simp)
      · obtain ⟨h1, h2, h3⟩ := ih (y :: K) x h
        exact ⟨h1, fun hK => h2 (List.mem_cons_of_mem _ hK), List.mem_cons_of_mem _ h3⟩

theorem first_occurrences_pairwise :
    ∀ (L K : List ip_service),
      (first_occurrences K L).Pairwise
        (fun a b => ¬ (sockaddr_equal a.ss b.ss = true ∧ a.port = b.port)) := by
  intro L
  induction L with
  | nil => intro K; simp [first_occurrences]
  | cons y ys ih =>
    intro K
    rw [first_occurrences]
    split
    · exact ih K
    · refine List.Pairwise.cons ?_ (ih (y :: K))
      intro b hb hsame
      have hnot := (first_occurrences_mem ys (y :: K) b hb).2.1
      have : y = b := by
        rw [← same_iff_eq]
        simp [hsame.1, hsame.2]
      exact hnot (this ▸ List.mem_cons_self _ _)

theorem first_occurrences_fixed :
    ∀ (S K : List ip_service),
      (∀ x ∈ S, is_zero_addr x.ss = false ∧ x ∉ K) → S.Pairwise (fun a b => a ≠ b) →
      first_occurrences K S = S := by
  intro S
  induction S with
  | nil => intro K _ _; rfl
  | cons x xs ih =>
    intro K hS hp
    have hx := hS x (List.mem_cons_self _ _)
    have hany : K.any (fun y => sockaddr_equal y.ss x.ss && y.port == x.port) = false := by
      rw [Bool.eq_false_iff]
      intro h
      exact hx.2 ((seen_any_iff K x).mp h)
    rw [first_occurrences, hx.1, hany]
    simp only [Bool.or_self, Bool.false_eq_true, if_false, List.cons.injEq, true_and]
    rw [List.pairwise_cons] at hp
    apply ih (x :: K) _ hp.2
    intro y hy
    refine ⟨(hS y (List.mem_cons_of_mem _ hy)).1, ?_⟩
    intro hm
    rcases List.mem_cons.mp hm with h | h
    · exact hp.1 y hy h.symm
    · exact (hS y (List.mem_cons_of_mem _ hy)).2 h

theorem first_occurrences_idem (L : List ip_service) :
    first_occurrences [] (first_occurrences [] L) = first_occurrences [] L := by
  apply first_occurrences_fixed
  · intro x hx
    exact ⟨(first_occurrences_mem L [] x hx).1, by simp⟩
  · refine (first_occurrences_pairwise L []).imp ?_
    intro a b h hab
    subst hab
    exact h ⟨by simp [sockaddr_equal], rfl⟩

/-! ## The method loop -/

theorem is_ok_iff (status : NTSTATUS) : NT_STATUS_IS_OK status = true ↔ status = NT_STATUS_OK := by
  simp [NT_STATUS_IS_OK]

theorem ss_attempt_failed {m m' : Method} {t t' : Nat} {r : NTSTATUS × List sockaddr_storage}
    {status : NTSTATUS} (h : ss_attempt m t r = .failed m' t' status) :
    NT_STATUS_IS_OK status = false := by
  unfold ss_attempt at h
  split at h
  · split at h <;> cases h
  · rename_i hok
    cases h
    simpa using hok

theorem ss_attempt_done {m m' : Method} {t t' : Nat} {r : NTSTATUS × List sockaddr_storage}
    {status : NTSTATUS} {iplist : Option (List ip_service)} {count nt : Nat}
    (h : ss_attempt m t r = .done m' t' status iplist count nt) :
    m' = m ∧ t' = t ∧ nt = t ∧
      ((iplist = none ∧ status = NT_STATUS_NO_MEMORY) ∨
        (∃ l, iplist = some l ∧ count = l.length ∧ status = NT_STATUS_OK)) := by
  unfold ss_attempt at h
  split at h
  · rename_i hok
    rw [is_ok_iff] at hok
    split at h
    · cases h
      exact ⟨rfl, rfl, rfl, Or.inr ⟨_, rfl, rfl, hok⟩⟩
    · cases h
      exact ⟨rfl, rfl, rfl, Or.inl ⟨rfl, rfl⟩⟩
  · cases h

theorem try_method_failed {env : Env} {name : String} {name_type : Nat}
    {sitename : Option String} {tok : String} {m : Method} {t : Nat} {status : NTSTATUS}
    (h : try_method env name name_type sitename tok = .failed m t status) :
    NT_STATUS_IS_OK status = false := by
  unfold try_method at h
  split_ifs at h with h1 h2 h3 h4 h5 h6 h7 h8 h9
  all_goals first
    | exact ss_attempt_failed h
    | (cases h; exact Bool.eq_false_iff.mpr (by assumption))

theorem try_method_done {env : Env} {name : String} {name_type : Nat}
    {sitename : Option String} {tok : String} {m : Method} {t : Nat} {status : NTSTATUS}
    {iplist : Option (List ip_service)} {count nt : Nat}
    (h : try_method env name name_type sitename tok = .done m t status iplist count nt) :
    ((m = .kdc ∧ t = KDC_NAME_TYPE ∧ nt = KDC_NAME_TYPE) ∨ (m ≠ .kdc ∧ nt = name_type)) ∧
      ((iplist = none ∧ status = NT_STATUS_NO_MEMORY) ∨
        (∃ l, iplist = some l ∧ count = l.length ∧ status = NT_STATUS_OK)) := by
  unfold try_method at h
  split_ifs at h with h1 h2 h3 h4 h5 h6 h7 h8 h9
  all_goals first
    | (obtain ⟨rfl, rfl, rfl, h'⟩ := ss_attempt_done h
       exact ⟨Or.inr ⟨by decide, rfl⟩, h'⟩)
    | (cases h
       exact ⟨Or.inl ⟨rfl, rfl, rfl⟩, Or.inr ⟨_, rfl, rfl, (is_ok_iff _).mp ‹_›⟩⟩)
    | (cases h
       exact ⟨Or.inr ⟨by decide, rfl⟩, Or.inr ⟨_, rfl, rfl, (is_ok_iff _).mp ‹_›⟩⟩)

theorem run_methods_all_failed (env : Env) (cache : NameCache) (name : String) (name_type : Nat)
    (sitename : Option String) :
    ∀ (methods : List String) (trace : List Event),
      (∀ tok ∈ methods, (try_method env name name_type sitename tok).is_done = false) →
      run_methods env cache name name_type sitename methods trace
        = { outcome := .ret NT_STATUS_UNSUCCESSFUL [], cache := cache,
            trace := trace ++ failed_events env name name_type sitename methods } := by
  intro methods
  induction methods with
  | nil => intro trace _; simp [run_methods, failed_events]
  | cons tok rest ih =>
    intro trace h
    have htok := h tok (List.mem_cons_self _ _)
    have hrest : ∀ t ∈ rest, (try_method env name name_type sitename t).is_done = false :=
      fun t ht => h t (List.mem_cons_of_mem _ ht)
    rw [run_methods, failed_events]
    cases hatt : try_method env name name_type sitename tok with
    | skipped => simp only []; exact ih trace hrest
    | failed m t status =>
      simp only []
      rw [ih _ hrest]
      simp
    | done m t status iplist count nt =>
      rw [hatt] at htok
      simp [Attempt.is_done] at htok

theorem run_methods_first_done (env : Env) (cache : NameCache) (name : String) (name_type : Nat)
    (sitename : Option String) (tok : String) (post : List String) {m : Method} {t : Nat}
    {status : NTSTATUS} {iplist : Option (List ip_service)} {count nt : Nat}
    (hdone : try_method env name name_type sitename tok = .done m t status iplist count nt) :
    ∀ (pre : List String) (trace : List Event),
      (∀ p ∈ pre, (try_method env name name_type sitename p).is_done = false) →
      run_methods env cache name name_type sitename (pre ++ tok :: post) trace
        = finish cache name nt status iplist count
            (trace ++ failed_events env name name_type sitename pre
              ++ [.backend m t NT_STATUS_OK]) := by
  intro pre
  induction pre with
  | nil =>
    intro trace _
    simp [run_methods, failed_events, hdone]
  | cons p pre ih =>
    intro trace h
    have hp := h p (List.mem_cons_self _ _)
    have hpre : ∀ q ∈ pre, (try_method env name name_type sitename q).is_done = false :=
      fun q hq => h q (List.mem_cons_of_mem _ hq)
    rw [List.cons_append, run_methods, failed_events]
    cases hatt : try_method env name name_type sitename p with
    | skipped => simp only []; exact ih trace hpre
    | failed m' t' status' =>
      simp only []
      rw [ih _ hpre]
      simp
    | done m' t' status' iplist' count' nt' =>
      rw [hatt] at hp
      simp [Attempt.is_done] at hp

theorem methods_split (env : Env) (name : String) (name_type : Nat) (sitename : Option String) :
    ∀ (methods : List String),
      (∀ tok ∈ methods, (try_method env name name_type sitename tok).is_done = false) ∨
      ∃ pre tok post, methods = pre ++ tok :: post ∧
        (∀ p ∈ pre, (try_method env name name_type sitename p).is_done = false) ∧
        (try_method env name name_type sitename tok).is_done = true := by
  intro methods
  induction methods with
  | nil => left; simp
  | cons x xs ih =>
    by_cases hx : (try_method env name name_type sitename x).is_done = true
    · right
      exact ⟨[], x, xs, rfl, by simp, hx⟩
    · rcases ih with h | ⟨pre, tok, post, h1, h2, h3⟩
      · left
        intro tok htok
        rcases List.mem_cons.mp htok with h' | h'
        · subst h'; simpa using hx
        · exact h tok h'
      · right
        refine ⟨x :: pre, tok, post, by simp [h1], ?_, h3⟩
        intro p hp
        rcases List.mem_cons.mp hp with h' | h'
        · subst h'; simpa using hx
        · exact h2 p h'

theorem is_done_iff (a : Attempt) :
    a.is_done = true ↔ ∃ m t status iplist count nt, a = .done m t status iplist count nt := by
  cases a <;> simp [Attempt.is_done]

theorem failed_events_not_ok (env : Env) (name : String) (name_type : Nat)
    (sitename : Option String) :
    ∀ (methods : List String) (e : Event), e ∈ failed_events env name name_type sitename methods →
      ∃ m t status, e = .backend m t status ∧ NT_STATUS_IS_OK status = false := by
  intro methods
  induction methods with
  | nil => intro e h; simp [failed_events] at h
  | cons tok rest ih =>
    intro e h
    rw [failed_events] at h
    cases hatt : try_method env name name_type sitename tok with
    | skipped => rw [hatt] at h; exact ih e h
    | done m t status iplist count nt => rw [hatt] at h; exact ih e h
    | failed m t status =>
      rw [hatt] at h
      rcases List.mem_cons.mp h with h' | h'
      · exact ⟨m, t, status, h', try_method_failed hatt⟩
      · exact ih e h'

theorem finish_some (cache : NameCache) (name : String) (nt : Nat) (status : NTSTATUS)
    (l : List ip_service) (trace : List Event) :
    finish cache name nt status (some l) l.length trace
      = if first_occurrences [] l ≠ [] then
          { outcome := .ret status (first_occurrences [] l),
            cache := ((name, nt), first_occurrences [] l) :: cache,
            trace := trace ++ [.store name nt (first_occurrences [] l)] }
        else { outcome := .ret status [], cache := cache, trace := trace } := by
  obtain ⟨out, h1, _, h3⟩ := remove_duplicate_addrs2_spec l
  unfold finish
  simp only [h1, h3, namecache_store]
  by_cases hne : first_occurrences [] l = []
  · simp [hne]
  · have : (first_occurrences [] l).length ≠ 0 := by
      intro h0; exact hne (List.length_eq_zero.mp h0)
    simp [hne, this]

theorem finish_none (cache : NameCache) (name : String) (nt : Nat) (status : NTSTATUS)
    (count : Nat) (trace : List Event) :
    (finish cache name nt status none count trace).cache = cache ∧
    (finish cache name nt status none count trace).trace = trace ∧
    ((finish cache name nt status none count trace).outcome = .fault ∨
      (finish cache name nt status none count trace).outcome = .ret status []) := by
  unfold finish
  by_cases h : count = 0 <;> simp [h]

theorem namecache_fetch_store (cache : NameCache) (name : String) (nt : Nat)
    (l : List ip_service) (name' : String) (nt' : Nat) :
    namecache_fetch (((name, nt), l) :: cache) name' nt'
      = if (name, nt) = (name', nt') then some l else namecache_fetch cache name' nt' := by
  rw [namecache_fetch]

/-- The three ways the method loop can end. -/
theorem run_methods_cases (env : Env) (cache : NameCache) (name : String) (name_type : Nat)
    (sitename : Option String) (methods : List String) (trace : List Event) :
    (∃ fe, (∀ e ∈ fe, ∃ m t status, e = Event.backend m t status ∧ NT_STATUS_IS_OK status = false) ∧
      run_methods env cache name name_type sitename methods trace
        = { outcome := .ret NT_STATUS_UNSUCCESSFUL [], cache := cache, trace := trace ++ fe }) ∨
    (∃ fe m t, (∀ e ∈ fe, ∃ m t status, e = Event.backend m t status ∧ NT_STATUS_IS_OK status = false) ∧
      (run_methods env cache name name_type sitename methods trace).cache = cache ∧
      (run_methods env cache name name_type sitename methods trace).trace
        = trace ++ fe ++ [.backend m t NT_STATUS_OK] ∧
      ((run_methods env cache name name_type sitename methods trace).outcome = .fault ∨
        (run_methods env cache name name_type sitename methods trace).outcome
          = .ret NT_STATUS_NO_MEMORY [])) ∨
    (∃ fe m t nt l, (∀ e ∈ fe, ∃ m t status, e = Event.backend m t status ∧ NT_STATUS_IS_OK status = false) ∧
      ((m = .kdc ∧ t = KDC_NAME_TYPE ∧ nt = KDC_NAME_TYPE) ∨ (m ≠ .kdc ∧ nt = name_type)) ∧
      run_methods env cache name name_type sitename methods trace
        = if first_occurrences [] l ≠ [] then
            { outcome := .ret NT_STATUS_OK (first_occurrences [] l),
              cache := ((name, nt), first_occurrences [] l) :: cache,
              trace := trace ++ fe ++ [.backend m t NT_STATUS_OK]
                ++ [.store name nt (first_occurrences [] l)] }
          else { outcome := .ret NT_STATUS_OK [], cache := cache,
                 trace := trace ++ fe ++ [.backend m t NT_STATUS_OK] }) := by
  rcases methods_split env name name_type sitename methods with h | ⟨pre, tok, post, h1, h2, h3⟩
  · left
    exact ⟨_, failed_events_not_ok env name name_type sitename methods,
      run_methods_all_failed env cache name name_type sitename methods trace h⟩
  · right
    obtain ⟨m, t, status, iplist, count, nt, hd⟩ := (is_done_iff _).mp h3
    have hrun := run_methods_first_done env cache name name_type sitename tok post hd pre trace h2
    obtain ⟨hkdc, hres⟩ := try_method_done hd
    rcases hres with ⟨rfl, rfl⟩ | ⟨l, rfl, rfl, rfl⟩
    · left
      obtain ⟨c1, c2, c3⟩ := finish_none cache name nt NT_STATUS_NO_MEMORY count
        (trace ++ failed_events env name name_type sitename pre ++ [.backend m t NT_STATUS_OK])
      rw [h1, hrun]
      exact ⟨_, m, t, failed_events_not_ok env name name_type sitename pre, c1, c2, c3⟩
    · right
      rw [h1, hrun, finish_some]
      exact ⟨_, m, t, nt, l, failed_events_not_ok env name name_type sitename pre, hkdc, rfl⟩

theorem internal_resolve_name_literal (env : Env) (cache : NameCache) (name : String)
    (name_type : Nat) (sitename : Option String) (resolve_order : Option (List String))
    (h : env.is_ipaddress name = true) :
    (internal_resolve_name env cache name name_type sitename resolve_order).cache = cache ∧
    (internal_resolve_name env cache name name_type sitename resolve_order).trace = [] := by
  unfold internal_resolve_name
  rw [if_pos h]
  cases env.interpret_string_addr name with
  | none => exact ⟨rfl, rfl⟩
  | some ss => by_cases hz : is_zero_addr ss = true <;> simp [hz]

theorem internal_resolve_name_hit (env : Env) (cache : NameCache) (name : String)
    (name_type : Nat) (sitename : Option String) (resolve_order : Option (List String))
    (l : List ip_service)
    (hlit : env.is_ipaddress name = false) (hhit : namecache_fetch cache name name_type = some l) :
    internal_resolve_name env cache name name_type sitename resolve_order
      = { outcome := .ret (if first_occurrences [] l ≠ [] then NT_STATUS_OK
                           else NT_STATUS_UNSUCCESSFUL) (first_occurrences [] l),
          cache := cache, trace := [.fetch name name_type] } := by
  obtain ⟨out, h1, _, h3⟩ := remove_duplicate_addrs2_spec l
  unfold internal_resolve_name
  simp only [hlit, hhit, h1, h3]
  by_cases hne : first_occurrences [] l = []
  · simp [hne]
  · have : 0 < (first_occurrences [] l).length := List.length_pos.mpr hne
    simp [hne, this]

theorem internal_resolve_name_miss (env : Env) (cache : NameCache) (name : String)
    (name_type : Nat) (sitename : Option String) (resolve_order : Option (List String))
    (hlit : env.is_ipaddress name = false) (hmiss : namecache_fetch cache name name_type = none) :
    internal_resolve_name env cache name name_type sitename resolve_order
      = match effective_order name resolve_order with
        | .fault => { outcome := .fault, cache := cache, trace := [.fetch name name_type] }
        | .disabled =>
          { outcome := .ret NT_STATUS_INVALID_PARAMETER [], cache := cache,
            trace := [.fetch name name_type] }
        | .iterate methods =>
          run_methods env cache name name_type sitename methods [.fetch name name_type] := by
  unfold internal_resolve_name
  simp only [hlit, hmiss]
  rfl

theorem filter_out_nbt_loop_eq :
    ∀ (methods result : List String),
      filter_out_nbt_loop result methods
        = result ++ methods.filter
            (fun tok => !(strequal tok "lmhosts" || strequal tok "wins" || strequal tok "bcast")) := by
  intro methods
  induction methods with
  | nil => intro result; simp [filter_out_nbt_loop]
  | cons tok rest ih =>
    intro result
    rw [filter_out_nbt_loop]
    by_cases h : (strequal tok "lmhosts" || strequal tok "wins" || strequal tok "bcast") = true
    · rw [if_pos h, ih, List.filter_cons]
      simp [h]
    · rw [if_neg h, ih, List.filter_cons]
      simp [h]

theorem filter_out_nbt_lookup_eq (methods : List String) :
    filter_out_nbt_lookup methods
      = methods.filter
          (fun tok => !(strequal tok "lmhosts" || strequal tok "wins" || strequal tok "bcast")) := by
  unfold filter_out_nbt_lookup
  rw [filter_out_nbt_loop_eq]
  simp

theorem ss_attempt_method {m : Method} {t : Nat} {r : NTSTATUS × List sockaddr_storage} :
    (∀ m' t' status, ss_attempt m t r = .failed m' t' status → m' = m) ∧
    (∀ m' t' status iplist count nt, ss_attempt m t r = .done m' t' status iplist count nt →
      m' = m) := by
  constructor
  · intro m' t' status h
    unfold ss_attempt at h
    split at h
    · split at h <;> cases h
    · cases h; rfl
  · intro m' t' status iplist count nt h
    exact (ss_attempt_done h).1

/-- A token that is not a NetBIOS method never leads to a NetBIOS back end. -/
theorem try_method_not_nbt {env : Env} {name : String} {name_type : Nat}
    {sitename : Option String} {tok : String}
    (hnbt : (strequal tok "lmhosts" || strequal tok "wins" || strequal tok "bcast") = false) :
    (∀ m t status, try_method env name name_type sitename tok = .failed m t status →
      m ≠ .lmhosts ∧ m ≠ .wins ∧ m ≠ .bcast) ∧
    (∀ m t status iplist count nt,
      try_method env name name_type sitename tok = .done m t status iplist count nt →
      m ≠ .lmhosts ∧ m ≠ .wins ∧ m ≠ .bcast) := by
  simp only [Bool.or_eq_false_iff] at hnbt
  obtain ⟨⟨h1, h2⟩, h3⟩ := hnbt
  constructor
  · intro m t status h
    unfold try_method at h
    simp only [h1, h2, h3, Bool.false_eq_true, if_false] at h
    split_ifs at h
    all_goals first
      | (have hm := ss_attempt_method.1 _ _ _ h; subst hm; decide)
      | (cases h; decide)
  · intro m t status iplist count nt h
    unfold try_method at h
    simp only [h1, h2, h3, Bool.false_eq_true, if_false] at h
    split_ifs at h
    all_goals first
      | (have hm := ss_attempt_method.2 _ _ _ _ _ _ h; subst hm; decide)
      | (cases h; decide)

theorem finish_trace (cache : NameCache) (name : String) (nt : Nat) (status : NTSTATUS)
    (iplist : Option (List ip_service)) (count : Nat) (trace : List Event) :
    (finish cache name nt status iplist count trace).trace = trace ∨
    ∃ l, (finish cache name nt status iplist count trace).trace = trace ++ [.store name nt l] := by
  unfold finish
  cases iplist with
  | none => by_cases h : count = 0 <;> simp [h]
  | some l =>
    simp only
    cases remove_duplicate_addrs2 l count with
    | none => simp
    | some p =>
      obtain ⟨out, c⟩ := p
      by_cases h : c = 0 <;> simp [h]

theorem run_methods_trace (env : Env) (cache : NameCache) (name : String) (name_type : Nat)
    (sitename : Option String) :
    ∀ (methods : List String) (trace : List Event) (e : Event),
      e ∈ (run_methods env cache name name_type sitename methods trace).trace →
      e ∈ trace ∨ (∃ n t l, e = .store n t l) ∨
      ∃ tok ∈ methods, (∃ m t status,
          try_method env name name_type sitename tok = .failed m t status ∧
          e = .backend m t status) ∨
        (∃ m t status iplist count nt,
          try_method env name name_type sitename tok = .done m t status iplist count nt ∧
          e = .backend m t NT_STATUS_OK) := by
  intro methods
  induction methods with
  | nil => intro trace e h; left; simpa [run_methods] using h
  | cons tok rest ih =>
    intro trace e h
    rw [run_methods] at h
    cases hatt : try_method env name name_type sitename tok with
    | skipped =>
      rw [hatt] at h
      rcases ih trace e h with h' | h' | ⟨tok', hm, h'⟩
      · exact Or.inl h'
      · exact Or.inr (Or.inl h')
      · exact Or.inr (Or.inr ⟨tok', List.mem_cons_of_mem _ hm, h'⟩)
    | failed m t status =>
      rw [hatt] at h
      rcases ih _ e h with h' | h' | ⟨tok', hm, h'⟩
      · rcases List.mem_append.mp h' with h'' | h''
        · exact Or.inl h''
        · right; right
          refine ⟨tok, List.mem_cons_self _ _, Or.inl ⟨m, t, status, hatt, ?_⟩⟩
          simpa using h''
      · exact Or.inr (Or.inl h')
      · exact Or.inr (Or.inr ⟨tok', List.mem_cons_of_mem _ hm, h'⟩)
    | done m t status iplist count nt =>
      rw [hatt] at h
      simp only at h
      have hin : e ∈ trace ++ [Event.backend m t NT_STATUS_OK] ∨ ∃ l, e = .store name nt l := by
        rcases finish_trace cache name nt status iplist count
          (trace ++ [.backend m t NT_STATUS_OK]) with hf | ⟨l, hf⟩
        · rw [hf] at h; exact Or.inl h
        · rw [hf] at h
          rcases List.mem_append.mp h with h' | h'
          · exact Or.inl h'
          · right; exact ⟨l, by simpa using h'⟩
      rcases hin with h' | ⟨l, h'⟩
      · rcases List.mem_append.mp h' with h'' | h''
        · exact Or.inl h''
        · right; right
          refine ⟨tok, List.mem_cons_self _ _,
            Or.inr ⟨m, t, status, iplist, count, nt, hatt, ?_⟩⟩
          simpa using h''
      · exact Or.inr (Or.inl ⟨_, _, _, h'⟩)

theorem failed_events_backend (env : Env) (name : String) (name_type : Nat)
    (sitename : Option String) (methods : List String) :
    (failed_events env name name_type sitename methods).filter Event.is_backend
      = failed_events env name name_type sitename methods := by
  rw [List.filter_eq_self]
  intro e he
  obtain ⟨m, t, status, rfl, _⟩ := failed_events_not_ok env name name_type sitename methods e he
  rfl

/-! ## Address ranking -/

theorem addr_compare_loop_eq (f : sa_family_t) (a1 a2 : Nat) :
    ∀ (ifaces : List sockaddr_storage) (m1 m2 : Int), 0 ≤ m1 → 0 ≤ m2 →
      addr_compare_loop ⟨f, a1⟩ ⟨f, a2⟩ ifaces m1 m2
        = (max m1 (((ifaces.filter (fun b => b.ss_family = f)).map
              (fun b => (matching_len_bits a1 b.addr (addr_len f) : Int))).foldr max 0),
           max m2 (((ifaces.filter (fun b => b.ss_family = f)).map
              (fun b => (matching_len_bits a2 b.addr (addr_len f) : Int))).foldr max 0)) := by
  intro ifaces
  induction ifaces with
  | nil =>
    intro m1 m2 h1 h2
    simp [addr_compare_loop, h1, h2]
  | cons pss rest ih =>
    intro m1 m2 h1 h2
    obtain ⟨fp, ap⟩ := pss
    rw [addr_compare_loop]
    by_cases hp : fp = f
    · subst hp
      have hl : (if fp = AF_INET6 then 16 else if fp = AF_INET then 4 else 0) = addr_len fp := by
        cases fp <;> simp [addr_len]
      have hl0 : addr_len fp ≠ 0 := by cases fp <;> simp [addr_len]
      simp only [ne_eq, not_true_eq_false, if_false, hl, hl0]
      rw [ih _ _ (le_max_of_le_right h1) (le_max_of_le_right h2)]
      simp only [List.filter_cons, decide_True, if_true, List.map_cons, List.foldr_cons]
      congr 1
      · rw [max_comm (matching_len_bits a1 ap (addr_len fp) : Int) m1, max_assoc]
      · rw [max_comm (matching_len_bits a2 ap (addr_len fp) : Int) m2, max_assoc]
    · simp only [ne_eq, hp, not_false_eq_true, if_true]
      rw [ih _ _ h1 h2]
      simp [List.filter_cons, hp]

theorem foldr_max_nonneg (l : List Int) : 0 ≤ l.foldr max 0 := by
  induction l with
  | nil => simp
  | cons x xs ih => simp only [List.foldr_cons]; exact le_max_of_le_right ih

theorem addr_compare_same_family (ifs : Interfaces) (a b : sockaddr_storage)
    (hfam : a.ss_family = b.ss_family) :
    addr_compare ifs a b = proximity_score ifs b - proximity_score ifs a := by
  obtain ⟨fa, aa⟩ := a
  obtain ⟨fb, ab⟩ := b
  simp only at hfam
  subst hfam
  unfold addr_compare proximity_score
  simp only [ne_eq, not_true_eq_false, if_false]
  rw [addr_compare_loop_eq fa aa ab ifs.bcast 0 0 (le_refl _) (le_refl _)]
  simp only [max_eq_right (foldr_max_nonneg _)]
  cases fa <;> cases ifs.iface_local ⟨_, aa⟩ <;> cases ifs.iface_local ⟨_, ab⟩ <;> simp

theorem ip_service_compare_le_iff (ifs : Interfaces) (a b : ip_service) :
    ip_service_compare ifs a b ≤ 0 ↔
      family_rank a.ss.ss_family < family_rank b.ss.ss_family ∨
      (family_rank a.ss.ss_family = family_rank b.ss.ss_family ∧
        (proximity_score ifs b.ss < proximity_score ifs a.ss ∨
          (proximity_score ifs b.ss = proximity_score ifs a.ss ∧ a.port ≤ b.port))) := by
  by_cases hfam : a.ss.ss_family = b.ss.ss_family
  · unfold ip_service_compare
    rw [addr_compare_same_family ifs a.ss b.ss hfam, hfam]
    split_ifs <;> omega
  · unfold ip_service_compare addr_compare
    rw [if_pos hfam]
    obtain ⟨⟨fa, aa⟩, pa⟩ := a
    obtain ⟨⟨fb, ab⟩, pb⟩ := b
    cases fa <;> cases fb <;> simp [family_rank] at hfam ⊢

theorem ip_service_compare_eq_zero_iff (ifs : Interfaces) (a b : ip_service) :
    ip_service_compare ifs a b = 0 ↔
      a.ss.ss_family = b.ss.ss_family ∧ proximity_score ifs a.ss = proximity_score ifs b.ss
        ∧ a.port = b.port := by
  by_cases hfam : a.ss.ss_family = b.ss.ss_family
  · unfold ip_service_compare
    rw [addr_compare_same_family ifs a.ss b.ss hfam]
    have e : (a.ss.ss_family = b.ss.ss_family
        ∧ proximity_score ifs a.ss = proximity_score ifs b.ss ∧ a.port = b.port)
        ↔ (proximity_score ifs a.ss = proximity_score ifs b.ss ∧ a.port = b.port) :=
      ⟨fun h => h.2, fun h => ⟨hfam, h⟩⟩
    rw [e]
    split_ifs <;> constructor <;> intro h <;> first | omega | exact ⟨by omega, by omega⟩ | exact h.elim
  · unfold ip_service_compare addr_compare
    rw [if_pos hfam]
    obtain ⟨⟨fa, aa⟩, pa⟩ := a
    obtain ⟨⟨fb, ab⟩, pb⟩ := b
    cases fa <;> cases fb <;> simp at hfam ⊢

theorem ip_service_compare_total (ifs : Interfaces) (a b : ip_service) :
    ip_service_compare ifs a b ≤ 0 ∨ ip_service_compare ifs b a ≤ 0 := by
  rw [ip_service_compare_le_iff, ip_service_compare_le_iff]
  omega

theorem ip_service_compare_trans (ifs : Interfaces) (a b c : ip_service)
    (hab : ip_service_compare ifs a b ≤ 0) (hbc : ip_service_compare ifs b c ≤ 0) :
    ip_service_compare ifs a c ≤ 0 := by
  rw [ip_service_compare_le_iff] at hab hbc ⊢
  omega

theorem ip_service_compare_antisymm (ifs : Interfaces) (a b : ip_service)
    (hab : ip_service_compare ifs a b ≤ 0) (hba : ip_service_compare ifs b a ≤ 0) :
    ip_service_compare ifs a b = 0 := by
  rw [ip_service_compare_le_iff] at hab hba
  rw [ip_service_compare_eq_zero_iff]
  have hr : family_rank a.ss.ss_family = family_rank b.ss.ss_family := by omega
  refine ⟨?_, by omega, by omega⟩
  obtain ⟨⟨fa, aa⟩, pa⟩ := a
  obtain ⟨⟨fb, ab⟩, pb⟩ := b
  cases fa <;> cases fb <;> simp [family_rank] at hr ⊢

theorem ip_service_compare_le_iff_key (ifs : Interfaces) (a b : ip_service) :
    ip_service_compare ifs a b ≤ 0 ↔ sort_key ifs a ≤ sort_key ifs b := by
  rw [ip_service_compare_le_iff]
  unfold sort_key
  rw [Prod.Lex.le_iff, Prod.Lex.le_iff]
  simp only [neg_lt_neg_iff, neg_inj]
  constructor
  · rintro (h | ⟨h1, h2 | ⟨h2, h3⟩⟩)
    · exact Or.inl h
    · exact Or.inr ⟨h1, Or.inl h2⟩
    · exact Or.inr ⟨h1, Or.inr ⟨h2.symm, h3⟩⟩
  · rintro (h | ⟨h1, h2 | ⟨h2, h3⟩⟩)
    · exact Or.inl h
    · exact Or.inr ⟨h1, Or.inl h2⟩
    · exact Or.inr ⟨h1, Or.inr ⟨h2.symm, h3⟩⟩

theorem sort_key_eq_iff (ifs : Interfaces) (a b : ip_service) :
    sort_key ifs a = sort_key ifs b ↔
      (a.ss.ss_family, proximity_score ifs a.ss, a.port)
        = (b.ss.ss_family, proximity_score ifs b.ss, b.port) := by
  unfold sort_key
  obtain ⟨⟨fa, aa⟩, pa⟩ := a
  obtain ⟨⟨fb, ab⟩, pb⟩ := b
  constructor
  · intro h
    have h' := congrArg ofLex h
    simp only [ofLex_toLex, Prod.mk.injEq] at h'
    have h2 := congrArg ofLex h'.2
    simp only [ofLex_toLex, Prod.mk.injEq, neg_inj] at h2
    have h1 : fa = fb := by
      have := h'.1
      cases fa <;> cases fb <;> simp [family_rank] at this ⊢
    subst h1
    simp [h2.1, h2.2]
  · intro h
    simp only [Prod.mk.injEq] at h
    obtain ⟨rfl, h2, rfl⟩ := h
    simp [h2]

/-- The insertion sort of the reversed array meets the `qsort` contract. -/
theorem qsort_reversing_contract : qsort_contract qsort_reversing := by
  intro compar base
  constructor
  · exact (List.perm_insertionSort _ _).trans (List.reverse_perm base)
  · intro htot htrans
    haveI : IsTotal ip_service (fun a b => compar a b ≤ 0) := ⟨htot⟩
    haveI : IsTrans ip_service (fun a b => compar a b ≤ 0) := ⟨htrans⟩
    exact List.sorted_insertionSort (fun a b => compar a b ≤ 0) base.reverse

theorem sort_service_list_perm (qsort : Qsort) (hq : qsort_contract qsort) (ifs : Interfaces)
    (L : List ip_service) : (sort_service_list qsort ifs L).Perm L := by
  unfold sort_service_list
  split
  · exact List.Perm.refl _
  · exact (hq _ _).1

theorem sort_service_list_sorted (qsort : Qsort) (hq : qsort_contract qsort) (ifs : Interfaces)
    (L : List ip_service) :
    (sort_service_list qsort ifs L).Pairwise (fun a b => ip_service_compare ifs a b ≤ 0) := by
  unfold sort_service_list
  split
  · rename_i h
    match L, h with
    | [], _ => exact List.Pairwise.nil
    | [x], _ => exact List.pairwise_singleton _ _
    | _ :: _ :: _, h => simp at h
  · exact (hq _ _).2 (ip_service_compare_total ifs) (ip_service_compare_trans ifs)

theorem map_eq_of_key_eq {κ τ : Type} (k : ip_service → κ) (t : ip_service → τ)
    (hkt : ∀ a b, k a = k b → t a = t b) :
    ∀ (l1 l2 : List ip_service), l1.map k = l2.map k → l1.map t = l2.map t := by
  intro l1
  induction l1 with
  | nil =>
    intro l2 h
    cases l2 with
    | nil => rfl
    | cons y ys => simp at h
  | cons x xs ih =>
    intro l2 h
    cases l2 with
    | nil => simp at h
    | cons y ys =>
      simp only [List.map_cons, List.cons.injEq] at h ⊢
      exact ⟨hkt x y h.1, ih ys h.2⟩

theorem sorted_perm_same_keys (ifs : Interfaces) (S1 S2 : List ip_service)
    (hperm : S2.Perm S1)
    (h1 : S1.Pairwise (fun a b => ip_service_compare ifs a b ≤ 0))
    (h2 : S2.Pairwise (fun a b => ip_service_compare ifs a b ≤ 0)) :
    S2.map (fun x => (x.ss.ss_family, proximity_score ifs x.ss, x.port))
      = S1.map (fun x => (x.ss.ss_family, proximity_score ifs x.ss, x.port)) := by
  apply map_eq_of_key_eq (sort_key ifs) _ (fun a b h => (sort_key_eq_iff ifs a b).mp h)
  have k1 : (S1.map (sort_key ifs)).Sorted (· ≤ ·) := by
    rw [List.Sorted, List.pairwise_map]
    exact h1.imp (fun {a b} h => (ip_service_compare_le_iff_key ifs a b).mp h)
  have k2 : (S2.map (sort_key ifs)).Sorted (· ≤ ·) := by
    rw [List.Sorted, List.pairwise_map]
    exact h2.imp (fun {a b} h => (ip_service_compare_le_iff_key ifs a b).mp h)
  exact List.eq_of_perm_of_sorted (hperm.map _) k2 k1

/-- Inserting into a list does not change the order of the elements that
compare equal to `c`, for a transitive comparison. -/
theorem orderedInsert_filter_class (compar : ip_service → ip_service → Int)
    (htrans : ∀ a b c, compar a b ≤ 0 → compar b c ≤ 0 → compar a c ≤ 0)
    (c a : ip_service) (l : List ip_service) :
    (List.orderedInsert (fun a b => compar a b ≤ 0) a l).filter
        (fun x => decide (compar c x ≤ 0) && decide (compar x c ≤ 0))
      = (a :: l).filter (fun x => decide (compar c x ≤ 0) && decide (compar x c ≤ 0)) := by
  induction l with
  | nil => rfl
  | cons b l ih =>
    rw [List.orderedInsert]
    split
    · rfl
    · rename_i hab
      rw [List.filter_cons, ih]
      by_cases hpa : (decide (compar c a ≤ 0) && decide (compar a c ≤ 0)) = true
      · have hpb : ¬ (decide (compar c b ≤ 0) && decide (compar b c ≤ 0)) = true := by
          intro hpb
          simp only [Bool.and_eq_true, decide_eq_true_eq] at hpa hpb
          exact hab (htrans a c b hpa.2 hpb.1)
        rw [if_neg hpb, List.filter_cons, if_pos hpa, List.filter_cons, if_pos hpa,
          List.filter_cons, if_neg hpb]
      · rw [List.filter_cons, if_neg hpa, List.filter_cons, if_neg hpa, List.filter_cons]

/-- The insertion sort is stable. -/
theorem qsort_insertion_stable : qsort_stable qsort_insertion := by
  intro compar base _ htrans c
  unfold qsort_insertion
  induction base with
  | nil => rfl
  | cons a l ih =>
    rw [List.insertionSort, orderedInsert_filter_class compar htrans c a _,
      List.filter_cons, ih, List.filter_cons]

/-- The insertion sort meets the `qsort` contract. -/
theorem qsort_insertion_contract : qsort_contract qsort_insertion := by
  intro compar base
  constructor
  · exact List.perm_insertionSort _ _
  · intro htot htrans
    haveI : IsTotal ip_service (fun a b => compar a b ≤ 0) := ⟨htot⟩
    haveI : IsTrans ip_service (fun a b => compar a b ≤ 0) := ⟨htrans⟩
    exact List.sorted_insertionSort (fun a b => compar a b ≤ 0) base

/-- Two arrays in ascending order of a total preorder that are rearrangements
of each other and show the elements of every class of equal elements in the
same order are the same array. -/
theorem eq_of_sorted_of_same_classes (compar : ip_service → ip_service → Int)
    (htot : ∀ a b, compar a b ≤ 0 ∨ compar b a ≤ 0) :
    ∀ (S Q : List ip_service), Q.Perm S →
      Q.Pairwise (fun a b => compar a b ≤ 0) → S.Pairwise (fun a b => compar a b ≤ 0) →
      (∀ a : ip_service,
        Q.filter (fun x => decide (compar a x ≤ 0) && decide (compar x a ≤ 0))
          = S.filter (fun x => decide (compar a x ≤ 0) && decide (compar x a ≤ 0))) →
      Q = S := by
  intro S
  induction S with
  | nil =>
    intro Q hperm _ _ _
    exact hperm.eq_nil
  | cons x xs ih =>
    intro Q hperm hQ hS hcls
    cases Q with
    | nil => exact absurd hperm.symm.eq_nil (by simp)
    | cons y ys =>
      have hxx : compar x x ≤ 0 := (htot x x).elim id id
      have hyy : compar y y ≤ 0 := (htot y y).elim id id
      have hyx : compar y x ≤ 0 := by
        have hx : x ∈ y :: ys := hperm.symm.subset (List.mem_cons_self x xs)
        rcases List.mem_cons.mp hx with h | h
        · rw [h]; exact hyy
        · exact (List.pairwise_cons.mp hQ).1 x h
      have hxy : compar x y ≤ 0 := by
        have hy : y ∈ x :: xs := hperm.subset (List.mem_cons_self y ys)
        rcases List.mem_cons.mp hy with h | h
        · rw [h]; exact hxx
        · exact (List.pairwise_cons.mp hS).1 y h
      have hhead : y = x := by
        have h := hcls x
        rw [List.filter_cons, List.filter_cons] at h
        have hpy : (decide (compar x y ≤ 0) && decide (compar y x ≤ 0)) = true := by
          simp [hxy, hyx]
        have hpx : (decide (compar x x ≤ 0) && decide (compar x x ≤ 0)) = true := by
          simp [hxx]
        rw [if_pos hpy, if_pos hpx] at h
        exact (List.cons.inj h).1
      subst hhead
      have htail : ys = xs := by
        apply ih ys (List.Perm.cons_inv hperm) (List.pairwise_cons.mp hQ).2
          (List.pairwise_cons.mp hS).2
        intro a
        have h := hcls a
        rw [List.filter_cons, List.filter_cons] at h
        split at h
        · exact (List.cons.inj h).2
        · exact h
      rw [htail]

/-- A stable `qsort` leaves a list that `sort_service_list` has sorted as it
is. -/
theorem sort_service_list_idem (qsort : Qsort) (hq : qsort_contract qsort)
    (hs : qsort_stable qsort) (ifs : Interfaces) (L : List ip_service) :
    sort_service_list qsort ifs (sort_service_list qsort ifs L)
      = sort_service_list qsort ifs L := by
  have hS1 := sort_service_list_sorted qsort hq ifs L
  generalize sort_service_list qsort ifs L = S at hS1
  unfold sort_service_list
  split
  · rfl
  · exact eq_of_sorted_of_same_classes (ip_service_compare ifs) (ip_service_compare_total ifs)
      S _ (hq _ _).1
      ((hq _ _).2 (ip_service_compare_total ifs) (ip_service_compare_trans ifs)) hS1
      (hs _ _ (ip_service_compare_total ifs) (ip_service_compare_trans ifs))

/-- The order `ip_service_compare` gives: `addr_compare` first, then the lower
port first. -/
theorem ip_service_compare_le_iff_addr (ifs : Interfaces) (a b : ip_service) :
    ip_service_compare ifs a b ≤ 0 ↔
      addr_compare ifs a.ss b.ss < 0 ∨ (addr_compare ifs a.ss b.ss = 0 ∧ a.port ≤ b.port) := by
  unfold ip_service_compare
  split_ifs <;> omega

/-- For every `qsort` that keeps the C library contract, sorting the sorted
list again gives a permutation of it that is again in `ip_service_compare`
order and shows the same sequence of (family, score, port), so that only
entries that compare equal can have changed places; and it gives the very same
list when no two distinct entries of `L` compare equal. -/
theorem sort_service_list_twice_up_to_ties (qsort : Qsort) (hq : qsort_contract qsort)
    (ifs : Interfaces) (L : List ip_service) :
    (sort_service_list qsort ifs (sort_service_list qsort ifs L)).Perm
        (sort_service_list qsort ifs L)
    ∧ (sort_service_list qsort ifs (sort_service_list qsort ifs L)).Pairwise
        (fun a b => ip_service_compare ifs a b ≤ 0)
    ∧ (sort_service_list qsort ifs (sort_service_list qsort ifs L)).map
          (fun x => (x.ss.ss_family, proximity_score ifs x.ss, x.port))
        = (sort_service_list qsort ifs L).map
          (fun x => (x.ss.ss_family, proximity_score ifs x.ss, x.port))
    ∧ ((∀ a ∈ L, ∀ b ∈ L, ip_service_compare ifs a b = 0 → a = b) →
        sort_service_list qsort ifs (sort_service_list qsort ifs L)
          = sort_service_list qsort ifs L) := by
  have hP1 := sort_service_list_perm qsort hq ifs L
  have hS1 := sort_service_list_sorted qsort hq ifs L
  have hP2 := sort_service_list_perm qsort hq ifs (sort_service_list qsort ifs L)
  have hS2 := sort_service_list_sorted qsort hq ifs (sort_service_list qsort ifs L)
  refine ⟨hP2, hS2, sorted_perm_same_keys ifs _ _ hP2 hS1 hS2, ?_⟩
  intro hties
  apply List.Perm.eq_of_sorted _ hS2 hS1 hP2
  intro a b ha hb hab hba
  exact hties a (hP1.subset (hP2.subset ha)) b (hP1.subset hb)
    (ip_service_compare_antisymm ifs a b hab hba)

/-- The contract of `qsort` alone does not fix the order of entries that
compare equal: the insertion sort of the reversed array keeps the contract and
exchanges `10.1.2.3` and `10.1.2.4` (same family, same score, same port) on
every pass. -/
theorem sort_service_list_qsort_reversing_ties :
    qsort_contract qsort_reversing
    ∧ ip_service_compare example_interfaces ⟨⟨AF_INET, 0x0A010203⟩, 0⟩ ⟨⟨AF_INET, 0x0A010204⟩, 0⟩ = 0
    ∧ sort_service_list qsort_reversing example_interfaces
        [⟨⟨AF_INET, 0x0A010203⟩, 0⟩, ⟨⟨AF_INET, 0x0A010204⟩, 0⟩]
      = [⟨⟨AF_INET, 0x0A010204⟩, 0⟩, ⟨⟨AF_INET, 0x0A010203⟩, 0⟩]
    ∧ sort_service_list qsort_reversing example_interfaces
        (sort_service_list qsort_reversing example_interfaces
          [⟨⟨AF_INET, 0x0A010203⟩, 0⟩, ⟨⟨AF_INET, 0x0A010204⟩, 0⟩])
      = [⟨⟨AF_INET, 0x0A010203⟩, 0⟩, ⟨⟨AF_INET, 0x0A010204⟩, 0⟩]
    ∧ sort_service_list qsort_reversing example_interfaces
        (sort_service_list qsort_reversing example_interfaces
          [⟨⟨AF_INET, 0x0A010203⟩, 0⟩, ⟨⟨AF_INET, 0x0A010204⟩, 0⟩])
      ≠ sort_service_list qsort_reversing example_interfaces
          [⟨⟨AF_INET, 0x0A010203⟩, 0⟩, ⟨⟨AF_INET, 0x0A010204⟩, 0⟩] :=
  ⟨qsort_reversing_contract, by decide, by decide, by decide, by decide⟩

/-! ## `prioritize_ipv4_list` and `resolve_name` -/

theorem prioritize_copy_ipv4_eq :
    ∀ (l acc : List ip_service),
      prioritize_copy_ipv4 l acc = acc ++ l.filter (fun e => e.ss.ss_family = AF_INET) := by
  intro l
  induction l with
  | nil => intro acc; simp [prioritize_copy_ipv4]
  | cons e rest ih =>
    intro acc
    rw [prioritize_copy_ipv4]
    by_cases h : e.ss.ss_family = AF_INET
    · rw [if_pos h, ih, List.filter_cons]
      simp [h]
    · rw [if_neg h, ih, List.filter_cons]
      simp [h]

theorem prioritize_copy_other_eq :
    ∀ (l acc : List ip_service),
      prioritize_copy_other l acc = acc ++ l.filter (fun e => !decide (e.ss.ss_family = AF_INET)) := by
  intro l
  induction l with
  | nil => intro acc; simp [prioritize_copy_other]
  | cons e rest ih =>
    intro acc
    rw [prioritize_copy_other]
    by_cases h : e.ss.ss_family = AF_INET
    · rw [if_neg (by simpa using h), ih, List.filter_cons]
      simp [h]
    · rw [if_pos h, ih, List.filter_cons]
      simp [h]

theorem prioritize_ipv4_list_eq (L : List ip_service) :
    prioritize_ipv4_list L L.length
      = L.filter (fun e => e.ss.ss_family = AF_INET)
        ++ L.filter (fun e => !decide (e.ss.ss_family = AF_INET)) := by
  have hperm : (L.filter (fun e => e.ss.ss_family = AF_INET)
      ++ L.filter (fun e => !decide (e.ss.ss_family = AF_INET))).Perm L :=
    List.filter_append_perm (fun e => decide (e.ss.ss_family = AF_INET)) L
  unfold prioritize_ipv4_list
  rw [List.take_length, prioritize_copy_ipv4_eq, prioritize_copy_other_eq, List.nil_append,
    List.drop_length, List.append_nil]
  rw [← hperm.length_eq, List.take_length]

theorem resolve_name_ipv4_loop_eq :
    ∀ (l : List ip_service),
      resolve_name_ipv4_loop l
        = (l.find? (fun e => !is_zero_addr e.ss && !is_broadcast_addr e.ss
            && e.ss.ss_family = AF_INET)).map (fun e => e.ss) := by
  intro l
  induction l with
  | nil => rfl
  | cons e rest ih =>
    rw [resolve_name_ipv4_loop, List.find?_cons]
    by_cases h : (!is_zero_addr e.ss && !is_broadcast_addr e.ss
        && decide (e.ss.ss_family = AF_INET)) = true
    · simp only [h, if_true, Option.map_some']
    · simp only [h, if_false, ih]
      simp

theorem resolve_name_valid_loop_eq :
    ∀ (l : List ip_service),
      resolve_name_valid_loop l
        = (l.find? (fun e => !is_zero_addr e.ss && !is_broadcast_addr e.ss)).map
            (fun e => e.ss) := by
  intro l
  induction l with
  | nil => rfl
  | cons e rest ih =>
    rw [resolve_name_valid_loop, List.find?_cons]
    by_cases h : (!is_zero_addr e.ss && !is_broadcast_addr e.ss) = true
    · simp only [h, if_true, Option.map_some']
    · simp only [h, if_false, ih]
      simp

theorem resolve_name_nonliteral (env : Env) (cfg : Config) (cache : NameCache) (name : String)
    (name_type : Nat) (prefer_ipv4 : Bool) (status : NTSTATUS) (l : List ip_service)
    (hlit : env.is_ipaddress name = false)
    (hres : (internal_resolve_name env cache name name_type cfg.realm_sitename
      (some cfg.name_resolve_order)).outcome = .ret status l) :
    resolve_name env cfg cache name name_type prefer_ipv4
      = { outcome := .ret
            (if status = NT_STATUS_OK then
              (if prefer_ipv4 = true then
                (match resolve_name_ipv4_loop l with
                 | some ss => some ss
                 | none => resolve_name_valid_loop l)
               else resolve_name_valid_loop l)
             else none),
          cache := (internal_resolve_name env cache name name_type cfg.realm_sitename
            (some cfg.name_resolve_order)).cache,
          trace := (internal_resolve_name env cache name name_type cfg.realm_sitename
            (some cfg.name_resolve_order)).trace } := by
  unfold resolve_name
  simp only [hlit, Bool.false_eq_true, if_false]
  generalize internal_resolve_name env cache name name_type cfg.realm_sitename
      (some cfg.name_resolve_order) = r at hres
  obtain ⟨o, c, t⟩ := r
  simp only at hres
  subst hres
  simp only [is_ok_iff]
  by_cases hs : status = NT_STATUS_OK
  · simp only [hs, if_true]
    cases prefer_ipv4
    · simp
    · simp only [if_true]
      cases resolve_name_ipv4_loop l <;> rfl
  · simp only [hs, if_false]

/-! ## The server affinity cache -/

theorem gencache_get_filter (c : GenCache) (k k' : String) :
    gencache_get (c.filter (fun kv => !decide (kv.1 = k))) k'
      = if k' = k then none else gencache_get c k' := by
  unfold gencache_get
  rw [List.find?_filter]
  by_cases h2 : k' = k
  · subst h2
    have hp : (fun (a : String × String) =>
        decide ((!decide (a.1 = k')) = true ∧ decide (a.1 = k') = true))
        = fun _ => false := by
      funext a
      by_cases h : a.1 = k' <;> simp [h]
    rw [if_pos rfl, hp]
    simp
  · have hp : (fun (a : String × String) =>
        decide ((!decide (a.1 = k)) = true ∧ decide (a.1 = k') = true))
        = fun a => decide (a.1 = k') := by
      funext a
      by_cases h : a.1 = k'
      · have h3 : ¬ a.1 = k := fun h4 => h2 (h.symm.trans h4)
        rw [decide_eq_true h, decide_eq_false h3]
        rfl
      · simp [h]
    rw [if_neg h2, hp]

theorem gencache_get_set (c : GenCache) (k v k' : String) :
    gencache_get (gencache_set c k v).2 k' = if k' = k then some v else gencache_get c k' := by
  by_cases h : k' = k
  · subst h
    simp [gencache_set, gencache_get]
  · have h2 : ¬ k = k' := fun e => h e.symm
    rw [if_neg h]
    show gencache_get ((k, v) :: c.filter (fun kv => !decide (kv.1 = k))) k' = _
    have e : gencache_get ((k, v) :: c.filter (fun kv => !decide (kv.1 = k))) k'
        = gencache_get (c.filter (fun kv => !decide (kv.1 = k))) k' := by
      simp [gencache_get, List.find?_cons, h2]
    rw [e, gencache_get_filter, if_neg h]

theorem gencache_get_del (c : GenCache) (k k' : String) :
    gencache_get (gencache_del c k).2 k' = if k' = k then none else gencache_get c k' :=
  gencache_get_filter c k k'

/-- The key of `saf_key(domain)` is `SAF/DOMAIN/` followed by the domain in
upper case. -/
theorem saf_key_eq (d : String) :
    saf_key d = "SAF/DOMAIN/" ++ ⟨d.data.map Char.toUpper⟩ := by
  apply String.ext
  have h : "SAF/DOMAIN/".data.map Char.toUpper = "SAF/DOMAIN/".data := by decide
  simp only [saf_key, talloc_asprintf_strupper_m, String.data_append, List.map_append, h]

/-- The key of `saf_join_key(domain)` is `SAFJOIN/DOMAIN/` followed by the
domain in upper case. -/
theorem saf_join_key_eq (d : String) :
    saf_join_key d = "SAFJOIN/DOMAIN/" ++ ⟨d.data.map Char.toUpper⟩ := by
  apply String.ext
  have h : "SAFJOIN/DOMAIN/".data.map Char.toUpper = "SAFJOIN/DOMAIN/".data := by decide
  simp only [saf_join_key, talloc_asprintf_strupper_m, String.data_append, List.map_append, h]

theorem saf_key_prefix (d : String) : "SAF/DOMAIN/".data <+: (saf_key d).data := by
  rw [saf_key_eq, String.data_append]
  exact List.prefix_append _ _

theorem saf_join_key_prefix (d : String) : "SAFJOIN/DOMAIN/".data <+: (saf_join_key d).data := by
  rw [saf_join_key_eq, String.data_append]
  exact List.prefix_append _ _

/-- The keys of a domain that is not empty are not the keys of the empty
domain. -/
theorem saf_key_ne_empty (d : String) (hd : ¬ d.length = 0) :
    saf_key d ≠ "SAF/DOMAIN/" ∧ saf_key d ≠ "SAFJOIN/DOMAIN/"
    ∧ saf_join_key d ≠ "SAF/DOMAIN/" ∧ saf_join_key d ≠ "SAFJOIN/DOMAIN/" := by
  have h1 : "SAF/DOMAIN/".data = ['S', 'A', 'F', '/', 'D', 'O', 'M', 'A', 'I', 'N', '/'] := rfl
  have h2 : "SAFJOIN/DOMAIN/".data
      = ['S', 'A', 'F', 'J', 'O', 'I', 'N', '/', 'D', 'O', 'M', 'A', 'I', 'N', '/'] := rfl
  have hne : d.data ≠ [] := by
    intro h
    apply hd
    cases d with
    | mk data =>
      have h0 : data = [] := h
      subst h0
      rfl
  refine ⟨?_, ?_, ?_, ?_⟩
  · intro h
    have h' := congrArg String.data h
    rw [saf_key_eq, String.data_append, h1] at h'
    simp at h'
    exact hne h'
  · intro h
    have h' := congrArg String.data h
    rw [saf_key_eq, String.data_append, h1, h2] at h'
    simp at h'
  · intro h
    have h' := congrArg String.data h
    rw [saf_join_key_eq, String.data_append, h1, h2] at h'
    simp at h'
  · intro h
    have h' := congrArg String.data h
    rw [saf_join_key_eq, String.data_append, h2] at h'
    simp at h'
    exact hne h'

/-- No cache that the users of the generic cache can produce holds a key of
the empty domain: `saf_store` and `saf_join_store` refuse an empty domain. -/
theorem saf_reachable_no_empty_domain (c : GenCache) (h : saf_reachable c) :
    gencache_get c "SAFJOIN/DOMAIN/" = none ∧ gencache_get c "SAF/DOMAIN/" = none := by
  induction h with
  | empty => exact ⟨rfl, rfl⟩
  | store c domain servername _ ih =>
    unfold saf_store
    split
    · rename_i d s
      split
      · exact ih
      · rename_i hlen
        have hd : ¬ d.length = 0 := fun h => hlen (Or.inl h)
        have hk := saf_key_ne_empty d hd
        rw [gencache_get_set, gencache_get_set, if_neg (Ne.symm hk.2.1), if_neg (Ne.symm hk.1)]
        exact ih
    · exact ih
  | join_store c domain servername _ ih =>
    unfold saf_join_store
    split
    · rename_i d s
      split
      · exact ih
      · rename_i hlen
        have hd : ¬ d.length = 0 := fun h => hlen (Or.inl h)
        have hk := saf_key_ne_empty d hd
        rw [gencache_get_set, gencache_get_set, if_neg (Ne.symm hk.2.2.2),
          if_neg (Ne.symm hk.2.2.1)]
        exact ih
    · exact ih
  | delete c domain _ ih =>
    unfold saf_delete
    split
    · exact ih
    · simp only [gencache_get_del, ih.1, ih.2, ite_self, and_self]
  | removed c key _ ih =>
    simp only [gencache_get_del, ih.1, ih.2, ite_self, and_self]
  | other c key value _ h1 h2 ih =>
    have k1 : ¬ "SAF/DOMAIN/" = key := fun e => h1 (e ▸ List.prefix_refl _)
    have k2 : ¬ "SAFJOIN/DOMAIN/" = key := fun e => h2 (e ▸ List.prefix_refl _)
    rw [gencache_get_set, gencache_get_set, if_neg k2, if_neg k1]
    exact ih

/-- The example cache is one the server affinity routines produce. -/
theorem example_saf_cache_reachable : saf_reachable example_saf_cache :=
  saf_reachable.store _ _ _ (saf_reachable.join_store _ _ _ (saf_reachable.store _ _ _
    saf_reachable.empty))

/-! ## Sorting addresses -/

theorem addr_compare_eq_service (ifs : Interfaces) (a b : sockaddr_storage) :
    addr_compare ifs a b = ip_service_compare ifs ⟨a, 0⟩ ⟨b, 0⟩ := by
  unfold ip_service_compare
  by_cases h : addr_compare ifs a b = 0
  · simp [h]
  · simp [h]

theorem addr_compare_total (ifs : Interfaces) (a b : sockaddr_storage) :
    addr_compare ifs a b ≤ 0 ∨ addr_compare ifs b a ≤ 0 := by
  rw [addr_compare_eq_service, addr_compare_eq_service ifs b a]
  exact ip_service_compare_total ifs _ _

theorem addr_compare_trans (ifs : Interfaces) (a b c : sockaddr_storage)
    (h1 : addr_compare ifs a b ≤ 0) (h2 : addr_compare ifs b c ≤ 0) :
    addr_compare ifs a c ≤ 0 := by
  rw [addr_compare_eq_service] at h1 h2 ⊢
  exact ip_service_compare_trans ifs _ _ _ h1 h2

/-- The insertion sort of the reversed array meets the `qsort` contract. -/
theorem qsort_addr_reversing_contract : qsort_addr_contract qsort_addr_reversing := by
  intro compar base
  constructor
  · exact (List.perm_insertionSort _ _).trans (List.reverse_perm base)
  · intro htot htrans
    haveI : IsTotal sockaddr_storage (fun a b => compar a b ≤ 0) := ⟨htot⟩
    haveI : IsTrans sockaddr_storage (fun a b => compar a b ≤ 0) := ⟨htrans⟩
    exact List.sorted_insertionSort (fun a b => compar a b ≤ 0) base.reverse

theorem sort_addr_list_perm (qsort : QsortAddr) (hq : qsort_addr_contract qsort)
    (ifs : Interfaces) (L : List sockaddr_storage) : (sort_addr_list qsort ifs L).Perm L := by
  unfold sort_addr_list
  split
  · exact List.Perm.refl _
  · exact (hq _ _).1

theorem sort_addr_list_sorted (qsort : QsortAddr) (hq : qsort_addr_contract qsort)
    (ifs : Interfaces) (L : List sockaddr_storage) :
    (sort_addr_list qsort ifs L).Pairwise (fun a b => addr_compare ifs a b ≤ 0) := by
  unfold sort_addr_list
  split
  · rename_i h
    match L, h with
    | [], _ => exact List.Pairwise.nil
    | [x], _ => exact List.pairwise_singleton _ _
    | _ :: _ :: _, h => simp at h
  · exact (hq _ _).2 (addr_compare_total ifs) (addr_compare_trans ifs)

/-! ## Parsing a node status reply -/

theorem StrnCpy_eq (buf : Nat → Nat) :
    ∀ (n p : Nat), StrnCpy buf p n
      = ((List.range n).map (fun k => CVAL buf (p + k))).takeWhile (fun c => c != 0) := by
  intro n
  induction n with
  | zero => intro p; simp [StrnCpy]
  | succ n ih =>
    intro p
    rw [StrnCpy, List.range_succ_eq_map, List.map_cons, List.map_map, List.takeWhile_cons]
    by_cases h : CVAL buf p = 0
    · simp [h]
    · have hfun : ((fun k => CVAL buf (p + k)) ∘ Nat.succ) = (fun k => CVAL buf (p + 1 + k)) := by
        funext k
        simp only [Function.comp, Nat.succ_eq_add_one]
        congr 1
        omega
      simp only [h, if_false, Nat.add_zero, bne_iff_ne, ne_eq, not_false_eq_true, decide_True,
        if_true, ih (p + 1), hfun]

theorem parse_node_status_loop_eq (buf : Nat → Nat) :
    ∀ (n p : Nat), parse_node_status_loop buf n p
      = ((List.range n).map (fun i =>
            ({ name := wire_name buf (p + 18 * i)
               type := CVAL buf (p + 18 * i + 15)
               flags := CVAL buf (p + 18 * i + 16) } : node_status)),
          p + 18 * n) := by
  intro n
  induction n with
  | zero => intro p; simp [parse_node_status_loop]
  | succ n ih =>
    intro p
    rw [parse_node_status_loop, ih (p + 18), List.range_succ_eq_map, List.map_cons, List.map_map]
    refine Prod.ext ?_ ?_
    · simp only [List.cons.injEq]
      refine ⟨?_, ?_⟩
      · simp [wire_name, trim_char, StrnCpy_eq]
      · apply List.map_congr_left
        intro i _
        simp only [Function.comp, Nat.succ_eq_add_one]
        have e : p + 18 + 18 * i = p + 18 * (i + 1) := by omega
        rw [e]
    · show p + 18 + 18 * n = p + 18 * (n + 1)
      omega

/-! ## The query fan-out -/

theorem name_queries_outstanding_set_none :
    ∀ (l : List (Option Nat)) (i x : Nat), l.getD i none = some x →
      name_queries_outstanding (l.set i none) + 1 = name_queries_outstanding l := by
  intro l
  induction l with
  | nil => intro i x h; simp at h
  | cons a rest ih =>
    intro i x h
    cases i with
    | zero =>
      simp only [List.getD_cons_zero] at h
      subst h
      simp [name_queries_outstanding]
    | succ i =>
      simp only [List.getD_cons_succ] at h
      have e := ih i x h
      cases a with
      | none => simpa [name_queries_outstanding] using e
      | some y => simp only [List.set_cons_succ, name_queries_outstanding]; omega

theorem name_queries_outstanding_set_some :
    ∀ (l : List (Option Nat)) (i x : Nat), i < l.length → l.getD i none = none →
      name_queries_outstanding (l.set i (some x)) = name_queries_outstanding l + 1 := by
  intro l
  induction l with
  | nil => intro i x hi; simp at hi
  | cons a rest ih =>
    intro i x hi h
    cases i with
    | zero =>
      simp only [List.getD_cons_zero] at h
      subst h
      simp [name_queries_outstanding]
    | succ i =>
      simp only [List.getD_cons_succ] at h
      have hi2 : i < rest.length := by simpa using hi
      have e := ih i x hi2 h
      cases a with
      | none => simpa [name_queries_outstanding] using e
      | some y => simp only [List.set_cons_succ, name_queries_outstanding]; omega

theorem name_queries_outstanding_replicate (n : Nat) :
    name_queries_outstanding (List.replicate n none) = 0 := by
  induction n with
  | zero => rfl
  | succ n ih => simpa [List.replicate_succ, name_queries_outstanding] using ih

theorem getD_set_option (l : List (Option Nat)) (i k : Nat) (x : Option Nat) :
    (l.set i x).getD k none = if k = i ∧ i < l.length then x else l.getD k none := by
  induction l generalizing i k with
  | nil => simp
  | cons a rest ih =>
    cases i with
    | zero =>
      cases k with
      | zero => simp
      | succ k => simp
    | succ i =>
      cases k with
      | zero => simp
      | succ k =>
        simp only [List.set_cons_succ, List.getD_cons_succ, ih, List.length_cons,
          Nat.add_lt_add_iff_right, Nat.add_right_cancel_iff]

theorem getD_replicate_none (n k : Nat) :
    (List.replicate n (none : Option Nat)).getD k none = none := by
  induction n generalizing k with
  | zero => simp
  | succ n ih =>
    cases k with
    | zero => simp [List.replicate_succ]
    | succ k => simp [List.replicate_succ]

theorem name_queries_find_eq (subreqs : List (Option Nat)) (h num_sent : Nat)
    (hlt : h < num_sent) (hat : subreqs.getD h none = some h)
    (hbefore : ∀ j, j < h → subreqs.getD j none ≠ some h) :
    ∀ (fuel i : Nat), i ≤ h → h - i < fuel →
      name_queries_find subreqs h num_sent fuel i = h := by
  intro fuel
  induction fuel with
  | zero => intro i _ hf; omega
  | succ fuel ih =>
    intro i hi hf
    have hi2 : i < num_sent := by omega
    rw [name_queries_find, if_pos hi2]
    by_cases he : i = h
    · subst he
      rw [if_pos hat]
    · have hlt2 : i < h := by omega
      rw [if_neg (hbefore i hlt2)]
      exact ih (i + 1) (by omega) (by omega)

theorem name_query_recv_cases (qsort : QsortAddr) (ifs : Interfaces) (req : tevent_req_state)
    (st : name_query_state) (wf : Bool) :
    name_query_recv qsort ifs req st wf
        = (NT_STATUS_OK,
            some { addrs := sort_addr_list qsort ifs st.addrs
                   num_addrs := st.addrs.length
                   flags := if wf then some st.flags else none })
    ∨ ∃ status, status ≠ NT_STATUS_OK ∧ name_query_recv qsort ifs req st wf = (status, none) := by
  have hnf : NT_STATUS_NOT_FOUND ≠ NT_STATUS_OK := by decide
  have hproceed :
      (if st.addrs.length = 0 then ((NT_STATUS_NOT_FOUND, none) : NTSTATUS × Option name_query_out)
       else
        (NT_STATUS_OK,
          some { addrs := sort_addr_list qsort ifs st.addrs
                 num_addrs := st.addrs.length
                 flags := if wf then some st.flags else none }))
        = (NT_STATUS_OK,
            some { addrs := sort_addr_list qsort ifs st.addrs
                   num_addrs := st.addrs.length
                   flags := if wf then some st.flags else none })
      ∨ ∃ status, status ≠ NT_STATUS_OK ∧
        (if st.addrs.length = 0 then
          ((NT_STATUS_NOT_FOUND, none) : NTSTATUS × Option name_query_out)
         else
          (NT_STATUS_OK,
            some { addrs := sort_addr_list qsort ifs st.addrs
                   num_addrs := st.addrs.length
                   flags := if wf then some st.flags else none })) = (status, none) := by
    by_cases h0 : st.addrs.length = 0
    · right
      exact ⟨NT_STATUS_NOT_FOUND, hnf, by rw [if_pos h0]⟩
    · left
      rw [if_neg h0]
  unfold name_query_recv
  cases hreq : tevent_req_is_nterror req with
  | none => exact hproceed
  | some status =>
    simp only
    by_cases hok : NT_STATUS_IS_OK
        (if (st.bcast && status == NT_STATUS_IO_TIMEOUT) = true then NT_STATUS_OK else status) = true
    · simp only [hok, Bool.not_true, Bool.false_eq_true, if_false]
      exact hproceed
    · right
      refine ⟨if (st.bcast && status == NT_STATUS_IO_TIMEOUT) = true then NT_STATUS_OK else status,
        ?_, ?_⟩
      · intro h
        exact hok ((is_ok_iff _).mpr h)
      · have hf := Bool.eq_false_iff.mpr hok
        simp only [hf, Bool.not_false, if_true]

theorem name_queries_inv_send (n : Nat) (hn : 1 ≤ n) : name_queries_inv (name_queries_send n) := by
  have hlen : 0 < (List.replicate n (none : Option Nat)).length := by simpa using hn
  refine ⟨by simp [name_queries_send], hn, ?_, ?_, ?_, ?_⟩
  · intro k h hk
    simp only [name_queries_send, getD_set_option, getD_replicate_none] at hk
    by_cases hc : k = 0 ∧ 0 < (List.replicate n (none : Option Nat)).length
    · rw [if_pos hc] at hk
      simp only [Option.some.injEq] at hk
      exact ⟨by omega, by simp [name_queries_send, hc.1]⟩
    · rw [if_neg hc] at hk
      cases hk
  · show 0 + name_queries_outstanding ((List.replicate n none).set 0 (some 0)) = 1
    rw [name_queries_outstanding_set_some _ 0 0 hlen (getD_replicate_none n 0),
      name_queries_outstanding_replicate]
  · intro hw
    simpa [name_queries_send] using hw
  · simp only [name_queries_send, decide_eq_false_iff_not]
    omega

theorem name_queries_inv_next (s : name_queries_state) (ok : Bool)
    (hinv : name_queries_inv s) (hw : s.wakeup = true) :
    name_queries_inv (name_queries_next s ok) := by
  obtain ⟨h1, h2, h3, h4, h5, h6⟩ := hinv
  have hlt := h5 hw
  cases ok with
  | false =>
    simp only [name_queries_next, Bool.not_false, if_true]
    exact ⟨h1, h2, h3, h4, by simp, h6⟩
  | true =>
    simp only [name_queries_next, Bool.not_true, Bool.false_eq_true, if_false]
    have hnone : s.subreqs.getD s.num_sent none = none := by
      cases hg : s.subreqs.getD s.num_sent none with
      | none => rfl
      | some x =>
        have hc := (h3 _ _ hg).2
        omega
    refine ⟨by simpa using h1, by show s.num_sent + 1 ≤ s.num_addrs; omega, ?_, ?_, ?_, ?_⟩
    · intro k h hk
      simp only [getD_set_option] at hk
      by_cases hc : k = s.num_sent ∧ s.num_sent < s.subreqs.length
      · rw [if_pos hc] at hk
        simp only [Option.some.injEq] at hk
        exact ⟨by omega, by show k < s.num_sent + 1; omega⟩
      · rw [if_neg hc] at hk
        have hh := h3 k h hk
        exact ⟨hh.1, by show k < s.num_sent + 1; omega⟩
    · show s.num_received + name_queries_outstanding (s.subreqs.set s.num_sent (some s.num_sent))
        = s.num_sent + 1
      rw [name_queries_outstanding_set_some _ _ _ (by omega) hnone]
      omega
    · intro hw2
      simpa using hw2
    · show (s.oob || decide (s.num_addrs ≤ s.num_sent)) = false
      rw [h6]
      simp only [Bool.false_or, decide_eq_false_iff_not]
      omega

theorem name_queries_find_outstanding (s : name_queries_state) (h : Nat)
    (hinv : name_queries_inv s) (hout : s.subreqs.getD h none = some h) :
    name_queries_find s.subreqs h s.num_sent s.num_sent 0 = h ∧ h < s.num_sent := by
  obtain ⟨_, _, h3, _, _, _⟩ := hinv
  have hlt := (h3 h h hout).2
  refine ⟨name_queries_find_eq s.subreqs h s.num_sent hlt hout ?_ s.num_sent 0 (by omega)
    (by omega), hlt⟩
  intro j hj hc
  have := (h3 j h hc).1
  omega

theorem name_queries_done_ok (qsort : QsortAddr) (ifs : Interfaces) (s : name_queries_state)
    (h : Nat) (sub_req : tevent_req_state) (sub_state : name_query_state) (out : name_query_out)
    (hinv : name_queries_inv s) (hout : s.subreqs.getD h none = some h)
    (hr : name_query_recv qsort ifs sub_req sub_state true = (NT_STATUS_OK, some out)) :
    name_queries_done qsort ifs s h sub_req sub_state
      = { s with
          result_addrs := out.addrs
          num_result_addrs := out.num_addrs
          flags := out.flags.getD s.flags
          subreqs := s.subreqs.set h none
          num_received := s.num_received + 1
          received_index := h
          req := .done } := by
  obtain ⟨hfind, hlt⟩ := name_queries_find_outstanding s h hinv hout
  have hne : ¬ h = s.num_sent := by omega
  simp only [name_queries_done, hr, hfind, hne, if_false, NT_STATUS_IS_OK, NT_STATUS_OK]
  simp

theorem name_queries_done_fail (qsort : QsortAddr) (ifs : Interfaces) (s : name_queries_state)
    (h : Nat) (sub_req : tevent_req_state) (sub_state : name_query_state) (status : NTSTATUS)
    (hinv : name_queries_inv s) (hout : s.subreqs.getD h none = some h)
    (hst : status ≠ NT_STATUS_OK)
    (hr : name_query_recv qsort ifs sub_req sub_state true = (status, none)) :
    name_queries_done qsort ifs s h sub_req sub_state
      = { s with
          subreqs := s.subreqs.set h none
          num_received := s.num_received + 1
          req := if s.num_received + 1 ≥ s.num_addrs then .user_error status else s.req } := by
  obtain ⟨hfind, hlt⟩ := name_queries_find_outstanding s h hinv hout
  have hne : ¬ h = s.num_sent := by omega
  have hok : NT_STATUS_IS_OK status = false := by
    apply Bool.eq_false_iff.mpr
    intro hc
    exact hst ((is_ok_iff _).mp hc)
  simp only [name_queries_done, hr, hfind, hne, if_false, hok, Bool.not_false, if_true,
    tevent_req_nterror, Bool.false_eq_true, Option.getD_some]
  by_cases hge : s.num_received + 1 ≥ s.num_addrs
  · simp only [hge, if_true]
  · simp only [hge, if_false]

theorem name_queries_inv_done (qsort : QsortAddr) (ifs : Interfaces) (s : name_queries_state)
    (h : Nat) (sub_req : tevent_req_state) (sub_state : name_query_state)
    (hinv : name_queries_inv s) (hout : s.subreqs.getD h none = some h) :
    name_queries_inv (name_queries_done qsort ifs s h sub_req sub_state) := by
  have hinv0 := hinv
  obtain ⟨h1, h2, h3, h4, h5, h6⟩ := hinv
  have hset := name_queries_outstanding_set_none s.subreqs h h hout
  have hslots : ∀ k x, (s.subreqs.set h none).getD k none = some x → x = k ∧ k < s.num_sent := by
    intro k x hk
    rw [getD_set_option] at hk
    by_cases hc : k = h ∧ h < s.subreqs.length
    · rw [if_pos hc] at hk
      cases hk
    · rw [if_neg hc] at hk
      exact h3 k x hk
  rcases name_query_recv_cases qsort ifs sub_req sub_state true with hr | ⟨status, hst, hr⟩
  · rw [name_queries_done_ok qsort ifs s h sub_req sub_state _ hinv0 hout hr]
    refine ⟨by simpa using h1, h2, hslots, ?_, h5, h6⟩
    show s.num_received + 1 + name_queries_outstanding (s.subreqs.set h none) = s.num_sent
    omega
  · rw [name_queries_done_fail qsort ifs s h sub_req sub_state status hinv0 hout hst hr]
    refine ⟨by simpa using h1, h2, hslots, ?_, h5, h6⟩
    show s.num_received + 1 + name_queries_outstanding (s.subreqs.set h none) = s.num_sent
    omega

theorem name_queries_inv_step (qsort : QsortAddr) (ifs : Interfaces) (s : name_queries_state)
    (ev : name_queries_event) (hinv : name_queries_inv s) :
    name_queries_inv (name_queries_step qsort ifs s ev) := by
  cases ev with
  | wakeup ok =>
    simp only [name_queries_step]
    split
    · rename_i hc
      exact name_queries_inv_next s ok hinv hc.2
    · exact hinv
  | completed subreq sub_req sub_state =>
    simp only [name_queries_step]
    split
    · rename_i hc
      exact name_queries_inv_done qsort ifs s subreq sub_req sub_state hinv hc.2
    · exact hinv

theorem name_queries_inv_run (qsort : QsortAddr) (ifs : Interfaces)
    (evs : List name_queries_event) :
    ∀ (s : name_queries_state), name_queries_inv s →
      name_queries_inv (name_queries_run qsort ifs s evs) := by
  induction evs with
  | nil => intro s hs; exact hs
  | cons ev rest ih =>
    intro s hs
    exact ih _ (name_queries_inv_step qsort ifs s ev hs)

theorem name_queries_step_num_addrs (qsort : QsortAddr) (ifs : Interfaces)
    (s : name_queries_state) (ev : name_queries_event) (hinv : name_queries_inv s) :
    (name_queries_step qsort ifs s ev).num_addrs = s.num_addrs := by
  cases ev with
  | wakeup ok =>
    simp only [name_queries_step, name_queries_next]
    split
    · split <;> rfl
    · rfl
  | completed subreq sub_req sub_state =>
    simp only [name_queries_step]
    split
    · rename_i hc
      rcases name_query_recv_cases qsort ifs sub_req sub_state true with hr | ⟨status, hst, hr⟩
      · rw [name_queries_done_ok qsort ifs s subreq sub_req sub_state _ hinv hc.2 hr]
      · rw [name_queries_done_fail qsort ifs s subreq sub_req sub_state status hinv hc.2 hst hr]
    · rfl

theorem name_queries_run_num_addrs (qsort : QsortAddr) (ifs : Interfaces)
    (evs : List name_queries_event) :
    ∀ (s : name_queries_state), name_queries_inv s →
      (name_queries_run qsort ifs s evs).num_addrs = s.num_addrs := by
  induction evs with
  | nil => intro s _; rfl
  | cons ev rest ih =>
    intro s hs
    have e := ih _ (name_queries_inv_step qsort ifs s ev hs)
    rw [name_queries_step_num_addrs qsort ifs s ev hs] at e
    exact e

theorem name_queries_reached_inv (qsort : QsortAddr) (ifs : Interfaces) (n : Nat)
    (evs : List name_queries_event) (hn : 1 ≤ n) :
    name_queries_inv (name_queries_reached qsort ifs n evs)
    ∧ (name_queries_reached qsort ifs n evs).num_addrs = n :=
  ⟨name_queries_inv_run qsort ifs evs _ (name_queries_inv_send n hn),
    name_queries_run_num_addrs qsort ifs evs _ (name_queries_inv_send n hn)⟩

/-! ## The per-tag WINS probe -/

theorem query_wins_list_done_timeout (qsort : QsortAddr) (ifs : Interfaces)
    (interpreted : Option sockaddr_storage) (s : query_wins_list_state)
    (sub_req : tevent_req_state) (sub_state : name_query_state)
    (hr : (name_query_recv qsort ifs sub_req sub_state true).1 = NT_STATUS_IO_TIMEOUT) :
    query_wins_list_done qsort ifs interpreted s sub_req sub_state
      = if s.num_sent = s.servers.length then
          { s with
            dead := s.dead ++ [(s.servers.getD (s.num_sent - 1) 0, my_socket_addr_v4 interpreted)]
            req := .user_error NT_STATUS_NOT_FOUND }
        else
          { s with
            dead := s.dead ++ [(s.servers.getD (s.num_sent - 1) 0, my_socket_addr_v4 interpreted)]
            server := in_addr_to_sockaddr_storage (s.servers.getD s.num_sent 0)
            queried := s.queried ++ [in_addr_to_sockaddr_storage (s.servers.getD s.num_sent 0)]
            num_sent := s.num_sent + 1 } := by
  have hne : NT_STATUS_IO_TIMEOUT ≠ NT_STATUS_OK := by decide
  rcases name_query_recv_cases qsort ifs sub_req sub_state true with h | ⟨status, _, h⟩
  · rw [h] at hr
    exact (hne hr.symm).elim
  · rw [h] at hr
    simp only at hr
    subst hr
    have hok : NT_STATUS_IS_OK NT_STATUS_IO_TIMEOUT = false := by decide
    simp only [query_wins_list_done, h, hok, Bool.false_eq_true, if_false, beq_self_eq_true,
      Bool.not_true]

theorem take_succ_getD (S : List Nat) (k : Nat) (hk : k < S.length) :
    S.take (k + 1) = S.take k ++ [S.getD k 0] := by
  rw [List.take_succ, List.getD_eq_getElem?_getD, List.getElem?_eq_getElem hk]
  rfl

theorem query_wins_list_run_finished (qsort : QsortAddr) (ifs : Interfaces)
    (interpreted : Option sockaddr_storage)
    (later : List (tevent_req_state × name_query_state)) :
    ∀ (s : query_wins_list_state), s.req ≠ .in_progress →
      later.foldl (query_wins_list_step qsort ifs interpreted) s = s := by
  induction later with
  | nil => intro s _; rfl
  | cons o rest ih =>
    intro s hs
    have hstep : query_wins_list_step qsort ifs interpreted s o = s := by
      simp only [query_wins_list_step, hs, if_false]
    rw [List.foldl_cons, hstep]
    exact ih s hs

theorem query_wins_list_timeouts (qsort : QsortAddr) (ifs : Interfaces)
    (interpreted : Option sockaddr_storage) (S : List Nat) :
    ∀ (touts : List (tevent_req_state × name_query_state)),
      touts.length ≤ S.length →
      (∀ o ∈ touts, (name_query_recv qsort ifs o.1 o.2 true).1 = NT_STATUS_IO_TIMEOUT) →
      (query_wins_list_reached qsort ifs interpreted S touts).servers = S
      ∧ (query_wins_list_reached qsort ifs interpreted S touts).dead
          = (S.take touts.length).map (fun ip => (ip, my_socket_addr_v4 interpreted))
      ∧ (touts.length < S.length →
          (query_wins_list_reached qsort ifs interpreted S touts).req = .in_progress
          ∧ (query_wins_list_reached qsort ifs interpreted S touts).num_sent = touts.length + 1
          ∧ (query_wins_list_reached qsort ifs interpreted S touts).queried
              = (S.take (touts.length + 1)).map in_addr_to_sockaddr_storage)
      ∧ (touts.length = S.length →
          (query_wins_list_reached qsort ifs interpreted S touts).req
              = .user_error NT_STATUS_NOT_FOUND
          ∧ (query_wins_list_reached qsort ifs interpreted S touts).queried
              = S.map in_addr_to_sockaddr_storage) := by
  intro touts
  induction touts using List.reverseRecOn with
  | nil =>
    intro _ _
    unfold query_wins_list_reached
    simp only [List.foldl_nil, List.length_nil, List.take_zero, List.map_nil]
    by_cases h0 : S.length = 0
    · have hS : S = [] := List.length_eq_zero.mp h0
      subst hS
      simp [query_wins_list_send]
    · have hpos : 0 < S.length := Nat.pos_of_ne_zero h0
      rw [query_wins_list_send, if_neg h0]
      refine ⟨rfl, rfl, fun _ => ⟨rfl, rfl, ?_⟩, fun hc => (h0 hc.symm).elim⟩
      show [in_addr_to_sockaddr_storage (S.getD 0 0)]
        = (S.take (0 + 1)).map in_addr_to_sockaddr_storage
      rw [take_succ_getD S 0 hpos]
      simp
  | append_singleton T o ih =>
    intro hlen htout
    have hlen2 : T.length + 1 ≤ S.length := by simpa using hlen
    have hT : ∀ o2 ∈ T, (name_query_recv qsort ifs o2.1 o2.2 true).1 = NT_STATUS_IO_TIMEOUT :=
      fun o2 ho2 => htout o2 (List.mem_append_left _ ho2)
    have ho : (name_query_recv qsort ifs o.1 o.2 true).1 = NT_STATUS_IO_TIMEOUT :=
      htout o (List.mem_append_right _ (List.mem_singleton_self o))
    obtain ⟨hserv, hdead, hprog, _⟩ := ih (by omega) hT
    obtain ⟨hreq, hsent, hq⟩ := hprog (by omega)
    have hstep : query_wins_list_reached qsort ifs interpreted S (T ++ [o])
        = query_wins_list_done qsort ifs interpreted
            (query_wins_list_reached qsort ifs interpreted S T) o.1 o.2 := by
      unfold query_wins_list_reached at hreq ⊢
      rw [List.foldl_append, List.foldl_cons, List.foldl_nil, query_wins_list_step, if_pos hreq]
    rw [hstep, query_wins_list_done_timeout qsort ifs interpreted _ o.1 o.2 ho]
    generalize query_wins_list_reached qsort ifs interpreted S T = s at hserv hdead hreq hsent hq
    have hTlen : (T ++ [o]).length = T.length + 1 := by simp
    rw [hTlen, hserv, hsent]
    have hdead2 : s.dead ++ [(S.getD (T.length + 1 - 1) 0, my_socket_addr_v4 interpreted)]
        = (S.take (T.length + 1)).map (fun ip => (ip, my_socket_addr_v4 interpreted)) := by
      rw [take_succ_getD S T.length (by omega), hdead]
      simp
    by_cases hend : T.length + 1 = S.length
    · rw [if_pos hend]
      refine ⟨rfl, hdead2, fun hc => by omega, fun _ => ⟨rfl, ?_⟩⟩
      show s.queried = S.map in_addr_to_sockaddr_storage
      rw [hq, hend, List.take_length]
    · rw [if_neg hend]
      refine ⟨rfl, hdead2, fun _ => ⟨hreq, rfl, ?_⟩, fun hc => (hend hc).elim⟩
      show s.queried ++ [in_addr_to_sockaddr_storage (S.getD (T.length + 1) 0)]
        = (S.take (T.length + 1 + 1)).map in_addr_to_sockaddr_storage
      rw [take_succ_getD S (T.length + 1) (by omega), hq]
      simp

/-! ## The domain controller list -/

theorem get_dc_list_copy_auto_reach (cfg : Config) (domain : String) (n : Nat) :
    ∀ (l : List ip_service) (st : DcFill),
      Relation.ReflTransGen (DcFillStep cfg domain) st (get_dc_list_copy_auto cfg domain n l st) := by
  intro l
  induction l with
  | nil => intro st; exact Relation.ReflTransGen.refl
  | cons e rest ih =>
    intro st
    rw [get_dc_list_copy_auto]
    by_cases hf : st.fault = true
    · rw [if_pos hf]
    · rw [if_neg hf]
      by_cases hc : NT_STATUS_IS_OK (cfg.check_negative_conn_cache domain e.ss) = true
      · have hc2 : ¬ (!NT_STATUS_IS_OK (cfg.check_negative_conn_cache domain e.ss)) = true := by
          simp [hc]
        rw [if_neg hc2]
        by_cases hfull : n ≤ st.return_iplist.length
        · rw [if_pos hfull]
          have hs : DcFillStep cfg domain st { st with fault := true, cache := st.cache } :=
            DcFillStep.fault st st.cache
          exact Relation.ReflTransGen.single hs
        · rw [if_neg hfull]
          exact Relation.ReflTransGen.head (DcFillStep.auto_copied st e hc) (ih _)
      · have hc3 : NT_STATUS_IS_OK (cfg.check_negative_conn_cache domain e.ss) = false :=
          Bool.eq_false_iff.mpr hc
        have hc2 : (!NT_STATUS_IS_OK (cfg.check_negative_conn_cache domain e.ss)) = true := by
          simp [hc3]
        rw [if_pos hc2]
        exact Relation.ReflTransGen.head (DcFillStep.auto_negative st e hc3) (ih _)

theorem get_dc_list_fill_reach (env : Env) (cfg : Config) (domain : String)
    (lookup_type : dc_lookup_type) (n : Nat) (auto_ip_list : List ip_service) :
    ∀ (tokens : List String) (st : DcFill),
      Relation.ReflTransGen (DcFillStep cfg domain) st
        (get_dc_list_fill env cfg domain lookup_type n auto_ip_list tokens st) := by
  intro tokens
  induction tokens with
  | nil => intro st; exact Relation.ReflTransGen.refl
  | cons name rest ih =>
    intro st
    rw [get_dc_list_fill]
    by_cases hf : st.fault = true
    · rw [if_pos hf]
    · rw [if_neg hf]
      by_cases hroom : ¬ st.return_iplist.length < n
      · rw [if_pos hroom]
      · rw [if_neg hroom]
        by_cases hstar : strequal name "*" = true
        · rw [if_pos hstar]
          exact (get_dc_list_copy_auto_reach cfg domain n auto_ip_list st).trans (ih _)
        · rw [if_neg hstar]
          simp only
          cases hr : (resolve_name env cfg st.cache (get_dc_list_name name) 0x20 true).outcome with
          | fault =>
            simp only
            exact Relation.ReflTransGen.single (DcFillStep.fault st _)
          | ret return_ss =>
            cases return_ss with
            | none =>
              simp only
              exact Relation.ReflTransGen.head (DcFillStep.named_unresolved st _ _) (ih _)
            | some name_ss =>
              simp only
              by_cases hc : NT_STATUS_IS_OK (cfg.check_negative_conn_cache domain name_ss) = true
              · have hc2 : ¬ (!NT_STATUS_IS_OK (cfg.check_negative_conn_cache domain name_ss))
                    = true := by simp [hc]
                rw [if_neg hc2]
                exact Relation.ReflTransGen.head (DcFillStep.named_copied st _ _ name_ss _ hc)
                  (ih _)
              · have hc3 : NT_STATUS_IS_OK (cfg.check_negative_conn_cache domain name_ss)
                    = false := Bool.eq_false_iff.mpr hc
                have hc2 : (!NT_STATUS_IS_OK (cfg.check_negative_conn_cache domain name_ss))
                    = true := by simp [hc3]
                rw [if_pos hc2]
                exact Relation.ReflTransGen.head (DcFillStep.named_negative st _ _ name_ss hc3)
                  (ih _)

/-- A property of the loop variables that every change keeps holds after the
second token loop when it holds before. -/
theorem get_dc_list_fill_invariant (env : Env) (cfg : Config) (domain : String)
    (lookup_type : dc_lookup_type) (n : Nat) (auto_ip_list : List ip_service)
    (Q : DcFill → Prop) (hstep : ∀ a b, DcFillStep cfg domain a b → Q a → Q b)
    (tokens : List String) (st : DcFill) (h : Q st) :
    Q (get_dc_list_fill env cfg domain lookup_type n auto_ip_list tokens st) := by
  have hreach := get_dc_list_fill_reach env cfg domain lookup_type n auto_ip_list tokens st
  generalize get_dc_list_fill env cfg domain lookup_type n auto_ip_list tokens st = st2 at hreach
  induction hreach with
  | refl => exact h
  | tail _ hs ih => exact hstep _ _ hs ih

theorem get_dc_list_count_done (env : Env) (domain : String) (sitename : Option String)
    (policy : DcPolicy) :
    ∀ (tokens : List String) (st : DcCount), st.done_auto_lookup = true →
      (get_dc_list_count env domain sitename policy tokens st).done_auto_lookup = true := by
  intro tokens
  induction tokens with
  | nil => intro st h; exact h
  | cons name rest ih =>
    intro st h
    rw [get_dc_list_count]
    by_cases hf : st.fault = true
    · rw [if_pos hf]; exact h
    · rw [if_neg hf]
      have hcond : ¬ ((!st.done_auto_lookup && strequal name "*") = true) := by simp [h]
      rw [if_neg hcond]
      exact ih _ h

theorem get_dc_list_count_not_done (env : Env) (domain : String) (sitename : Option String)
    (policy : DcPolicy) :
    ∀ (tokens : List String) (st : DcCount),
      (get_dc_list_count env domain sitename policy tokens st).fault = false →
      (get_dc_list_count env domain sitename policy tokens st).done_auto_lookup = false →
      (get_dc_list_count env domain sitename policy tokens st).cache = st.cache
      ∧ (get_dc_list_count env domain sitename policy tokens st).trace = st.trace := by
  intro tokens
  induction tokens with
  | nil => intro st _ _; exact ⟨rfl, rfl⟩
  | cons name rest ih =>
    intro st
    rw [get_dc_list_count]
    by_cases hf : st.fault = true
    · rw [if_pos hf]
      intro _ _
      exact ⟨rfl, rfl⟩
    · rw [if_neg hf]
      by_cases hcond : (!st.done_auto_lookup && strequal name "*") = true
      · rw [if_pos hcond]
        simp only
        cases hr : (internal_resolve_name env st.cache domain policy.auto_name_type sitename
            (some policy.resolve_order)).outcome with
        | fault =>
          simp only
          intro hfault
          cases hfault
        | ret status iplist =>
          simp only
          intro _ hnd
          rw [get_dc_list_count_done env domain sitename policy rest _ rfl] at hnd
          cases hnd
      · rw [if_neg hcond]
        intro h1 h2
        exact ih _ h1 h2

theorem get_dc_list_count_events (env : Env) (domain : String) (sitename : Option String)
    (policy : DcPolicy) :
    ∀ (tokens : List String) (st : DcCount) (ev : DcEvent),
      ev ∈ (get_dc_list_count env domain sitename policy tokens st).trace →
      ev ∈ st.trace
      ∨ ∃ status iplist,
          (internal_resolve_name env st.cache domain policy.auto_name_type sitename
            (some policy.resolve_order)).outcome = .ret status iplist
          ∧ ev = .lookup policy.auto_name_type sitename policy.resolve_order status := by
  intro tokens
  induction tokens with
  | nil => intro st ev h; exact Or.inl h
  | cons name rest ih =>
    intro st ev
    rw [get_dc_list_count]
    by_cases hf : st.fault = true
    · rw [if_pos hf]
      exact Or.inl
    · rw [if_neg hf]
      by_cases hcond : (!st.done_auto_lookup && strequal name "*") = true
      · rw [if_pos hcond]
        simp only
        cases hr : (internal_resolve_name env st.cache domain policy.auto_name_type sitename
            (some policy.resolve_order)).outcome with
        | fault =>
          simp only
          exact Or.inl
        | ret status iplist =>
          simp only
          intro hev
          have hnolater : ∀ (toks : List String) (s2 : DcCount), s2.done_auto_lookup = true →
              (get_dc_list_count env domain sitename policy toks s2).trace = s2.trace := by
            intro toks
            induction toks with
            | nil => intro s2 _; rfl
            | cons t ts ih2 =>
              intro s2 hd
              rw [get_dc_list_count]
              by_cases hf2 : s2.fault = true
              · rw [if_pos hf2]
              · rw [if_neg hf2]
                have hc2 : ¬ ((!s2.done_auto_lookup && strequal t "*") = true) := by simp [hd]
                rw [if_neg hc2]
                exact ih2 _ hd
          rw [hnolater rest _ rfl] at hev
          rcases List.mem_append.mp hev with h1 | h1
          · exact Or.inl h1
          · right
            exact ⟨status, iplist, rfl, List.mem_singleton.mp h1⟩
      · rw [if_neg hcond]
        intro hev
        exact ih { st with num_addresses := st.num_addresses + 1 } ev hev

theorem get_dc_list_finish_fields (st : DcFill) :
    (get_dc_list_finish st).ordered = st.ordered
    ∧ (get_dc_list_finish st).trace = st.trace
    ∧ (get_dc_list_finish st).cache = st.cache := by
  unfold get_dc_list_finish
  by_cases hf : st.fault = true
  · rw [if_pos hf]
    exact ⟨rfl, rfl, rfl⟩
  · rw [if_neg hf]
    obtain ⟨out, hout, _, _⟩ := remove_duplicate_addrs2_spec st.return_iplist
    rw [hout]
    exact ⟨rfl, rfl, rfl⟩

theorem DcFillStep_lookup (cfg : Config) (domain : String) (T : List DcEvent) (a b : DcFill)
    (hs : DcFillStep cfg domain a b)
    (ha : ∀ ev ∈ a.trace, ev.is_lookup = true → ev ∈ T) :
    ∀ ev ∈ b.trace, ev.is_lookup = true → ev ∈ T := by
  intro ev hev hl
  cases hs with
  | fault cache => exact ha ev hev hl
  | auto_negative e h | auto_copied e h | named_unresolved cache name
  | named_negative cache name ss h | named_copied cache name ss port h =>
    rcases List.mem_append.mp hev with h1 | h1
    · exact ha ev h1 hl
    · rw [List.mem_singleton.mp h1] at hl
      cases hl

theorem DcFillStep_ordered (cfg : Config) (domain : String) (a b : DcFill)
    (hs : DcFillStep cfg domain a b) (ha : a.ordered = true) : b.ordered = true := by
  cases hs <;> first | exact ha | rfl

theorem DcFillStep_named (cfg : Config) (domain : String) (a b : DcFill)
    (hs : DcFillStep cfg domain a b)
    (ha : a.ordered = true ↔ ∃ ev ∈ a.trace, ev.is_named_copied = true) :
    b.ordered = true ↔ ∃ ev ∈ b.trace, ev.is_named_copied = true := by
  cases hs with
  | fault cache => exact ha
  | named_copied cache name ss port h =>
    constructor
    · intro _
      exact ⟨.named_copied name { ss := ss, port := port },
        List.mem_append_right _ (List.mem_singleton_self _), rfl⟩
    · intro _
      rfl
  | auto_negative e h | auto_copied e h | named_unresolved cache name
  | named_negative cache name ss h =>
    constructor
    · intro hb
      obtain ⟨ev, hev, hn⟩ := ha.mp hb
      exact ⟨ev, List.mem_append_left _ hev, hn⟩
    · rintro ⟨ev, hev, hn⟩
      rcases List.mem_append.mp hev with h1 | h1
      · exact ha.mpr ⟨ev, h1, hn⟩
      · rw [List.mem_singleton.mp h1] at hn
        cases hn

theorem DcFillStep_checked (cfg : Config) (domain : String) (a b : DcFill)
    (hs : DcFillStep cfg domain a b)
    (ha : ∀ x ∈ a.return_iplist,
      NT_STATUS_IS_OK (cfg.check_negative_conn_cache domain x.ss) = true) :
    ∀ x ∈ b.return_iplist,
      NT_STATUS_IS_OK (cfg.check_negative_conn_cache domain x.ss) = true := by
  cases hs with
  | fault cache | auto_negative e h | named_unresolved cache name
  | named_negative cache name ss h => exact ha
  | auto_copied e h | named_copied cache name ss port h =>
    intro x hx
    rcases List.mem_append.mp hx with h1 | h1
    · exact ha x h1
    · rw [List.mem_singleton.mp h1]
      exact h

theorem get_dc_list_count_num_mono (env : Env) (domain : String) (sitename : Option String)
    (policy : DcPolicy) :
    ∀ (tokens : List String) (st : DcCount),
      (get_dc_list_count env domain sitename policy tokens st).fault = true
      ∨ st.num_addresses ≤ (get_dc_list_count env domain sitename policy tokens st).num_addresses := by
  intro tokens
  induction tokens with
  | nil => intro st; exact Or.inr (Nat.le_refl _)
  | cons name rest ih =>
    intro st
    rw [get_dc_list_count]
    by_cases hf : st.fault = true
    · rw [if_pos hf]
      exact Or.inl hf
    · rw [if_neg hf]
      by_cases hcond : (!st.done_auto_lookup && strequal name "*") = true
      · rw [if_pos hcond]
        dsimp only
        cases hr : (internal_resolve_name env st.cache domain policy.auto_name_type sitename
            (some policy.resolve_order)).outcome with
        | fault => exact Or.inl rfl
        | ret status iplist =>
          dsimp only
          rcases ih { num_addresses :=
                        if NT_STATUS_IS_OK status then st.num_addresses + iplist.length
                        else st.num_addresses
                      done_auto_lookup := true
                      auto_ip_list := iplist
                      cache := (internal_resolve_name env st.cache domain policy.auto_name_type
                        sitename (some policy.resolve_order)).cache
                      trace := st.trace ++
                        [.lookup policy.auto_name_type sitename policy.resolve_order status]
                      fault := false } with h1 | h1
          · exact Or.inl h1
          · right
            refine Nat.le_trans ?_ h1
            dsimp only
            split <;> omega
      · rw [if_neg hcond]
        rcases ih { st with num_addresses := st.num_addresses + 1 } with h1 | h1
        · exact Or.inl h1
        · right
          exact Nat.le_trans (Nat.le_succ _) h1

theorem get_dc_list_count_progress (env : Env) (domain : String) (sitename : Option String)
    (policy : DcPolicy) (tokens : List String) (st : DcCount) (hne : tokens ≠ []) :
    (get_dc_list_count env domain sitename policy tokens st).fault = true
    ∨ (get_dc_list_count env domain sitename policy tokens st).num_addresses ≠ 0
    ∨ (get_dc_list_count env domain sitename policy tokens st).done_auto_lookup = true := by
  cases tokens with
  | nil => exact (hne rfl).elim
  | cons name rest =>
    rw [get_dc_list_count]
    by_cases hf : st.fault = true
    · rw [if_pos hf]
      exact Or.inl hf
    · rw [if_neg hf]
      by_cases hcond : (!st.done_auto_lookup && strequal name "*") = true
      · rw [if_pos hcond]
        dsimp only
        cases hr : (internal_resolve_name env st.cache domain policy.auto_name_type sitename
            (some policy.resolve_order)).outcome with
        | fault => exact Or.inl rfl
        | ret status iplist =>
          dsimp only
          exact Or.inr (Or.inr (get_dc_list_count_done env domain sitename policy rest _ rfl))
      · rw [if_neg hcond]
        rcases get_dc_list_count_num_mono env domain sitename policy rest
          { st with num_addresses := st.num_addresses + 1 } with h1 | h1
        · exact Or.inl h1
        · right
          left
          have h2 : st.num_addresses + 1
              ≤ (get_dc_list_count env domain sitename policy rest
                  { st with num_addresses := st.num_addresses + 1 }).num_addresses := h1
          omega

theorem get_dc_list_count_start (env : Env) (domain : String) (sitename : Option String)
    (policy : DcPolicy) (cache : NameCache) (tokens : List String) (ev : DcEvent)
    (hev : ev ∈ (get_dc_list_count env domain sitename policy tokens
      { num_addresses := 0, done_auto_lookup := false, auto_ip_list := [], cache := cache,
        trace := [], fault := false }).trace) :
    ∃ status iplist,
      (internal_resolve_name env cache domain policy.auto_name_type sitename
        (some policy.resolve_order)).outcome = .ret status iplist
      ∧ ev = .lookup policy.auto_name_type sitename policy.resolve_order status := by
  rcases get_dc_list_count_events env domain sitename policy tokens _ ev hev with h | h
  · cases h
  · exact h

/-- The trace, the flag and the cache of `get_dc_list` in terms of its two
token loops. -/
theorem get_dc_list_shape (env : Env) (cfg : Config) (gencache : GenCache) (cache : NameCache)
    (domain : String) (sitename : Option String) (lookup_type : dc_lookup_type) :
    ((get_dc_list env cfg gencache cache domain sitename lookup_type).ordered
        = (get_dc_list_policy lookup_type cfg.name_resolve_order).ordered
      ∧ (∀ ev ∈ (get_dc_list env cfg gencache cache domain sitename lookup_type).trace,
          ∃ status iplist,
            (internal_resolve_name env cache domain
              (get_dc_list_policy lookup_type cfg.name_resolve_order).auto_name_type sitename
              (some (get_dc_list_policy lookup_type cfg.name_resolve_order).resolve_order)).outcome
              = .ret status iplist
            ∧ ev = .lookup (get_dc_list_policy lookup_type cfg.name_resolve_order).auto_name_type
                sitename (get_dc_list_policy lookup_type cfg.name_resolve_order).resolve_order
                status)
      ∧ ∀ l, (get_dc_list env cfg gencache cache domain sitename lookup_type).outcome
            = .ret NT_STATUS_OK l →
          cfg.next_tokens (get_dc_list_pserver cfg gencache domain) = [])
    ∨ ∃ (n : Nat) (auto_ip_list : List ip_service) (st : DcFill),
        (∀ ev ∈ st.trace,
          ∃ status iplist,
            (internal_resolve_name env cache domain
              (get_dc_list_policy lookup_type cfg.name_resolve_order).auto_name_type sitename
              (some (get_dc_list_policy lookup_type cfg.name_resolve_order).resolve_order)).outcome
              = .ret status iplist
            ∧ ev = .lookup (get_dc_list_policy lookup_type cfg.name_resolve_order).auto_name_type
                sitename (get_dc_list_policy lookup_type cfg.name_resolve_order).resolve_order
                status)
        ∧ st.return_iplist = []
        ∧ st.ordered = (get_dc_list_policy lookup_type cfg.name_resolve_order).ordered
        ∧ cfg.next_tokens (get_dc_list_pserver cfg gencache domain) ≠ []
        ∧ get_dc_list env cfg gencache cache domain sitename lookup_type
          = get_dc_list_finish
              (get_dc_list_fill env cfg domain lookup_type n auto_ip_list
                (cfg.next_tokens (get_dc_list_pserver cfg gencache domain)) st) := by
  have hstart := get_dc_list_count_start env domain sitename
    (get_dc_list_policy lookup_type cfg.name_resolve_order) cache
    (cfg.next_tokens (get_dc_list_pserver cfg gencache domain))
  have hnd := get_dc_list_count_not_done env domain sitename
    (get_dc_list_policy lookup_type cfg.name_resolve_order)
    (cfg.next_tokens (get_dc_list_pserver cfg gencache domain))
    { num_addresses := 0, done_auto_lookup := false, auto_ip_list := [], cache := cache,
      trace := [], fault := false }
  have hne : (get_dc_list_count env domain sitename
      (get_dc_list_policy lookup_type cfg.name_resolve_order)
      (cfg.next_tokens (get_dc_list_pserver cfg gencache domain))
      { num_addresses := 0, done_auto_lookup := false, auto_ip_list := [], cache := cache,
        trace := [], fault := false }).num_addresses ≠ 0 →
      cfg.next_tokens (get_dc_list_pserver cfg gencache domain) ≠ [] := by
    intro h he
    rw [he] at h
    exact h rfl
  have hprog : cfg.next_tokens (get_dc_list_pserver cfg gencache domain) ≠ [] → _ :=
    get_dc_list_count_progress env domain sitename
      (get_dc_list_policy lookup_type cfg.name_resolve_order)
      (cfg.next_tokens (get_dc_list_pserver cfg gencache domain))
      { num_addresses := 0, done_auto_lookup := false, auto_ip_list := [], cache := cache,
        trace := [], fault := false }
  unfold get_dc_list
  dsimp only
  generalize get_dc_list_count env domain sitename
    (get_dc_list_policy lookup_type cfg.name_resolve_order)
    (cfg.next_tokens (get_dc_list_pserver cfg gencache domain))
    { num_addresses := 0, done_auto_lookup := false, auto_ip_list := [], cache := cache,
      trace := [], fault := false } = c at hstart hnd hne hprog
  by_cases hf : c.fault = true
  · rw [if_pos hf]
    refine Or.inl ⟨rfl, hstart, ?_⟩
    intro l hl
    cases hl
  · rw [if_neg hf]
    by_cases h0 : c.num_addresses = 0
    · rw [if_pos h0]
      by_cases hd : c.done_auto_lookup = true
      · rw [if_pos hd]
        refine Or.inl ⟨rfl, hstart, ?_⟩
        intro l hl
        injection hl with hs _
        exact absurd hs (by decide)
      · rw [if_neg hd]
        have hempty : cfg.next_tokens (get_dc_list_pserver cfg gencache domain) = [] := by
          by_contra hc
          rcases hprog hc with h1 | h1 | h1
          · exact hf h1
          · exact h1 h0
          · exact hd h1
        obtain ⟨hcache, htrace⟩ := hnd (Bool.eq_false_iff.mpr hf) (Bool.eq_false_iff.mpr hd)
        dsimp only at hcache htrace
        rw [hcache]
        cases hr : (internal_resolve_name env cache domain
            (get_dc_list_policy lookup_type cfg.name_resolve_order).auto_name_type sitename
            (some (get_dc_list_policy lookup_type cfg.name_resolve_order).resolve_order)).outcome
          with
        | fault =>
          rw [hr] at hstart
          exact Or.inl ⟨rfl, hstart, fun _ _ => hempty⟩
        | ret status iplist =>
          rw [hr] at hstart
          refine Or.inl ⟨rfl, ?_, fun _ _ => hempty⟩
          intro ev hev
          rcases List.mem_append.mp hev with h1 | h1
          · exact hstart ev h1
          · exact ⟨status, iplist, rfl, List.mem_singleton.mp h1⟩
    · rw [if_neg h0]
      right
      exact ⟨c.num_addresses, c.auto_ip_list, _, hstart, rfl, rfl, hne h0, rfl⟩

theorem prioritize_ipv4_list_take_mem (out : List ip_service) (c : Nat) (hc : c ≤ out.length)
    (x : ip_service) (hx : x ∈ (prioritize_ipv4_list out c).take c) : x ∈ out.take c := by
  have hperm : ((out.take c).filter (fun e => e.ss.ss_family = AF_INET)
      ++ (out.take c).filter (fun e => !decide (e.ss.ss_family = AF_INET))).Perm (out.take c) :=
    List.filter_append_perm (fun e => decide (e.ss.ss_family = AF_INET)) (out.take c)
  have hlen : ((out.take c).filter (fun e => e.ss.ss_family = AF_INET)
      ++ (out.take c).filter (fun e => !decide (e.ss.ss_family = AF_INET))).length = c := by
    rw [hperm.length_eq, List.length_take]
    omega
  unfold prioritize_ipv4_list at hx
  rw [prioritize_copy_ipv4_eq, prioritize_copy_other_eq, List.nil_append] at hx
  have htake : (((out.take c).filter (fun e => e.ss.ss_family = AF_INET)
      ++ (out.take c).filter (fun e => !decide (e.ss.ss_family = AF_INET))).take c).length = c := by
    rw [List.length_take, hlen]
    omega
  rw [List.take_left' htake] at hx
  exact hperm.subset (List.mem_of_mem_take hx)

theorem get_dc_list_finish_mem (st : DcFill) (l : List ip_service)
    (h : (get_dc_list_finish st).outcome = .ret NT_STATUS_OK l) :
    ∀ x ∈ l, x ∈ st.return_iplist := by
  unfold get_dc_list_finish at h
  by_cases hf : st.fault = true
  · rw [if_pos hf] at h
    cases h
  · rw [if_neg hf] at h
    obtain ⟨out, hout, hlen, htake⟩ := remove_duplicate_addrs2_spec st.return_iplist
    rw [hout] at h
    dsimp only at h
    have hsub := (first_occurrences_sublist st.return_iplist []).subset
    have hc : (first_occurrences [] st.return_iplist).length ≤ out.length := by
      rw [hlen]
      exact (first_occurrences_sublist st.return_iplist []).length_le
    by_cases h0 : (first_occurrences [] st.return_iplist).length ≠ 0
    · rw [if_pos h0, if_pos h0] at h
      injection h with _ hl
      intro x hx
      rw [← hl] at hx
      have hx2 := prioritize_ipv4_list_take_mem out _ hc x hx
      rw [htake] at hx2
      exact hsub hx2
    · rw [if_neg h0] at h
      injection h with hs _
      exact absurd hs (by decide)

theorem get_dc_list_lookup_events (env : Env) (cfg : Config) (gencache : GenCache)
    (cache : NameCache) (domain : String) (sitename : Option String)
    (lookup_type : dc_lookup_type) (ev : DcEvent)
    (hev : ev ∈ (get_dc_list env cfg gencache cache domain sitename lookup_type).trace)
    (hl : ev.is_lookup = true) :
    ∃ status iplist,
      (internal_resolve_name env cache domain
        (get_dc_list_policy lookup_type cfg.name_resolve_order).auto_name_type sitename
        (some (get_dc_list_policy lookup_type cfg.name_resolve_order).resolve_order)).outcome
        = .ret status iplist
      ∧ ev = .lookup (get_dc_list_policy lookup_type cfg.name_resolve_order).auto_name_type
          sitename (get_dc_list_policy lookup_type cfg.name_resolve_order).resolve_order
          status := by
  rcases get_dc_list_shape env cfg gencache cache domain sitename lookup_type with
    ⟨_, h, _⟩ | ⟨n, auto_ip_list, st, hst, _, _, _, heq⟩
  · exact h ev hev
  · rw [heq, (get_dc_list_finish_fields _).2.1] at hev
    have hinv := get_dc_list_fill_invariant env cfg domain lookup_type n auto_ip_list
      (fun s => ∀ ev ∈ s.trace, ev.is_lookup = true → ev ∈ st.trace)
      (fun a b hs ha => DcFillStep_lookup cfg domain st.trace a b hs ha)
      (cfg.next_tokens (get_dc_list_pserver cfg gencache domain)) st (fun ev h _ => h)
    exact hst ev (hinv ev hev hl)

theorem get_dc_list_ordered_mono (env : Env) (cfg : Config) (gencache : GenCache)
    (cache : NameCache) (domain : String) (sitename : Option String)
    (lookup_type : dc_lookup_type)
    (hp : (get_dc_list_policy lookup_type cfg.name_resolve_order).ordered = true) :
    (get_dc_list env cfg gencache cache domain sitename lookup_type).ordered = true := by
  rcases get_dc_list_shape env cfg gencache cache domain sitename lookup_type with
    ⟨h, _, _⟩ | ⟨n, auto_ip_list, st, _, _, hord, _, heq⟩
  · rw [h, hp]
  · rw [heq, (get_dc_list_finish_fields _).1]
    exact get_dc_list_fill_invariant env cfg domain lookup_type n auto_ip_list
      (fun s => s.ordered = true) (fun a b hs ha => DcFillStep_ordered cfg domain a b hs ha)
      (cfg.next_tokens (get_dc_list_pserver cfg gencache domain)) st (hord.trans hp)

theorem get_dc_list_ordered_iff (env : Env) (cfg : Config) (gencache : GenCache)
    (cache : NameCache) (domain : String) (sitename : Option String)
    (lookup_type : dc_lookup_type)
    (hp : (get_dc_list_policy lookup_type cfg.name_resolve_order).ordered = false) :
    (get_dc_list env cfg gencache cache domain sitename lookup_type).ordered = true
      ↔ ∃ ev ∈ (get_dc_list env cfg gencache cache domain sitename lookup_type).trace,
          ev.is_named_copied = true := by
  rcases get_dc_list_shape env cfg gencache cache domain sitename lookup_type with
    ⟨h, hall, _⟩ | ⟨n, auto_ip_list, st, hst, _, hord, _, heq⟩
  · rw [h, hp]
    constructor
    · intro hc
      cases hc
    · rintro ⟨ev, hev, hn⟩
      obtain ⟨status, iplist, _, he⟩ := hall ev hev
      rw [he] at hn
      cases hn
  · rw [heq, (get_dc_list_finish_fields _).1, (get_dc_list_finish_fields _).2.1]
    apply get_dc_list_fill_invariant env cfg domain lookup_type n auto_ip_list
      (fun s => s.ordered = true ↔ ∃ ev ∈ s.trace, ev.is_named_copied = true)
      (fun a b hs ha => DcFillStep_named cfg domain a b hs ha)
    rw [hord, hp]
    constructor
    · intro hc
      cases hc
    · rintro ⟨ev, hev, hn⟩
      obtain ⟨status, iplist, _, he⟩ := hst ev hev
      rw [he] at hn
      cases hn

theorem get_dc_list_copy_auto_ordered (cfg : Config) (domain : String) (n : Nat) :
    ∀ (l : List ip_service) (st : DcFill),
      (get_dc_list_copy_auto cfg domain n l st).ordered = st.ordered := by
  intro l
  induction l with
  | nil => intro st; rfl
  | cons e rest ih =>
    intro st
    rw [get_dc_list_copy_auto]
    split
    · rfl
    · split
      · rw [ih]
      · split
        · rfl
        · rw [ih]

theorem get_dc_list_fill_all_star (env : Env) (cfg : Config) (domain : String)
    (lookup_type : dc_lookup_type) (n : Nat) (auto_ip_list : List ip_service) :
    ∀ (tokens : List String) (st : DcFill), (∀ t ∈ tokens, strequal t "*" = true) →
      (get_dc_list_fill env cfg domain lookup_type n auto_ip_list tokens st).ordered
        = st.ordered := by
  intro tokens
  induction tokens with
  | nil => intro st _; rfl
  | cons name rest ih =>
    intro st hall
    have hstar : strequal name "*" = true := hall name (List.mem_cons_self _ _)
    rw [get_dc_list_fill]
    split
    · rfl
    · split
      · rfl
      · rw [ih _ (fun t ht => hall t (List.mem_cons_of_mem _ ht)),
          get_dc_list_copy_auto_ordered]

theorem get_dc_list_checked (env : Env) (cfg : Config) (gencache : GenCache)
    (cache : NameCache) (domain : String) (sitename : Option String)
    (lookup_type : dc_lookup_type) (l : List ip_service)
    (hne : cfg.next_tokens (get_dc_list_pserver cfg gencache domain) ≠ [])
    (hok : (get_dc_list env cfg gencache cache domain sitename lookup_type).outcome
      = .ret NT_STATUS_OK l) :
    ∀ x ∈ l, NT_STATUS_IS_OK (cfg.check_negative_conn_cache domain x.ss) = true := by
  rcases get_dc_list_shape env cfg gencache cache domain sitename lookup_type with
    ⟨_, _, h⟩ | ⟨n, auto_ip_list, st, _, hret, _, _, heq⟩
  · exact (hne (h l hok)).elim
  · rw [heq] at hok
    intro x hx
    have hmem := get_dc_list_finish_mem _ l hok x hx
    exact get_dc_list_fill_invariant env cfg domain lookup_type n auto_ip_list
      (fun s => ∀ x ∈ s.return_iplist,
        NT_STATUS_IS_OK (cfg.check_negative_conn_cache domain x.ss) = true)
      (fun a b hs ha => DcFillStep_checked cfg domain a b hs ha)
      (cfg.next_tokens (get_dc_list_pserver cfg gencache domain)) st
      (by intro y hy; rw [hret] at hy; cases hy) x hmem

theorem DcFillStep_named_checked (cfg : Config) (domain : String) (a b : DcFill)
    (hs : DcFillStep cfg domain a b)
    (ha : ∀ name entry, DcEvent.named_copied name entry ∈ a.trace →
      NT_STATUS_IS_OK (cfg.check_negative_conn_cache domain entry.ss) = true) :
    ∀ name entry, DcEvent.named_copied name entry ∈ b.trace →
      NT_STATUS_IS_OK (cfg.check_negative_conn_cache domain entry.ss) = true := by
  intro name entry hev
  cases hs with
  | fault cache => exact ha name entry hev
  | named_copied cache name2 ss port h =>
    rcases List.mem_append.mp hev with h1 | h1
    · exact ha name entry h1
    · have he := List.mem_singleton.mp h1
      injection he with _ h3
      rw [h3]
      exact h
  | auto_negative e h | auto_copied e h | named_unresolved cache name2
  | named_negative cache name2 ss h =>
    rcases List.mem_append.mp hev with h1 | h1
    · exact ha name entry h1
    · have he := List.mem_singleton.mp h1
      cases he

theorem get_dc_list_named_checked (env : Env) (cfg : Config) (gencache : GenCache)
    (cache : NameCache) (domain : String) (sitename : Option String)
    (lookup_type : dc_lookup_type) (name : String) (entry : ip_service)
    (hev : DcEvent.named_copied name entry
      ∈ (get_dc_list env cfg gencache cache domain sitename lookup_type).trace) :
    NT_STATUS_IS_OK (cfg.check_negative_conn_cache domain entry.ss) = true := by
  rcases get_dc_list_shape env cfg gencache cache domain sitename lookup_type with
    ⟨_, hall, _⟩ | ⟨n, auto_ip_list, st, hst, _, _, _, heq⟩
  · obtain ⟨status, iplist, _, he⟩ := hall _ hev
    cases he
  · rw [heq, (get_dc_list_finish_fields _).2.1] at hev
    refine get_dc_list_fill_invariant env cfg domain lookup_type n auto_ip_list
      (fun s => ∀ name entry, DcEvent.named_copied name entry ∈ s.trace →
        NT_STATUS_IS_OK (cfg.check_negative_conn_cache domain entry.ss) = true)
      (fun a b hs ha => DcFillStep_named_checked cfg domain a b hs ha)
      (cfg.next_tokens (get_dc_list_pserver cfg gencache domain)) st ?_ name entry hev
    intro name2 entry2 h2
    obtain ⟨status, iplist, _, he⟩ := hst _ h2
    cases he

theorem get_dc_list_all_star (env : Env) (cfg : Config) (gencache : GenCache)
    (cache : NameCache) (domain : String) (sitename : Option String)
    (lookup_type : dc_lookup_type)
    (hall : ∀ t ∈ cfg.next_tokens (get_dc_list_pserver cfg gencache domain),
      strequal t "*" = true) :
    (get_dc_list env cfg gencache cache domain sitename lookup_type).ordered
      = (get_dc_list_policy lookup_type cfg.name_resolve_order).ordered := by
  rcases get_dc_list_shape env cfg gencache cache domain sitename lookup_type with
    ⟨h, _, _⟩ | ⟨n, auto_ip_list, st, _, _, hord, _, heq⟩
  · exact h
  · rw [heq, (get_dc_list_finish_fields _).1,
      get_dc_list_fill_all_star env cfg domain lookup_type n auto_ip_list _ st hall, hord]

/-- What the code does: for `get_dc_list` with `DC_NORMAL_LOOKUP`, the flag
`ordered` is returned true exactly when the address of some token other than
`*` was copied into the result, which happens only for a token that
`resolve_name` resolved to an address for which the negative-connection
cache check reports success; in particular the flag is false when every
token is `*`. -/
theorem get_dc_list_ordered_iff_named_copied (env : Env) (cfg : Config) (gencache : GenCache)
    (cache : NameCache) (domain : String) (sitename : Option String) :
    ((get_dc_list env cfg gencache cache domain sitename DC_NORMAL_LOOKUP).ordered = true
      ↔ ∃ name entry, DcEvent.named_copied name entry
          ∈ (get_dc_list env cfg gencache cache domain sitename DC_NORMAL_LOOKUP).trace)
    ∧ (∀ name entry, DcEvent.named_copied name entry
          ∈ (get_dc_list env cfg gencache cache domain sitename DC_NORMAL_LOOKUP).trace →
        NT_STATUS_IS_OK (cfg.check_negative_conn_cache domain entry.ss) = true)
    ∧ ((∀ t ∈ cfg.next_tokens (get_dc_list_pserver cfg gencache domain),
          strequal t "*" = true) →
        (get_dc_list env cfg gencache cache domain sitename DC_NORMAL_LOOKUP).ordered
          = false) := by
  refine ⟨?_, ?_, ?_⟩
  · rw [get_dc_list_ordered_iff env cfg gencache cache domain sitename DC_NORMAL_LOOKUP rfl]
    constructor
    · rintro ⟨ev, hev, hn⟩
      cases ev with
      | named_copied name entry => exact ⟨name, entry, hev⟩
      | lookup _ _ _ _ => cases hn
      | auto_copied _ => cases hn
      | auto_negative _ => cases hn
      | named_negative _ _ => cases hn
      | named_unresolved _ => cases hn
    · rintro ⟨name, entry, hev⟩
      exact ⟨_, hev, rfl⟩
  · intro name entry hev
    exact get_dc_list_named_checked env cfg gencache cache domain sitename DC_NORMAL_LOOKUP
      name entry hev
  · intro hall
    rw [get_dc_list_all_star env cfg gencache cache domain sitename DC_NORMAL_LOOKUP hall]
    rfl

/-! ## The reply validator -/

theorem sockaddr_equal_iff (a b : sockaddr_storage) : sockaddr_equal a b = true ↔ a = b := by
  rcases a with ⟨f1, a1⟩
  rcases b with ⟨f2, a2⟩
  simp [sockaddr_equal]

theorem name_query_have_addr_iff (addr : sockaddr_storage) :
    ∀ (addrs : List sockaddr_storage), name_query_have_addr addr addrs = true ↔ addr ∈ addrs := by
  intro addrs
  induction addrs with
  | nil => simp [name_query_have_addr]
  | cons a rest ih =>
    rw [name_query_have_addr]
    by_cases h : sockaddr_equal addr a = true
    · rw [if_pos h]
      simp [(sockaddr_equal_iff addr a).mp h]
    · rw [if_neg h, ih]
      have hne : addr ≠ a := fun he => h ((sockaddr_equal_iff addr a).mpr he)
      simp [hne]

/-- The record loop only appends, keeps the accumulator free of zero and of
repeated addresses, takes in every non-zero address of the records, and sets
`got_unique_netbios_name` exactly when a record has the group bit clear. -/
theorem name_query_records_spec (rdata : Nat → Nat) :
    ∀ (n i : Nat) (addrs : List sockaddr_storage) (got : Bool),
      addrs <+: (name_query_records rdata n i (addrs, got)).1
      ∧ ((∀ a ∈ addrs, is_zero_addr a = false) →
          ∀ a ∈ (name_query_records rdata n i (addrs, got)).1, is_zero_addr a = false)
      ∧ (addrs.Nodup → (name_query_records rdata n i (addrs, got)).1.Nodup)
      ∧ (∀ k, i ≤ k → k < i + n → is_zero_addr (putip rdata (2 + k * 6)) = false →
          putip rdata (2 + k * 6) ∈ (name_query_records rdata n i (addrs, got)).1)
      ∧ ((name_query_records rdata n i (addrs, got)).2 = true
          ↔ got = true ∨ ∃ k, i ≤ k ∧ k < i + n ∧ RSVAL rdata (k * 6) &&& 0x8000 = 0) := by
  intro n
  induction n with
  | zero =>
    intro i addrs got
    refine ⟨List.prefix_refl _, fun h => h, fun h => h, ?_, ?_⟩
    · intro k h1 h2
      omega
    · simp only [name_query_records]
      constructor
      · exact Or.inl
      · rintro (h | ⟨k, h1, h2, _⟩)
        · exact h
        · omega
  | succ n ih =>
    intro i addrs got
    have hgot : ∀ (l : List sockaddr_storage),
        ((name_query_records rdata n (i + 1)
            (l, got || (RSVAL rdata (i * 6) &&& 0x8000 == 0))).2 = true
          ↔ got = true ∨ ∃ k, i ≤ k ∧ k < i + (n + 1) ∧ RSVAL rdata (k * 6) &&& 0x8000 = 0) := by
      intro l
      rw [(ih (i + 1) l _).2.2.2.2]
      constructor
      · rintro (h | ⟨k, h1, h2, h3⟩)
        · rcases Bool.or_eq_true_iff.mp h with h4 | h4
          · exact Or.inl h4
          · exact Or.inr ⟨i, Nat.le_refl _, by omega, by simpa using h4⟩
        · exact Or.inr ⟨k, by omega, by omega, h3⟩
      · rintro (h | ⟨k, h1, h2, h3⟩)
        · left
          simp [h]
        · by_cases hk : k = i
          · subst hk
            left
            simp [h3]
          · exact Or.inr ⟨k, by omega, by omega, h3⟩
    have hlater : ∀ (l : List sockaddr_storage) (g : Bool),
        (∀ k, i + 1 ≤ k → k < i + (n + 1) → is_zero_addr (putip rdata (2 + k * 6)) = false →
          putip rdata (2 + k * 6) ∈ (name_query_records rdata n (i + 1) (l, g)).1) := by
      intro l g k h1 h2 h3
      exact (ih (i + 1) l g).2.2.2.1 k h1 (by omega) h3
    rw [name_query_records]
    by_cases hz : is_zero_addr (putip rdata (2 + i * 6)) = true
    · rw [if_pos hz]
      obtain ⟨h1, h2, h3, _, _⟩ := ih (i + 1) addrs (got || (RSVAL rdata (i * 6) &&& 0x8000 == 0))
      refine ⟨h1, h2, h3, ?_, hgot addrs⟩
      intro k hk1 hk2 hk3
      by_cases hk : k = i
      · subst hk
        rw [hz] at hk3
        cases hk3
      · exact hlater addrs _ k (by omega) hk2 hk3
    · rw [if_neg hz]
      by_cases hd : name_query_have_addr (putip rdata (2 + i * 6)) addrs = true
      · rw [if_pos hd]
        obtain ⟨h1, h2, h3, _, _⟩ :=
          ih (i + 1) addrs (got || (RSVAL rdata (i * 6) &&& 0x8000 == 0))
        refine ⟨h1, h2, h3, ?_, hgot addrs⟩
        intro k hk1 hk2 hk3
        by_cases hk : k = i
        · subst hk
          exact h1.subset ((name_query_have_addr_iff _ addrs).mp hd)
        · exact hlater addrs _ k (by omega) hk2 hk3
      · rw [if_neg hd]
        obtain ⟨h1, h2, h3, _, _⟩ :=
          ih (i + 1) (addrs ++ [putip rdata (2 + i * 6)])
            (got || (RSVAL rdata (i * 6) &&& 0x8000 == 0))
        have hnotin : putip rdata (2 + i * 6) ∉ addrs :=
          fun hm => hd ((name_query_have_addr_iff _ addrs).mpr hm)
        refine ⟨(List.prefix_append addrs _).trans h1, ?_, ?_, ?_, hgot _⟩
        · intro hall
          apply h2
          intro a ha
          rcases List.mem_append.mp ha with h4 | h4
          · exact hall a h4
          · rw [List.mem_singleton.mp h4]
            exact Bool.eq_false_iff.mpr hz
        · intro hnd
          apply h3
          rw [List.nodup_append]
          refine ⟨hnd, List.nodup_singleton _, ?_⟩
          intro a ha hb
          rw [List.mem_singleton.mp hb] at ha
          exact hnotin ha
        · intro k hk1 hk2 hk3
          by_cases hk : k = i
          · subst hk
            exact h1.subset (List.mem_append_right _ (List.mem_singleton_self _))
          · exact hlater _ _ k (by omega) hk2 hk3

theorem name_query_validator_positive (s : name_query_state) (p : nmb_packet)
    (hop : p.header.opcode = 0) (hb : p.header.nm_flags.bcast = false)
    (hrc : p.header.rcode = 0) (han : p.header.ancount ≠ 0) :
    (name_query_validator s p).1
        = (if s.bcast then
            (name_query_records p.answers.rdata (p.answers.rdlength / 6) 0 (s.addrs, false)).2
           else true)
    ∧ (name_query_validator s p).2.addrs
        = (name_query_records p.answers.rdata (p.answers.rdlength / 6) 0 (s.addrs, false)).1
    ∧ (name_query_validator s p).2.bcast = s.bcast
    ∧ (name_query_validator s p).2.validate_error = s.validate_error := by
  have h1 : ¬ (p.header.opcode = 0 ∧ s.bcast = false ∧ p.header.rcode ≠ 0) :=
    fun h => h.2.2 hrc
  have h2 : ¬ (p.header.opcode ≠ 0 ∨ p.header.nm_flags.bcast = true ∨ p.header.rcode ≠ 0
      ∨ p.header.ancount = 0) := by
    rintro (h | h | h | h)
    · exact h hop
    · rw [hb] at h
      cases h
    · exact h hrc
    · exact han h
  unfold name_query_validator
  rw [if_neg h1, if_neg h2]
  dsimp only
  cases s.bcast <;> exact ⟨rfl, rfl, rfl, rfl⟩

theorem name_query_validator_rejected (s : name_query_state) (p : nmb_packet)
    (hrej : p.header.opcode ≠ 0 ∨ p.header.nm_flags.bcast = true ∨ p.header.rcode ≠ 0
      ∨ p.header.ancount = 0) :
    (name_query_validator s p).2.addrs = s.addrs
    ∧ (name_query_validator s p).2.flags = s.flags
    ∧ (name_query_validator s p).2.bcast = s.bcast := by
  unfold name_query_validator
  by_cases h1 : p.header.opcode = 0 ∧ s.bcast = false ∧ p.header.rcode ≠ 0
  · rw [if_pos h1]
    exact ⟨rfl, rfl, rfl⟩
  · rw [if_neg h1, if_pos hrej]
    exact ⟨rfl, rfl, rfl⟩

theorem name_query_validator_cases (p : nmb_packet) :
    (p.header.opcode ≠ 0 ∨ p.header.nm_flags.bcast = true ∨ p.header.rcode ≠ 0
      ∨ p.header.ancount = 0)
    ∨ (p.header.opcode = 0 ∧ p.header.nm_flags.bcast = false ∧ p.header.rcode = 0
      ∧ p.header.ancount ≠ 0) := by
  by_cases h1 : p.header.opcode = 0
  · by_cases h2 : p.header.nm_flags.bcast = true
    · exact Or.inl (Or.inr (Or.inl h2))
    · by_cases h3 : p.header.rcode = 0
      · by_cases h4 : p.header.ancount = 0
        · exact Or.inl (Or.inr (Or.inr (Or.inr h4)))
        · exact Or.inr ⟨h1, Bool.eq_false_iff.mpr h2, h3, h4⟩
      · exact Or.inl (Or.inr (Or.inr (Or.inl h3)))
  · exact Or.inl (Or.inl h1)

theorem name_query_validator_good (s : name_query_state) (p : nmb_packet) :
    s.addrs <+: (name_query_validator s p).2.addrs
    ∧ ((∀ a ∈ s.addrs, is_zero_addr a = false) →
        ∀ a ∈ (name_query_validator s p).2.addrs, is_zero_addr a = false)
    ∧ (s.addrs.Nodup → (name_query_validator s p).2.addrs.Nodup) := by
  rcases name_query_validator_cases p with hrej | ⟨hop, hb, hrc, han⟩
  · rw [(name_query_validator_rejected s p hrej).1]
    exact ⟨List.prefix_refl _, fun h => h, fun h => h⟩
  · rw [(name_query_validator_positive s p hop hb hrc han).2.1]
    obtain ⟨h1, h2, h3, _, _⟩ :=
      name_query_records_spec p.answers.rdata (p.answers.rdlength / 6) 0 s.addrs false
    exact ⟨h1, h2, h3⟩

theorem name_query_validate_all_good (replies : List nmb_packet) :
    ∀ (s : name_query_state), (∀ a ∈ s.addrs, is_zero_addr a = false) → s.addrs.Nodup →
      (∀ a ∈ (name_query_validate_all s replies).addrs, is_zero_addr a = false)
      ∧ (name_query_validate_all s replies).addrs.Nodup
      ∧ s.addrs <+: (name_query_validate_all s replies).addrs := by
  induction replies with
  | nil => intro s h1 h2; exact ⟨h1, h2, List.prefix_refl _⟩
  | cons p rest ih =>
    intro s h1 h2
    obtain ⟨g1, g2, g3⟩ := name_query_validator_good s p
    obtain ⟨i1, i2, i3⟩ := ih (name_query_validator s p).2 (g2 h1) (g3 h2)
    exact ⟨i1, i2, g1.trans i3⟩

theorem name_query_negative_reply (qsort : QsortAddr) (ifs : Interfaces)
    (st : name_query_state) (nmb : nmb_packet) (want_flags : Bool)
    (hb : st.bcast = false) (hop : nmb.header.opcode = 0) (hrc : nmb.header.rcode ≠ 0) :
    name_query_recv qsort ifs (name_query_done (name_query_validator st nmb).2 NT_STATUS_OK)
        (name_query_validator st nmb).2 want_flags
      = (NT_STATUS_NOT_FOUND, none) := by
  have hv : name_query_validator st nmb
      = (true, { st with validate_error := NT_STATUS_NOT_FOUND }) := by
    unfold name_query_validator
    rw [if_pos ⟨hop, hb, hrc⟩]
  have hd : name_query_done (name_query_validator st nmb).2 NT_STATUS_OK
      = .user_error NT_STATUS_NOT_FOUND := by
    rw [hv]
    rfl
  rw [hd, hv]
  simp only [name_query_recv, tevent_req_is_nterror, hb]
  rfl

theorem query_wins_list_done_error (qsort : QsortAddr) (ifs : Interfaces)
    (interpreted : Option sockaddr_storage) (s : query_wins_list_state)
    (sub_req : tevent_req_state) (sub_state : name_query_state) (status : NTSTATUS)
    (hst : status ≠ NT_STATUS_OK) (hnt : status ≠ NT_STATUS_IO_TIMEOUT)
    (hr : name_query_recv qsort ifs sub_req sub_state true = (status, none)) :
    query_wins_list_done qsort ifs interpreted s sub_req sub_state
      = { s with req := .user_error status } := by
  have hok : NT_STATUS_IS_OK status = false := by
    apply Bool.eq_false_iff.mpr
    intro hc
    exact hst ((is_ok_iff _).mp hc)
  have hbeq : (status == NT_STATUS_IO_TIMEOUT) = false := by
    apply Bool.eq_false_iff.mpr
    intro hc
    exact hnt (beq_iff_eq.mp hc)
  simp only [query_wins_list_done, hr, hok, hbeq, Bool.false_eq_true, if_false, Bool.not_false,
    if_true, tevent_req_nterror, Option.getD_some]

/-! ## The result of `remove_duplicate_addrs2` in other words -/

theorem without_later_duplicates_filter (q : ip_service → Bool) :
    ∀ (l : List ip_service),
      (without_later_duplicates l).filter q = without_later_duplicates (l.filter q) := by
  intro l
  induction l with
  | nil => rfl
  | cons y ys ih =>
    by_cases hq : q y = true
    · rw [List.filter_cons_of_pos hq, without_later_duplicates, without_later_duplicates,
        List.filter_cons_of_pos hq, ← ih, List.filter_filter, List.filter_filter]
      congr 1
      apply List.filter_congr
      intro z _
      exact Bool.and_comm _ _
    · rw [List.filter_cons_of_neg hq, without_later_duplicates,
        List.filter_cons_of_neg hq, ← ih, List.filter_filter]
      apply List.filter_congr
      intro z _
      by_cases hz : z = y
      · subst hz
        simp [Bool.eq_false_iff.mpr hq]
      · simp [hz]

theorem without_later_duplicates_mem :
    ∀ (l : List ip_service) (x : ip_service), x ∈ without_later_duplicates l ↔ x ∈ l := by
  intro l
  induction l with
  | nil => intro x; simp [without_later_duplicates]
  | cons y ys ih =>
    intro x
    rw [without_later_duplicates, List.mem_cons, List.mem_filter, ih, List.mem_cons]
    by_cases hx : x = y
    · simp [hx]
    · simp [hx]

theorem without_later_duplicates_nodup :
    ∀ (l : List ip_service), (without_later_duplicates l).Nodup := by
  intro l
  induction l with
  | nil => exact List.nodup_nil
  | cons y ys ih =>
    rw [without_later_duplicates, List.nodup_cons]
    refine ⟨?_, ih.filter _⟩
    intro hm
    have := (List.mem_filter.mp hm).2
    simp at this

theorem without_later_duplicates_length (l : List ip_service) :
    (without_later_duplicates l).length = l.toFinset.card := by
  rw [← List.toFinset_card_of_nodup (without_later_duplicates_nodup l)]
  congr 1
  ext x
  simp [without_later_duplicates_mem]

theorem first_occurrences_eq :
    ∀ (L K : List ip_service),
      first_occurrences K L
        = without_later_duplicates
            (L.filter (fun x => !is_zero_addr x.ss && !decide (x ∈ K))) := by
  intro L
  induction L with
  | nil => intro K; rfl
  | cons x xs ih =>
    intro K
    have hany : K.any (fun y => sockaddr_equal y.ss x.ss && y.port == x.port) = decide (x ∈ K) := by
      rw [Bool.eq_iff_iff, List.any_eq_true, decide_eq_true_iff]
      constructor
      · rintro ⟨y, hy, hs⟩
        rw [← (same_iff_eq y x).mp hs]
        exact hy
      · intro hx
        exact ⟨x, hx, (same_iff_eq x x).mpr rfl⟩
    have hfn : ∀ (P : ip_service → Bool), P x = false → (x :: xs).filter P = xs.filter P :=
      fun P h => by simp [List.filter_cons, h]
    have hfp : ∀ (P : ip_service → Bool), P x = true →
        (x :: xs).filter P = x :: xs.filter P :=
      fun P h => by simp [List.filter_cons, h]
    rw [first_occurrences, hany]
    by_cases hc : (is_zero_addr x.ss || decide (x ∈ K)) = true
    · rw [if_pos hc, ih K]
      have hp : (!is_zero_addr x.ss && !decide (x ∈ K)) = false := by
        rcases Bool.or_eq_true_iff.mp hc with h | h <;> simp [h]
      rw [hfn (fun y => !is_zero_addr y.ss && !decide (y ∈ K)) hp]
    · rw [if_neg hc, ih (x :: K)]
      have hp : (!is_zero_addr x.ss && !decide (x ∈ K)) = true := by
        have h1 : is_zero_addr x.ss = false := by
          cases h : is_zero_addr x.ss
          · rfl
          · exact (hc (by simp [h])).elim
        have h2 : decide (x ∈ K) = false := by
          cases h : decide (x ∈ K)
          · rfl
          · exact (hc (by simp [h])).elim
        simp [h1, h2]
      rw [hfp (fun y => !is_zero_addr y.ss && !decide (y ∈ K)) hp, without_later_duplicates,
        without_later_duplicates_filter, List.filter_filter]
      congr 2
      apply List.filter_congr
      intro z _
      by_cases hz : z = x
      · simp [hz]
      · simp [hz]

/-! ## The target indices read by the query fan-out -/

theorem name_queries_step_started (qsort : QsortAddr) (ifs : Interfaces)
    (s : name_queries_state) (ev : name_queries_event) (hinv : name_queries_inv s)
    (hs : ∀ k ∈ s.started, k < s.num_sent) :
    ∀ k ∈ (name_queries_step qsort ifs s ev).started,
      k < (name_queries_step qsort ifs s ev).num_sent := by
  cases ev with
  | wakeup ok =>
    simp only [name_queries_step]
    split
    · cases ok with
      | false =>
        simp only [name_queries_next, Bool.not_false, if_true]
        exact hs
      | true =>
        simp only [name_queries_next, Bool.not_true, Bool.false_eq_true, if_false]
        intro k hk
        rcases List.mem_append.mp hk with h1 | h1
        · exact Nat.lt_succ_of_lt (hs k h1)
        · rw [List.mem_singleton.mp h1]
          exact Nat.lt_succ_self _
    · exact hs
  | completed subreq sub_req sub_state =>
    simp only [name_queries_step]
    split
    · rename_i hc
      rcases name_query_recv_cases qsort ifs sub_req sub_state true with hr | ⟨status, hst, hr⟩
      · rw [name_queries_done_ok qsort ifs s subreq sub_req sub_state _ hinv hc.2 hr]
        exact hs
      · rw [name_queries_done_fail qsort ifs s subreq sub_req sub_state status hinv hc.2 hst hr]
        exact hs
    · exact hs

/-- In a fan-out over `n ≥ 1` targets every index of the target array that
was read is smaller than `n`, and no access outside the arrays happened. -/
theorem name_queries_reached_started (qsort : QsortAddr) (ifs : Interfaces) (n : Nat)
    (evs : List name_queries_event) (hn : 1 ≤ n) :
    (∀ k ∈ (name_queries_reached qsort ifs n evs).started, k < n)
    ∧ (name_queries_reached qsort ifs n evs).oob = false := by
  have hgen : ∀ (evs : List name_queries_event) (s : name_queries_state),
      name_queries_inv s → (∀ k ∈ s.started, k < s.num_sent) →
      ∀ k ∈ (name_queries_run qsort ifs s evs).started,
        k < (name_queries_run qsort ifs s evs).num_sent := by
    intro evs
    induction evs with
    | nil => intro s _ hs; exact hs
    | cons ev rest ih =>
      intro s hinv hs
      exact ih _ (name_queries_inv_step qsort ifs s ev hinv)
        (name_queries_step_started qsort ifs s ev hinv hs)
  obtain ⟨hinv, hnum⟩ := name_queries_reached_inv qsort ifs n evs hn
  have hstart : ∀ k ∈ (name_queries_send n).started, k < (name_queries_send n).num_sent := by
    intro k hk
    have hk0 : k = 0 := by simpa [name_queries_send] using hk
    rw [hk0]
    exact Nat.zero_lt_one
  refine ⟨?_, hinv.2.2.2.2.2⟩
  intro k hk
  have h1 := hgen evs (name_queries_send n) (name_queries_inv_send n hn) hstart k hk
  have h2 : (name_queries_reached qsort ifs n evs).num_sent
      ≤ (name_queries_reached qsort ifs n evs).num_addrs := hinv.2.1
  have h3 : k < (name_queries_reached qsort ifs n evs).num_sent := h1
  omega

/-! ## Claims -/

/-- C1: for every list `L`, `remove_duplicate_addrs2` returns a count `c`
(at most the input count, the array keeps its length) such that in the first
`c` slots no two entries have both equal address and equal port, the surviving
entries keep their relative order of `L`, and they are exactly the first
occurrences of `L`. -/
theorem C1_remove_duplicate_addrs2_dedup (L : List ip_service) :
    ∃ out c, remove_duplicate_addrs2 L L.length = some (out, c)
      ∧ c ≤ L.length ∧ out.length = L.length
      ∧ (out.take c).Pairwise
          (fun a b => ¬ (sockaddr_equal a.ss b.ss = true ∧ a.port = b.port))
      ∧ (out.take c).Sublist L
      ∧ out.take c = first_occurrences [] L := by
  obtain ⟨out, h1, h2, h3⟩ := remove_duplicate_addrs2_spec L
  refine ⟨out, _, h1, ?_, h2, ?_, ?_, h3⟩
  · exact (first_occurrences_sublist L []).length_le
  · rw [h3]; exact first_occurrences_pairwise L []
  · rw [h3]; exact first_occurrences_sublist L []

/-- C2 fails as stated: a `kdc` success for a name type other than 0xDCDC is
cached under `(name, 0xDCDC)` only, and a success with an empty list is not
cached at all; in both cases the immediately following call with the same
arguments misses the cache and calls the back end again. -/
theorem C2_counterexample :
    ((internal_resolve_name example_env [] "REALM" 0x1c none (some ["kdc"])).outcome
        = .ret NT_STATUS_OK [⟨⟨AF_INET, 0x0A000007⟩, 88⟩]
      ∧ Event.backend .kdc KDC_NAME_TYPE NT_STATUS_OK ∈
          (internal_resolve_name example_env
            (internal_resolve_name example_env [] "REALM" 0x1c none (some ["kdc"])).cache
            "REALM" 0x1c none (some ["kdc"])).trace)
    ∧ ((internal_resolve_name example_env [] "EMPTY" 0x1c none (some ["ads"])).outcome
        = .ret NT_STATUS_OK []
      ∧ Event.backend .ads 0x1c NT_STATUS_OK ∈
          (internal_resolve_name example_env
            (internal_resolve_name example_env [] "EMPTY" 0x1c none (some ["ads"])).cache
            "EMPTY" 0x1c none (some ["ads"])).trace) := by
  decide

/-- C2, amended: after `internal_resolve_name(name, type, M)` has returned
success with a non-empty list that was not obtained through the `kdc` method
for a type other than 0xDCDC, an immediately following call with the same
arguments returns the same list in the same order, calls no back end (its only
possible event is the cache read) and leaves the cache as it is. -/
theorem C2_re_resolution_hits_cache (env : Env) (cache : NameCache) (name : String)
    (name_type : Nat) (sitename : Option String) (resolve_order : Option (List String))
    (l : List ip_service)
    (hok : (internal_resolve_name env cache name name_type sitename resolve_order).outcome
      = .ret NT_STATUS_OK l)
    (hne : l ≠ [])
    (hkdc : Event.backend .kdc KDC_NAME_TYPE NT_STATUS_OK ∉
        (internal_resolve_name env cache name name_type sitename resolve_order).trace
      ∨ name_type = KDC_NAME_TYPE) :
    (internal_resolve_name env
        (internal_resolve_name env cache name name_type sitename resolve_order).cache
        name name_type sitename resolve_order).outcome = .ret NT_STATUS_OK l
    ∧ (∀ e ∈ (internal_resolve_name env
        (internal_resolve_name env cache name name_type sitename resolve_order).cache
        name name_type sitename resolve_order).trace, e = Event.fetch name name_type)
    ∧ (internal_resolve_name env
        (internal_resolve_name env cache name name_type sitename resolve_order).cache
        name name_type sitename resolve_order).cache
      = (internal_resolve_name env cache name name_type sitename resolve_order).cache := by
  by_cases hlit : env.is_ipaddress name = true
  · obtain ⟨hc, ht⟩ := internal_resolve_name_literal env cache name name_type sitename
      resolve_order hlit
    rw [hc]
    exact ⟨hok, by rw [ht]; simp, hc⟩
  · have hlit' : env.is_ipaddress name = false := by simpa using hlit
    cases hfetch : namecache_fetch cache name name_type with
    | some l0 =>
      have h1 := internal_resolve_name_hit env cache name name_type sitename resolve_order l0
        hlit' hfetch
      have hc : (internal_resolve_name env cache name name_type sitename resolve_order).cache
          = cache := by rw [h1]
      rw [hc]
      refine ⟨hok, ?_, hc⟩
      rw [h1]; simp
    | none =>
      have h1 := internal_resolve_name_miss env cache name name_type sitename resolve_order
        hlit' hfetch
      cases hplan : effective_order name resolve_order with
      | fault => rw [h1, hplan] at hok; cases hok
      | disabled =>
        rw [h1, hplan] at hok
        simp only [Outcome.ret.injEq] at hok
        exact absurd hok.1 (by decide)
      | iterate methods =>
        rw [hplan] at h1
        simp only at h1
        rcases run_methods_cases env cache name name_type sitename methods
          [.fetch name name_type] with ⟨fe, _, hrun⟩ | ⟨fe, m, t, _, _, _, hout⟩ |
          ⟨fe, m, t, nt, l0, _, hnt, hrun⟩
        · rw [h1, hrun] at hok
          simp only [Outcome.ret.injEq] at hok
          exact absurd hok.1 (by decide)
        · rw [← h1] at hout
          rcases hout with hout | hout
          · rw [hout] at hok; cases hok
          · rw [hout] at hok
            simp only [Outcome.ret.injEq] at hok
            exact absurd hok.1 (by decide)
        · rw [← h1] at hrun
          by_cases hfo : first_occurrences [] l0 = []
          · rw [hrun] at hok
            simp only [hfo, ne_eq, not_true_eq_false, if_false, Outcome.ret.injEq, true_and] at hok
            exact absurd hok.symm hne
          · have hrun' := hrun
            simp only [ne_eq, hfo, not_false_eq_true, if_true] at hrun'
            have hl : first_occurrences [] l0 = l := by
              rw [hrun'] at hok
              simpa using hok
            have hntt : nt = name_type := by
              rcases hnt with ⟨rfl, rfl, rfl⟩ | ⟨_, h⟩
              · rcases hkdc with hk | hk
                · exfalso
                  apply hk
                  rw [hrun']
                  simp
                · exact hk.symm
              · exact h
            have hc : (internal_resolve_name env cache name name_type sitename resolve_order).cache
                = ((name, name_type), l) :: cache := by
              rw [hrun', hntt, hl]
            have hhit : namecache_fetch (((name, name_type), l) :: cache) name name_type
                = some l := by
              rw [namecache_fetch_store]; simp
            have h2 := internal_resolve_name_hit env (((name, name_type), l) :: cache) name
              name_type sitename resolve_order l hlit' hhit
            have hidem : first_occurrences [] l = l := by
              rw [← hl]; exact first_occurrences_idem l0
            rw [hc, h2, hidem]
            simp [hne]

/-- Witness for `C2_re_resolution_hits_cache`: resolving `srv` through `host`
after `wins` has failed. -/
theorem C2_re_resolution_hits_cache_witness :
    ((internal_resolve_name example_env [] "srv" 0x20 none (some ["wins", "host"])).outcome
        = .ret NT_STATUS_OK [⟨⟨AF_INET, 0x0A000001⟩, PORT_NONE⟩]
      ∧ [(⟨⟨AF_INET, 0x0A000001⟩, PORT_NONE⟩ : ip_service)] ≠ []
      ∧ (Event.backend .kdc KDC_NAME_TYPE NT_STATUS_OK ∉
          (internal_resolve_name example_env [] "srv" 0x20 none (some ["wins", "host"])).trace
        ∨ 0x20 = KDC_NAME_TYPE))
    ∧ ((internal_resolve_name example_env
        (internal_resolve_name example_env [] "srv" 0x20 none (some ["wins", "host"])).cache
        "srv" 0x20 none (some ["wins", "host"])).outcome
      = .ret NT_STATUS_OK [⟨⟨AF_INET, 0x0A000001⟩, PORT_NONE⟩]
    ∧ (∀ e ∈ (internal_resolve_name example_env
        (internal_resolve_name example_env [] "srv" 0x20 none (some ["wins", "host"])).cache
        "srv" 0x20 none (some ["wins", "host"])).trace, e = Event.fetch "srv" 0x20)
    ∧ (internal_resolve_name example_env
        (internal_resolve_name example_env [] "srv" 0x20 none (some ["wins", "host"])).cache
        "srv" 0x20 none (some ["wins", "host"])).cache
      = (internal_resolve_name example_env [] "srv" 0x20 none (some ["wins", "host"])).cache) :=
  ⟨⟨by decide, by decide, Or.inl (by decide)⟩,
    C2_re_resolution_hits_cache example_env [] "srv" 0x20 none (some ["wins", "host"])
      [⟨⟨AF_INET, 0x0A000001⟩, PORT_NONE⟩] (by decide) (by decide) (Or.inl (by decide))⟩

/-- C4 fails as stated: the only back end tried, `host` for a 0x1C name,
returns `NT_STATUS_INVALID_PARAMETER`, and the call returns
`NT_STATUS_UNSUCCESSFUL`. -/
theorem C4_counterexample :
    (internal_resolve_name example_env [] "srv" 0x1c none (some ["host"])).trace
        = [.fetch "srv" 0x1c, .backend .host 0x1c NT_STATUS_INVALID_PARAMETER]
    ∧ (internal_resolve_name example_env [] "srv" 0x1c none (some ["host"])).outcome
        = .ret NT_STATUS_UNSUCCESSFUL []
    ∧ NT_STATUS_UNSUCCESSFUL ≠ NT_STATUS_INVALID_PARAMETER := by
  decide

/-- C4, amended: on a cache miss, when the method loop is reached and no back
end call of the run reports success, `internal_resolve_name` returns
`NT_STATUS_UNSUCCESSFUL` with an empty list, whatever the statuses of the back
ends were, and leaves the cache unchanged. -/
theorem C4_all_methods_fail (env : Env) (cache : NameCache) (name : String)
    (name_type : Nat) (sitename : Option String) (resolve_order : Option (List String))
    (methods : List String)
    (hlit : env.is_ipaddress name = false)
    (hmiss : namecache_fetch cache name name_type = none)
    (hplan : effective_order name resolve_order = .iterate methods)
    (hfail : ∀ m t, Event.backend m t NT_STATUS_OK ∉
      (internal_resolve_name env cache name name_type sitename resolve_order).trace) :
    (internal_resolve_name env cache name name_type sitename resolve_order).outcome
        = .ret NT_STATUS_UNSUCCESSFUL []
    ∧ (internal_resolve_name env cache name name_type sitename resolve_order).cache = cache := by
  have h1 := internal_resolve_name_miss env cache name name_type sitename resolve_order
    hlit hmiss
  rw [hplan] at h1
  simp only at h1
  rcases run_methods_cases env cache name name_type sitename methods
    [.fetch name name_type] with ⟨fe, _, hrun⟩ | ⟨fe, m, t, _, _, htr, _⟩ |
    ⟨fe, m, t, nt, l0, _, hnt, hrun⟩
  · rw [h1, hrun]
    exact ⟨rfl, rfl⟩
  · exfalso
    apply hfail m t
    rw [h1, htr]
    simp
  · exfalso
    apply hfail m t
    rw [h1, hrun]
    by_cases hfo : first_occurrences [] l0 = [] <;> simp [hfo]

/-- Witness for `C4_all_methods_fail`: `wins` and `host` both fail for
`nosuch`, with different statuses for a 0x1C name. -/
theorem C4_all_methods_fail_witness :
    (example_env.is_ipaddress "nosuch" = false
      ∧ namecache_fetch [] "nosuch" 0x1c = none
      ∧ effective_order "nosuch" (some ["host", "wins"]) = .iterate ["host", "wins"]
      ∧ ∀ m t, Event.backend m t NT_STATUS_OK ∉
          (internal_resolve_name example_env [] "nosuch" 0x1c none
            (some ["host", "wins"])).trace)
    ∧ ((internal_resolve_name example_env [] "nosuch" 0x1c none
          (some ["host", "wins"])).outcome = .ret NT_STATUS_UNSUCCESSFUL []
      ∧ (internal_resolve_name example_env [] "nosuch" 0x1c none
          (some ["host", "wins"])).cache = []) :=
  have htr : (internal_resolve_name example_env [] "nosuch" 0x1c none
      (some ["host", "wins"])).trace
      = [.fetch "nosuch" 0x1c, .backend .host 0x1c NT_STATUS_INVALID_PARAMETER,
         .backend .wins 0x1c NT_STATUS_UNSUCCESSFUL] := by decide
  have hno : ∀ m t, Event.backend m t NT_STATUS_OK ∉
      (internal_resolve_name example_env [] "nosuch" 0x1c none
        (some ["host", "wins"])).trace := by
    intro m t h
    rw [htr] at h
    simp [NT_STATUS_OK, NT_STATUS_INVALID_PARAMETER, NT_STATUS_UNSUCCESSFUL] at h
  ⟨⟨by decide, by decide, by decide, hno⟩,
    C4_all_methods_fail example_env [] "nosuch" 0x1c none (some ["host", "wins"])
      ["host", "wins"] (by decide) (by decide) (by decide) hno⟩

/-- C5: for a name that is a literal IP address, whatever the resolve order
(`["NULL"]` included) and the cache, `internal_resolve_name` reads neither the
name cache nor any back end (its trace is empty, the cache is unchanged); it
returns success with the single entry `(address, PORT_NONE)` when the parsed
address is not zero, and fails with an empty result when it is zero. -/
theorem C5_literal_address (env : Env) (cache : NameCache) (name : String)
    (name_type : Nat) (sitename : Option String) (resolve_order : Option (List String))
    (a : sockaddr_storage)
    (hlit : env.is_ipaddress name = true)
    (hparse : env.interpret_string_addr name = some a) :
    internal_resolve_name env cache name name_type sitename resolve_order
      = { outcome := if is_zero_addr a then .ret NT_STATUS_UNSUCCESSFUL []
                     else .ret NT_STATUS_OK [{ ss := a, port := PORT_NONE }],
          cache := cache, trace := [] } := by
  unfold internal_resolve_name
  rw [if_pos hlit, hparse]
  by_cases hz : is_zero_addr a = true <;> simp [hz]

/-- Witness for `C5_literal_address`: `10.0.0.5` with the order `["NULL"]` and
a cache that holds an entry for it, and the zero address `0.0.0.0`. -/
theorem C5_literal_address_witness :
    (example_env.is_ipaddress "10.0.0.5" = true
      ∧ example_env.interpret_string_addr "10.0.0.5" = some ⟨AF_INET, 0x0A000005⟩)
    ∧ internal_resolve_name example_env [(("10.0.0.5", 0x20), [])] "10.0.0.5" 0x20 none
        (some ["NULL"])
      = { outcome := .ret NT_STATUS_OK [{ ss := ⟨AF_INET, 0x0A000005⟩, port := PORT_NONE }],
          cache := [(("10.0.0.5", 0x20), [])], trace := [] }
    ∧ internal_resolve_name example_env [] "0.0.0.0" 0x20 none (some ["host"])
      = { outcome := .ret NT_STATUS_UNSUCCESSFUL [], cache := [], trace := [] } :=
  ⟨⟨by decide, by decide⟩,
    C5_literal_address example_env [(("10.0.0.5", 0x20), [])] "10.0.0.5" 0x20 none
      (some ["NULL"]) ⟨AF_INET, 0x0A000005⟩ (by decide) (by decide),
    C5_literal_address example_env [] "0.0.0.0" 0x20 none (some ["host"]) ⟨AF_INET, 0⟩
      (by decide) (by decide)⟩

/-- C6: `filter_out_nbt_lookup` keeps exactly the tokens that are not equal,
ignoring case, to `lmhosts`, `wins` or `bcast`, in their original order; on a
name-cache miss, for an order that does not start with the `"NULL"` sentinel,
the method loop runs over that filtered order when the name is longer than 15
characters or contains a dot, and over the order as given otherwise; and for
such a name no lmhosts, wins or bcast back end is called, whatever the resolve
order is. -/
theorem C6_nbt_methods_filtered (env : Env) (cache : NameCache) (name : String)
    (name_type : Nat) (sitename : Option String) (resolve_order : Option (List String))
    (hlit : env.is_ipaddress name = false)
    (hmiss : namecache_fetch cache name name_type = none) :
    (∀ order : List String, filter_out_nbt_lookup order
      = order.filter
          (fun m => !(strequal m "lmhosts" || strequal m "wins" || strequal m "bcast")))
    ∧ (∀ tok rest, resolve_order = some (tok :: rest) → tok ≠ "NULL" →
      internal_resolve_name env cache name name_type sitename resolve_order
        = run_methods env cache name name_type sitename
            (if 15 < name.length ∨ '.' ∈ name.data then
              (tok :: rest).filter
                (fun m => !(strequal m "lmhosts" || strequal m "wins" || strequal m "bcast"))
             else tok :: rest)
            [.fetch name name_type])
    ∧ (15 < name.length ∨ '.' ∈ name.data →
        ∀ t status,
          Event.backend .lmhosts t status ∉
            (internal_resolve_name env cache name name_type sitename resolve_order).trace
          ∧ Event.backend .wins t status ∉
            (internal_resolve_name env cache name name_type sitename resolve_order).trace
          ∧ Event.backend .bcast t status ∉
            (internal_resolve_name env cache name name_type sitename resolve_order).trace) := by
  refine ⟨filter_out_nbt_lookup_eq, ?_, ?_⟩
  · intro tok rest horder hnull
    subst horder
    rw [internal_resolve_name_miss env cache name name_type sitename _ hlit hmiss]
    unfold effective_order
    simp only [hnull, if_false, MAX_NETBIOSNAME_LEN]
    by_cases hc : 15 < name.length ∨ '.' ∈ name.data
    · have hc' : name.length > 16 - 1 ∨ '.' ∈ name.data := hc
      rw [if_pos hc', if_pos hc, filter_out_nbt_lookup_eq]
    · have hc' : ¬ (name.length > 16 - 1 ∨ '.' ∈ name.data) := hc
      rw [if_neg hc', if_neg hc]
  · intro hc t status
    have hc' : name.length > MAX_NETBIOSNAME_LEN - 1 ∨ '.' ∈ name.data := hc
    have key : ∀ m, (m = Method.lmhosts ∨ m = Method.wins ∨ m = Method.bcast) →
        Event.backend m t status ∉
          (internal_resolve_name env cache name name_type sitename resolve_order).trace := by
      intro m hm hmem
      rw [internal_resolve_name_miss env cache name name_type sitename _ hlit hmiss] at hmem
      cases hplan : effective_order name resolve_order with
      | fault => rw [hplan] at hmem; simp at hmem
      | disabled => rw [hplan] at hmem; simp at hmem
      | iterate methods =>
        rw [hplan] at hmem
        simp only at hmem
        have hfilt : ∃ order : List String, methods = order.filter
            (fun m => !(strequal m "lmhosts" || strequal m "wins" || strequal m "bcast")) := by
          unfold effective_order at hplan
          cases resolve_order with
          | none =>
            simp only [if_pos hc'] at hplan
            cases hplan
            exact ⟨_, filter_out_nbt_lookup_eq _⟩
          | some order =>
            cases order with
            | nil => cases hplan
            | cons tok rest =>
              simp only [if_pos hc'] at hplan
              split_ifs at hplan
              cases hplan
              exact ⟨_, filter_out_nbt_lookup_eq _⟩
        obtain ⟨order, rfl⟩ := hfilt
        rcases run_methods_trace env cache name name_type sitename _ _ _ hmem with
          h | ⟨n, t', l, h⟩ | ⟨tok', htok, h⟩
        · simp at h
        · cases h
        · have hnbt : (strequal tok' "lmhosts" || strequal tok' "wins" || strequal tok' "bcast")
              = false := by
            have := (List.mem_filter.mp htok).2
            simpa using this
          have hno := @try_method_not_nbt env name name_type sitename tok' hnbt
          rcases h with ⟨m', t', s', hatt, he⟩ | ⟨m', t', s', ipl, cnt, nt, hatt, he⟩
          · cases he
            have := hno.1 _ _ _ hatt
            rcases hm with rfl | rfl | rfl
            · exact this.1 rfl
            · exact this.2.1 rfl
            · exact this.2.2 rfl
          · cases he
            have := hno.2 _ _ _ _ _ _ hatt
            rcases hm with rfl | rfl | rfl
            · exact this.1 rfl
            · exact this.2.1 rfl
            · exact this.2.2 rfl
    exact ⟨key _ (Or.inl rfl), key _ (Or.inr (Or.inl rfl)), key _ (Or.inr (Or.inr rfl))⟩

/-- Witness for `C6_nbt_methods_filtered`: the dotted name `srv.example.com`
with the order `lmhosts WINS host bcast`, of which only `host` is tried. -/
theorem C6_nbt_methods_filtered_witness :
    (example_env.is_ipaddress "srv.example.com" = false
      ∧ namecache_fetch [] "srv.example.com" 0x20 = none)
    ∧ internal_resolve_name example_env [] "srv.example.com" 0x20 none
        (some ["lmhosts", "WINS", "host", "bcast"])
      = run_methods example_env [] "srv.example.com" 0x20 none ["host"]
          [.fetch "srv.example.com" 0x20]
    ∧ (internal_resolve_name example_env [] "srv.example.com" 0x20 none
        (some ["lmhosts", "WINS", "host", "bcast"])).trace
      = [.fetch "srv.example.com" 0x20, .backend .host 0x20 NT_STATUS_UNSUCCESSFUL] :=
  ⟨⟨by decide, by decide⟩,
    ((C6_nbt_methods_filtered example_env [] "srv.example.com" 0x20 none
      (some ["lmhosts", "WINS", "host", "bcast"]) (by decide) (by decide)).2.1
        "lmhosts" ["WINS", "host", "bcast"] rfl (by decide)).trans (by decide),
    by decide⟩

/-- C7: on a name-cache miss the methods of the effective (possibly filtered)
resolve order are tried in list order; when `tok` is the first method whose
back end reports success, the call ends with the code at `done:` applied to the
result of that back end, the back end calls of the whole run are the failed
calls of the methods before `tok`, in order, followed by the successful call,
and nothing after it; and a token that is none of the seven known ones is
skipped without any effect on the result. -/
theorem C7_first_success_returns (env : Env) (cache : NameCache) (name : String)
    (name_type : Nat) (sitename : Option String) (resolve_order : Option (List String))
    (pre : List String) (tok : String) (post : List String)
    (m : Method) (t : Nat) (status : NTSTATUS) (iplist : Option (List ip_service))
    (count nt : Nat)
    (hlit : env.is_ipaddress name = false)
    (hmiss : namecache_fetch cache name name_type = none)
    (hplan : effective_order name resolve_order = .iterate (pre ++ tok :: post))
    (hpre : ∀ p ∈ pre, (try_method env name name_type sitename p).is_done = false)
    (hdone : try_method env name name_type sitename tok = .done m t status iplist count nt) :
    internal_resolve_name env cache name name_type sitename resolve_order
      = finish cache name nt status iplist count
          ([.fetch name name_type] ++ failed_events env name name_type sitename pre
            ++ [.backend m t NT_STATUS_OK])
    ∧ (internal_resolve_name env cache name name_type sitename resolve_order).trace.filter
        Event.is_backend
      = failed_events env name name_type sitename pre ++ [.backend m t NT_STATUS_OK]
    ∧ (∀ l, iplist = some l → count = l.length →
        (internal_resolve_name env cache name name_type sitename resolve_order).outcome
          = .ret status (first_occurrences [] l))
    ∧ (∀ (unknown : String) (rest : List String) (trace : List Event),
        (strequal unknown "host" || strequal unknown "hosts" || strequal unknown "kdc"
          || strequal unknown "ads" || strequal unknown "lmhosts" || strequal unknown "wins"
          || strequal unknown "bcast") = false →
        run_methods env cache name name_type sitename (unknown :: rest) trace
          = run_methods env cache name name_type sitename rest trace) := by
  have hrun : internal_resolve_name env cache name name_type sitename resolve_order
      = finish cache name nt status iplist count
          ([.fetch name name_type] ++ failed_events env name name_type sitename pre
            ++ [.backend m t NT_STATUS_OK]) := by
    rw [internal_resolve_name_miss env cache name name_type sitename _ hlit hmiss, hplan]
    exact run_methods_first_done env cache name name_type sitename tok post hdone pre _ hpre
  refine ⟨hrun, ?_, ?_, ?_⟩
  · rw [hrun]
    rcases finish_trace cache name nt status iplist count
      ([.fetch name name_type] ++ failed_events env name name_type sitename pre
        ++ [.backend m t NT_STATUS_OK]) with hf | ⟨l, hf⟩
    · rw [hf]
      simp [List.filter_append, failed_events_backend, Event.is_backend]
    · rw [hf]
      simp [List.filter_append, failed_events_backend, Event.is_backend]
  · intro l hl hc
    subst hl hc
    rw [hrun, finish_some]
    by_cases hfo : first_occurrences [] l = [] <;> simp [hfo]
  · intro unknown rest trace hun
    simp only [Bool.or_eq_false_iff] at hun
    obtain ⟨⟨⟨⟨⟨⟨h1, h2⟩, h3⟩, h4⟩, h5⟩, h6⟩, h7⟩ := hun
    have hskip : try_method env name name_type sitename unknown = .skipped := by
      unfold try_method
      simp [h1, h2, h3, h4, h5, h6, h7]
    rw [run_methods, hskip]

/-- Witness for `C7_first_success_returns`: for `srv` with the order
`lmhosts nis wins host bcast`, `host` is the first back end that succeeds. -/
theorem C7_first_success_returns_witness :
    (example_env.is_ipaddress "srv" = false
      ∧ namecache_fetch [] "srv" 0x20 = none
      ∧ effective_order "srv" (some ["lmhosts", "nis", "wins", "host", "bcast"])
          = .iterate (["lmhosts", "nis", "wins"] ++ "host" :: ["bcast"])
      ∧ (∀ p ∈ ["lmhosts", "nis", "wins"],
          (try_method example_env "srv" 0x20 none p).is_done = false)
      ∧ try_method example_env "srv" 0x20 none "host"
          = .done .host 0x20 NT_STATUS_OK (some [⟨⟨AF_INET, 0x0A000001⟩, PORT_NONE⟩,
              ⟨⟨AF_INET, 0x0A000001⟩, PORT_NONE⟩]) 2 0x20)
    ∧ (internal_resolve_name example_env [] "srv" 0x20 none
        (some ["lmhosts", "nis", "wins", "host", "bcast"])).trace.filter Event.is_backend
      = [.backend .lmhosts 0x20 NT_STATUS_UNSUCCESSFUL, .backend .wins 0x20 NT_STATUS_UNSUCCESSFUL,
         .backend .host 0x20 NT_STATUS_OK]
    ∧ (internal_resolve_name example_env [] "srv" 0x20 none
        (some ["lmhosts", "nis", "wins", "host", "bcast"])).outcome
      = .ret NT_STATUS_OK [⟨⟨AF_INET, 0x0A000001⟩, PORT_NONE⟩] :=
  ⟨⟨by decide, by decide, by decide, by decide, by decide⟩,
    (C7_first_success_returns example_env [] "srv" 0x20 none
      (some ["lmhosts", "nis", "wins", "host", "bcast"]) ["lmhosts", "nis", "wins"] "host"
      ["bcast"] .host 0x20 NT_STATUS_OK
      (some [⟨⟨AF_INET, 0x0A000001⟩, PORT_NONE⟩, ⟨⟨AF_INET, 0x0A000001⟩, PORT_NONE⟩]) 2 0x20
      (by decide) (by decide) (by decide) (by decide) (by decide)).2.1.trans (by decide),
    by decide⟩

/-- C8: when the `kdc` method succeeds during `internal_resolve_name(name, t,
...)` and the call returns a non-empty list, that list is what the name cache
holds under `(name, 0xDCDC)` afterwards, the only cache write of the call is
that one, every other key (so `(name, t)` for `t` other than 0xDCDC, and
`(name, 0x1C)` in particular) reads as it did before the call. -/
theorem C8_kdc_cached_under_kdc_type (env : Env) (cache : NameCache) (name : String)
    (name_type : Nat) (sitename : Option String) (resolve_order : Option (List String))
    (status : NTSTATUS) (l : List ip_service)
    (hkdc : Event.backend .kdc KDC_NAME_TYPE NT_STATUS_OK ∈
      (internal_resolve_name env cache name name_type sitename resolve_order).trace)
    (hout : (internal_resolve_name env cache name name_type sitename resolve_order).outcome
      = .ret status l)
    (hne : l ≠ []) :
    namecache_fetch (internal_resolve_name env cache name name_type sitename resolve_order).cache
        name KDC_NAME_TYPE = some l
    ∧ (∀ n t l', Event.store n t l' ∈
          (internal_resolve_name env cache name name_type sitename resolve_order).trace →
        n = name ∧ t = KDC_NAME_TYPE ∧ l' = l)
    ∧ (∀ n t, (n, t) ≠ (name, KDC_NAME_TYPE) →
        namecache_fetch
            (internal_resolve_name env cache name name_type sitename resolve_order).cache n t
          = namecache_fetch cache n t)
    ∧ namecache_fetch (internal_resolve_name env cache name name_type sitename resolve_order).cache
        name 0x1C = namecache_fetch cache name 0x1C := by
  have hmain : ∃ fe, (∀ e ∈ fe, ∃ m t status, e = Event.backend m t status) ∧
      internal_resolve_name env cache name name_type sitename resolve_order
        = { outcome := .ret NT_STATUS_OK l,
            cache := ((name, KDC_NAME_TYPE), l) :: cache,
            trace := [.fetch name name_type] ++ fe
              ++ [.backend .kdc KDC_NAME_TYPE NT_STATUS_OK]
              ++ [.store name KDC_NAME_TYPE l] } := by
    by_cases hlit : env.is_ipaddress name = true
    · rw [(internal_resolve_name_literal env cache name name_type sitename
        resolve_order hlit).2] at hkdc
      simp at hkdc
    · have hlit' : env.is_ipaddress name = false := by simpa using hlit
      cases hfetch : namecache_fetch cache name name_type with
      | some l0 =>
        rw [internal_resolve_name_hit env cache name name_type sitename resolve_order l0
          hlit' hfetch] at hkdc
        simp at hkdc
      | none =>
        have h1 := internal_resolve_name_miss env cache name name_type sitename resolve_order
          hlit' hfetch
        cases hplan : effective_order name resolve_order with
        | fault => rw [h1, hplan] at hkdc; simp at hkdc
        | disabled => rw [h1, hplan] at hkdc; simp at hkdc
        | iterate methods =>
          rw [hplan] at h1
          simp only at h1
          rcases run_methods_cases env cache name name_type sitename methods
            [.fetch name name_type] with ⟨fe, hfe, hrun⟩ | ⟨fe, m, t, _, _, _, ho⟩ |
            ⟨fe, m, t, nt, l0, hfe, hnt, hrun⟩
          · exfalso
            rw [h1, hrun] at hkdc
            simp only [List.mem_append, List.mem_singleton] at hkdc
            rcases hkdc with hk | hk
            · cases hk
            · obtain ⟨m, t, s, he, hs⟩ := hfe _ hk
              cases he
              simp [NT_STATUS_IS_OK] at hs
          · exfalso
            rw [← h1] at ho
            rcases ho with ho | ho
            · rw [ho] at hout; cases hout
            · rw [ho] at hout
              simp only [Outcome.ret.injEq] at hout
              exact hne hout.2.symm
          · by_cases hfo : first_occurrences [] l0 = []
            · exfalso
              rw [h1, hrun] at hout
              simp only [hfo, ne_eq, not_true_eq_false, if_false, Outcome.ret.injEq] at hout
              exact hne hout.2.symm
            · simp only [ne_eq, hfo, not_false_eq_true, if_true] at hrun
              have hl : first_occurrences [] l0 = l := by
                rw [h1, hrun] at hout
                simp only [Outcome.ret.injEq] at hout
                exact hout.2
              rw [h1, hrun] at hkdc
              simp only [List.mem_append, List.mem_singleton, List.mem_cons,
                List.not_mem_nil, or_false] at hkdc
              have hm : m = .kdc := by
                rcases hkdc with ((hk | hk) | hk) | hk
                · cases hk
                · obtain ⟨m', t', s, he, hs⟩ := hfe _ hk
                  cases he
                  simp [NT_STATUS_IS_OK] at hs
                · cases hk; rfl
                · cases hk
              subst hm
              rcases hnt with ⟨_, rfl, rfl⟩ | ⟨hcontra, _⟩
              · refine ⟨fe, fun e he => ?_, ?_⟩
                · obtain ⟨m', t', s, h', _⟩ := hfe e he
                  exact ⟨m', t', s, h'⟩
                · rw [h1, hrun, hl]
              · exact absurd rfl hcontra
  obtain ⟨fe, hfe, hres⟩ := hmain
  rw [hres]
  refine ⟨?_, ?_, ?_, ?_⟩
  · simp [namecache_fetch]
  · intro n t l' hmem
    simp only [List.mem_append, List.mem_singleton, List.mem_cons, List.not_mem_nil,
      or_false] at hmem
    rcases hmem with ((hk | hk) | hk) | hk
    · cases hk
    · obtain ⟨m', t', s, he⟩ := hfe _ hk
      cases he
    · cases hk
    · cases hk; exact ⟨rfl, rfl, rfl⟩
  · intro n t hneq
    rw [namecache_fetch_store, if_neg (fun h => hneq h.symm)]
  · rw [namecache_fetch_store, if_neg (by simp [KDC_NAME_TYPE])]

/-- Witness for `C8_kdc_cached_under_kdc_type`: `REALM` resolved for type 0x1C
through `kdc`. -/
theorem C8_kdc_cached_under_kdc_type_witness :
    (Event.backend .kdc KDC_NAME_TYPE NT_STATUS_OK ∈
        (internal_resolve_name example_env [] "REALM" 0x1c none (some ["kdc"])).trace
      ∧ (internal_resolve_name example_env [] "REALM" 0x1c none (some ["kdc"])).outcome
          = .ret NT_STATUS_OK [⟨⟨AF_INET, 0x0A000007⟩, 88⟩]
      ∧ [(⟨⟨AF_INET, 0x0A000007⟩, 88⟩ : ip_service)] ≠ [])
    ∧ namecache_fetch
        (internal_resolve_name example_env [] "REALM" 0x1c none (some ["kdc"])).cache
        "REALM" KDC_NAME_TYPE = some [⟨⟨AF_INET, 0x0A000007⟩, 88⟩]
    ∧ namecache_fetch
        (internal_resolve_name example_env [] "REALM" 0x1c none (some ["kdc"])).cache
        "REALM" 0x1C = none :=
  ⟨⟨by decide, by decide, by decide⟩,
    (C8_kdc_cached_under_kdc_type example_env [] "REALM" 0x1c none (some ["kdc"])
      NT_STATUS_OK [⟨⟨AF_INET, 0x0A000007⟩, 88⟩] (by decide) (by decide) (by decide)).1,
    by decide⟩

/-- C9: for any two addresses and any interface set, `addr_compare(a, b)` is
negative when the families differ and `a` is IPv4, positive when they differ
and `b` is IPv4, and equal to `score(b) - score(a)` when the families are
equal, where the score is the longest match with a broadcast address of the
same family plus the bonus (32 for IPv4, 128 for IPv6) of a local address; so
the address with the higher score sorts first. -/
theorem C9_addr_compare_by_score (ifs : Interfaces) (a b : sockaddr_storage) :
    (a.ss_family ≠ b.ss_family → a.ss_family = AF_INET → addr_compare ifs a b < 0)
    ∧ (a.ss_family ≠ b.ss_family → b.ss_family = AF_INET → 0 < addr_compare ifs a b)
    ∧ (a.ss_family = b.ss_family →
        addr_compare ifs a b = proximity_score ifs b - proximity_score ifs a)
    ∧ (a.ss_family = b.ss_family → proximity_score ifs b < proximity_score ifs a →
        addr_compare ifs a b < 0) := by
  refine ⟨?_, ?_, addr_compare_same_family ifs a b, ?_⟩
  · intro hne ha
    have hb : ¬ b.ss_family = AF_INET := fun h => hne (ha.trans h.symm)
    unfold addr_compare
    rw [if_pos hne, if_neg hb]
    decide
  · intro hne hb
    unfold addr_compare
    rw [if_pos hne, if_pos hb]
    decide
  · intro hfam hlt
    rw [addr_compare_same_family ifs a b hfam]
    omega

/-- Witness for `C9_addr_compare_by_score`: with the interfaces
`192.168.1.255` and `10.255.255.255`, the local address `192.168.1.10` has
score 24 + 32 and `10.1.2.3` has score 8. -/
theorem C9_addr_compare_by_score_witness :
    ((⟨AF_INET, 0xC0A8010A⟩ : sockaddr_storage).ss_family
        = (⟨AF_INET, 0x0A010203⟩ : sockaddr_storage).ss_family
      ∧ proximity_score example_interfaces ⟨AF_INET, 0xC0A8010A⟩ = 56
      ∧ proximity_score example_interfaces ⟨AF_INET, 0x0A010203⟩ = 8)
    ∧ addr_compare example_interfaces ⟨AF_INET, 0xC0A8010A⟩ ⟨AF_INET, 0x0A010203⟩
      = proximity_score example_interfaces ⟨AF_INET, 0x0A010203⟩
        - proximity_score example_interfaces ⟨AF_INET, 0xC0A8010A⟩
    ∧ addr_compare example_interfaces ⟨AF_INET, 0xC0A8010A⟩ ⟨AF_INET, 0x0A010203⟩ = -48 :=
  ⟨⟨rfl, by decide, by decide⟩,
    (C9_addr_compare_by_score example_interfaces ⟨AF_INET, 0xC0A8010A⟩
      ⟨AF_INET, 0x0A010203⟩).2.2.1 rfl,
    by decide⟩

/-- C10: for every interface set and every list `L`, with a `qsort` that keeps
the C library contract and leaves entries that compare equal in the order they
have, sorting `L` with `sort_service_list` and sorting the result again gives
the list that sorting once gives; that list is a rearrangement of `L` in the
order of `ip_service_compare`, which is `addr_compare` first and then the
lower port first. -/
theorem C10_sort_twice_same (qsort : Qsort) (hq : qsort_contract qsort)
    (hs : qsort_stable qsort) (ifs : Interfaces) (L : List ip_service) :
    sort_service_list qsort ifs (sort_service_list qsort ifs L)
      = sort_service_list qsort ifs L
    ∧ (sort_service_list qsort ifs L).Perm L
    ∧ (sort_service_list qsort ifs L).Pairwise (fun a b =>
        addr_compare ifs a.ss b.ss < 0
          ∨ (addr_compare ifs a.ss b.ss = 0 ∧ a.port ≤ b.port)) :=
  ⟨sort_service_list_idem qsort hq hs ifs L, sort_service_list_perm qsort hq ifs L,
    (sort_service_list_sorted qsort hq ifs L).imp
      (fun {a b} h => (ip_service_compare_le_iff_addr ifs a b).mp h)⟩

/-- Witness for `C10_sort_twice_same`: the insertion sort on a list in which
`10.1.2.3` and `10.1.2.4` compare equal and `192.168.1.10` is nearer than
both. -/
theorem C10_sort_twice_same_witness :
    (qsort_contract qsort_insertion ∧ qsort_stable qsort_insertion)
    ∧ ip_service_compare example_interfaces ⟨⟨AF_INET, 0x0A010203⟩, 0⟩
        ⟨⟨AF_INET, 0x0A010204⟩, 0⟩ = 0
    ∧ sort_service_list qsort_insertion example_interfaces
        [⟨⟨AF_INET, 0x0A010204⟩, 0⟩, ⟨⟨AF_INET, 0xC0A8010A⟩, 0⟩, ⟨⟨AF_INET, 0x0A010203⟩, 0⟩]
      = [⟨⟨AF_INET, 0xC0A8010A⟩, 0⟩, ⟨⟨AF_INET, 0x0A010204⟩, 0⟩, ⟨⟨AF_INET, 0x0A010203⟩, 0⟩]
    ∧ sort_service_list qsort_insertion example_interfaces
        (sort_service_list qsort_insertion example_interfaces
          [⟨⟨AF_INET, 0x0A010204⟩, 0⟩, ⟨⟨AF_INET, 0xC0A8010A⟩, 0⟩, ⟨⟨AF_INET, 0x0A010203⟩, 0⟩])
      = sort_service_list qsort_insertion example_interfaces
          [⟨⟨AF_INET, 0x0A010204⟩, 0⟩, ⟨⟨AF_INET, 0xC0A8010A⟩, 0⟩, ⟨⟨AF_INET, 0x0A010203⟩, 0⟩] :=
  ⟨⟨qsort_insertion_contract, qsort_insertion_stable⟩, by decide, by decide,
    (C10_sort_twice_same qsort_insertion qsort_insertion_contract qsort_insertion_stable
      example_interfaces
      [⟨⟨AF_INET, 0x0A010204⟩, 0⟩, ⟨⟨AF_INET, 0xC0A8010A⟩, 0⟩, ⟨⟨AF_INET, 0x0A010203⟩, 0⟩]).1⟩

/-- C11: for every list `L`, `prioritize_ipv4_list` rewrites `L` to the IPv4
entries of `L` in their original relative order followed by the entries of
another family in their original relative order; the result has the length of
`L` and is a permutation of it. -/
theorem C11_prioritize_ipv4_stable_partition (L : List ip_service) :
    prioritize_ipv4_list L L.length
      = L.filter (fun e => e.ss.ss_family = AF_INET)
        ++ L.filter (fun e => !decide (e.ss.ss_family = AF_INET))
    ∧ (prioritize_ipv4_list L L.length).length = L.length
    ∧ (prioritize_ipv4_list L L.length).Perm L := by
  have hperm : (L.filter (fun e => e.ss.ss_family = AF_INET)
      ++ L.filter (fun e => !decide (e.ss.ss_family = AF_INET))).Perm L :=
    List.filter_append_perm (fun e => decide (e.ss.ss_family = AF_INET)) L
  rw [prioritize_ipv4_list_eq]
  exact ⟨rfl, hperm.length_eq, hperm⟩

/-- C12: for a name that is not a literal address, when `internal_resolve_name`
returns `status` and the list `l`, `resolve_name` returns true exactly when
`status` is success and `l` has an entry that is neither zero nor broadcast;
with `prefer_ipv4` the address returned is that of the first such entry that
is IPv4 if there is one and otherwise of the first such entry, and without
`prefer_ipv4` that of the first such entry. -/
theorem C12_resolve_name_first_valid (env : Env) (cfg : Config) (cache : NameCache)
    (name : String) (name_type : Nat) (prefer_ipv4 : Bool) (status : NTSTATUS)
    (l : List ip_service)
    (hlit : env.is_ipaddress name = false)
    (hres : (internal_resolve_name env cache name name_type cfg.realm_sitename
      (some cfg.name_resolve_order)).outcome = .ret status l) :
    (resolve_name env cfg cache name name_type prefer_ipv4).outcome
      = .ret
          (if status = NT_STATUS_OK then
            (if prefer_ipv4 = true then
              (match l.find? (fun e => !is_zero_addr e.ss && !is_broadcast_addr e.ss
                  && e.ss.ss_family = AF_INET) with
               | some e => some e.ss
               | none =>
                 (l.find? (fun e => !is_zero_addr e.ss && !is_broadcast_addr e.ss)).map
                   (fun e => e.ss))
             else
               (l.find? (fun e => !is_zero_addr e.ss && !is_broadcast_addr e.ss)).map
                 (fun e => e.ss))
           else none)
    ∧ ((∃ ss, (resolve_name env cfg cache name name_type prefer_ipv4).outcome = .ret (some ss))
        ↔ (status = NT_STATUS_OK
            ∧ ∃ e ∈ l, is_zero_addr e.ss = false ∧ is_broadcast_addr e.ss = false)) := by
  have hmain := resolve_name_nonliteral env cfg cache name name_type prefer_ipv4 status l
    hlit hres
  rw [resolve_name_ipv4_loop_eq, resolve_name_valid_loop_eq] at hmain
  have hvalid : (∃ ss, (l.find? (fun e => !is_zero_addr e.ss && !is_broadcast_addr e.ss)).map
        (fun e => e.ss) = some ss)
      ↔ ∃ e ∈ l, is_zero_addr e.ss = false ∧ is_broadcast_addr e.ss = false := by
    constructor
    · rintro ⟨ss, h⟩
      cases hf : l.find? (fun e => !is_zero_addr e.ss && !is_broadcast_addr e.ss) with
      | none => rw [hf] at h; cases h
      | some e =>
        have hp := List.find?_some hf
        have hm := List.mem_of_find?_eq_some hf
        exact ⟨e, hm, by simpa using hp⟩
    · rintro ⟨e, hm, hz, hb⟩
      have : (l.find? (fun e => !is_zero_addr e.ss && !is_broadcast_addr e.ss)).isSome = true := by
        rw [List.find?_isSome]
        exact ⟨e, hm, by simp [hz, hb]⟩
      obtain ⟨x, hx⟩ := Option.isSome_iff_exists.mp this
      exact ⟨x.ss, by rw [hx]; rfl⟩
  rw [hmain]
  refine ⟨?_, ?_⟩
  · by_cases hs : status = NT_STATUS_OK
    · simp only [hs, if_true]
      cases prefer_ipv4
      · simp
      · simp only [if_true]
        cases l.find? (fun e => !is_zero_addr e.ss && !is_broadcast_addr e.ss
            && decide (e.ss.ss_family = AF_INET)) <;> rfl
    · simp only [hs, if_false]
  · simp only [NameOutcome.ret.injEq]
    by_cases hs : status = NT_STATUS_OK
    · simp only [hs, if_true, true_and]
      cases prefer_ipv4
      · simpa using hvalid
      · simp only [if_true]
        cases hf : l.find? (fun e => !is_zero_addr e.ss && !is_broadcast_addr e.ss
            && decide (e.ss.ss_family = AF_INET)) with
        | none => simpa using hvalid
        | some e =>
          have hp := List.find?_some hf
          have hm := List.mem_of_find?_eq_some hf
          simp only [Option.map_some']
          constructor
          · intro _
            simp only [Bool.and_eq_true, Bool.not_eq_true', decide_eq_true_eq] at hp
            exact ⟨e, hm, hp.1.1, hp.1.2⟩
          · intro _
            exact ⟨e.ss, rfl⟩
    · simp [hs]

/-- Witness for `C12_resolve_name_first_valid`: the list cached for `mixed`
starts with the broadcast address and an IPv6 address before `10.0.0.1`. -/
theorem C12_resolve_name_first_valid_witness :
    (example_env.is_ipaddress "mixed" = false
      ∧ (internal_resolve_name example_env example_mixed_cache "mixed" 0x20
          example_config.realm_sitename (some example_config.name_resolve_order)).outcome
        = .ret NT_STATUS_OK
            [⟨⟨AF_INET, 0xFFFFFFFF⟩, 0⟩, ⟨⟨AF_INET6, 0x20010DB8⟩, 0⟩, ⟨⟨AF_INET, 0x0A000001⟩, 0⟩])
    ∧ (resolve_name example_env example_config example_mixed_cache "mixed" 0x20 true).outcome
        = .ret (some ⟨AF_INET, 0x0A000001⟩)
    ∧ (resolve_name example_env example_config example_mixed_cache "mixed" 0x20 false).outcome
        = .ret (some ⟨AF_INET6, 0x20010DB8⟩) :=
  ⟨⟨by decide, by decide⟩,
    (C12_resolve_name_first_valid example_env example_config example_mixed_cache "mixed" 0x20
      true NT_STATUS_OK
      [⟨⟨AF_INET, 0xFFFFFFFF⟩, 0⟩, ⟨⟨AF_INET6, 0x20010DB8⟩, 0⟩, ⟨⟨AF_INET, 0x0A000001⟩, 0⟩]
      (by decide) (by decide)).1.trans (by decide),
    by decide⟩

/-- C13: in `get_dc_list`, every automatic lookup is the call of
`internal_resolve_name` for the domain and the site name given, with these
arguments: for `DC_ADS_ONLY` the order `ads` when `host` is in the configured
order (compared without case) and the order `NULL` when it is not, both with
name type 0x1C; for `DC_KDC_ONLY` the order `kdc` with name type 0xDCDC; for
`DC_NORMAL_LOOKUP` the configured order with name type 0x1C.  The flag
`ordered` is returned true for `DC_ADS_ONLY` with `host` and for
`DC_KDC_ONLY`, so that `get_kdc_list` returns the list of a successful
`get_dc_list` as it is, whatever `qsort` does; and with the order `NULL` the
lookup of a domain that is not a literal address and not in the name cache
returns `NT_STATUS_INVALID_PARAMETER`. -/
theorem C13_get_dc_list_lookup_policy (env : Env) (cfg : Config) (gencache : GenCache)
    (cache : NameCache) (domain : String) (sitename : Option String)
    (lookup_type : dc_lookup_type) :
    (∀ nt sn order status,
      DcEvent.lookup nt sn order status
          ∈ (get_dc_list env cfg gencache cache domain sitename lookup_type).trace →
        sn = sitename
        ∧ (∃ iplist, (internal_resolve_name env cache domain nt sitename (some order)).outcome
            = .ret status iplist)
        ∧ ((lookup_type = DC_ADS_ONLY ∧ str_list_check_ci cfg.name_resolve_order "host" = true
              ∧ order = ["ads"] ∧ nt = 0x1C)
          ∨ (lookup_type = DC_ADS_ONLY ∧ str_list_check_ci cfg.name_resolve_order "host" = false
              ∧ order = ["NULL"] ∧ nt = 0x1C)
          ∨ (lookup_type = DC_KDC_ONLY ∧ order = ["kdc"] ∧ nt = 0xDCDC)
          ∨ (lookup_type = DC_NORMAL_LOOKUP ∧ order = cfg.name_resolve_order ∧ nt = 0x1C)))
    ∧ (lookup_type = DC_ADS_ONLY → str_list_check_ci cfg.name_resolve_order "host" = true →
        (get_dc_list env cfg gencache cache domain sitename lookup_type).ordered = true)
    ∧ (lookup_type = DC_KDC_ONLY →
        (get_dc_list env cfg gencache cache domain sitename lookup_type).ordered = true
        ∧ ∀ (qsort : Qsort) (ifs : Interfaces) (l : List ip_service),
            (get_dc_list env cfg gencache cache domain sitename lookup_type).outcome
                = .ret NT_STATUS_OK l →
            get_kdc_list qsort ifs env cfg gencache cache domain sitename
                = .ret NT_STATUS_OK l)
    ∧ (env.is_ipaddress domain = false → namecache_fetch cache domain 0x1C = none →
        (internal_resolve_name env cache domain 0x1C sitename (some ["NULL"])).outcome
          = .ret NT_STATUS_INVALID_PARAMETER []) := by
  refine ⟨?_, ?_, ?_, ?_⟩
  · intro nt sn order status hev
    obtain ⟨status2, iplist, hres, he⟩ :=
      get_dc_list_lookup_events env cfg gencache cache domain sitename lookup_type _ hev rfl
    injection he with h1 h2 h3 h4
    subst h1 h2 h3 h4
    refine ⟨rfl, ⟨iplist, hres⟩, ?_⟩
    cases lookup_type with
    | DC_NORMAL_LOOKUP => exact Or.inr (Or.inr (Or.inr ⟨rfl, rfl, rfl⟩))
    | DC_KDC_ONLY => exact Or.inr (Or.inr (Or.inl ⟨rfl, rfl, rfl⟩))
    | DC_ADS_ONLY =>
      cases hh : str_list_check_ci cfg.name_resolve_order "host" with
      | true =>
        refine Or.inl ⟨rfl, rfl, ?_, ?_⟩ <;> simp [get_dc_list_policy, hh]
      | false =>
        refine Or.inr (Or.inl ⟨rfl, rfl, ?_, ?_⟩) <;> simp [get_dc_list_policy, hh]
  · intro hlt hh
    apply get_dc_list_ordered_mono
    simp [get_dc_list_policy, hlt, hh]
  · intro hlt
    subst hlt
    have hord : (get_dc_list env cfg gencache cache domain sitename DC_KDC_ONLY).ordered = true :=
      get_dc_list_ordered_mono env cfg gencache cache domain sitename DC_KDC_ONLY rfl
    refine ⟨hord, ?_⟩
    intro qsort ifs l hl
    have hok : NT_STATUS_IS_OK NT_STATUS_OK = true := by decide
    simp only [get_kdc_list, hl, hord, hok, Bool.not_true, Bool.false_eq_true, if_false]
  · intro hlit hmiss
    rw [internal_resolve_name_miss env cache domain 0x1C sitename (some ["NULL"]) hlit hmiss]
    rfl

/-- Witness for `C13_get_dc_list_lookup_policy`: the domain `CORP` with a
configured order without `host`, looked up with `DC_ADS_ONLY`. -/
theorem C13_get_dc_list_lookup_policy_witness :
    (DcEvent.lookup 0x1C none ["NULL"] NT_STATUS_INVALID_PARAMETER
        ∈ (get_dc_list example_env { example_config with name_resolve_order := ["wins", "bcast"] }
            [] [] "CORP" none DC_ADS_ONLY).trace
      ∧ example_env.is_ipaddress "CORP" = false
      ∧ namecache_fetch [] "CORP" 0x1C = none)
    ∧ (internal_resolve_name example_env [] "CORP" 0x1C none (some ["NULL"])).outcome
        = .ret NT_STATUS_INVALID_PARAMETER []
    ∧ (get_dc_list example_env example_config [] [] "REALM" none DC_KDC_ONLY).trace
        = [.lookup 0xDCDC none ["kdc"] NT_STATUS_OK, .auto_copied ⟨⟨AF_INET, 0x0A000007⟩, 88⟩]
    ∧ get_kdc_list qsort_reversing example_interfaces example_env example_config [] [] "REALM"
        none = .ret NT_STATUS_OK [⟨⟨AF_INET, 0x0A000007⟩, 88⟩] :=
  ⟨⟨by decide, by decide, by decide⟩,
    (C13_get_dc_list_lookup_policy example_env
      { example_config with name_resolve_order := ["wins", "bcast"] } [] [] "CORP" none
      DC_ADS_ONLY).2.2.2 (by decide) (by decide),
    by decide,
    ((C13_get_dc_list_lookup_policy example_env example_config [] [] "REALM" none
      DC_KDC_ONLY).2.2.1 rfl).2 qsort_reversing example_interfaces _ (by decide)⟩

/-- C14 does not hold when a named token does not resolve, and the code
departs there from the comment before its token loop ("If any DC is listed by
name, then the list should be considered to be ordered"): with the candidate
string `, nosuch, *` (tokens `nosuch` and `*`) and a domain whose automatic
lookup finds `10.0.0.1`, `get_dc_list` succeeds with that entry and returns
`ordered` false.  A named token that resolves (`srv:3268, *`) gives true, and
a candidate string of `*` alone gives false. -/
theorem C14_unresolved_named_token_not_ordered :
    ({ example_config with password_server := "nosuch, *" } : Config).next_tokens
        (get_dc_list_pserver { example_config with password_server := "nosuch, *" } [] "WG")
      = ["nosuch", "*"]
    ∧ strequal "nosuch" "*" = false
    ∧ DcEvent.named_unresolved "nosuch"
        ∈ (get_dc_list example_env { example_config with password_server := "nosuch, *" } []
            [(("WG", 0x1C), [⟨⟨AF_INET, 0x0A000001⟩, 0⟩])] "WG" none DC_NORMAL_LOOKUP).trace
    ∧ (get_dc_list example_env { example_config with password_server := "nosuch, *" } []
        [(("WG", 0x1C), [⟨⟨AF_INET, 0x0A000001⟩, 0⟩])] "WG" none DC_NORMAL_LOOKUP).outcome
      = .ret NT_STATUS_OK [⟨⟨AF_INET, 0x0A000001⟩, 0⟩]
    ∧ (get_dc_list example_env { example_config with password_server := "nosuch, *" } []
        [(("WG", 0x1C), [⟨⟨AF_INET, 0x0A000001⟩, 0⟩])] "WG" none DC_NORMAL_LOOKUP).ordered
      = false
    ∧ (get_dc_list example_env { example_config with password_server := "srv:3268, *" } []
        [(("WG", 0x1C), [⟨⟨AF_INET, 0x0A000002⟩, 0⟩])] "WG" none DC_NORMAL_LOOKUP).ordered
      = true
    ∧ (get_dc_list example_env example_config []
        [(("WG", 0x1C), [⟨⟨AF_INET, 0x0A000002⟩, 0⟩])] "WG" none DC_NORMAL_LOOKUP).ordered
      = false := by
  decide

/-- C15 fails on the path taken when the candidate string has no token
(no server affinity entry, empty `password server`): `get_dc_list` returns
the list of `internal_resolve_name` as it is, here with the address
`10.0.0.66` for which the negative-connection cache check reports a failure;
with the candidate string `, *` the same lookup result is filtered and the
call fails with `NT_STATUS_NO_LOGON_SERVERS`. -/
theorem C15_fallback_skips_negative_filter :
    ({ example_config with password_server := "" } : Config).next_tokens
        (get_dc_list_pserver { example_config with password_server := "" } [] "WG") = []
    ∧ (get_dc_list example_env { example_config with password_server := "" } []
        [(("WG", 0x1C), [⟨⟨AF_INET, 0x0A000042⟩, 0⟩])] "WG" none DC_NORMAL_LOOKUP).outcome
      = .ret NT_STATUS_OK [⟨⟨AF_INET, 0x0A000042⟩, 0⟩]
    ∧ NT_STATUS_IS_OK (({ example_config with password_server := "" } :
        Config).check_negative_conn_cache "WG" ⟨AF_INET, 0x0A000042⟩) = false
    ∧ (get_dc_list example_env example_config []
        [(("WG", 0x1C), [⟨⟨AF_INET, 0x0A000042⟩, 0⟩])] "WG" none DC_NORMAL_LOOKUP).outcome
      = .ret NT_STATUS_NO_LOGON_SERVERS [] := by
  decide

/-- C16: for every cache that the users of the generic cache can produce and
every domain `d`, `saf_fetch(d)` returns the value stored under the join key
`SAFJOIN/DOMAIN/<d upper-cased>` when that key is present, otherwise the value
under `SAF/DOMAIN/<d upper-cased>`, otherwise nothing; and for every cache,
after `saf_delete(d)` neither of the two keys is present. -/
theorem C16_saf_fetch_prefers_join_key (c : GenCache) (d : String) :
    (saf_reachable c →
      saf_fetch c (some d)
        = (match gencache_get c ("SAFJOIN/DOMAIN/" ++ ⟨d.data.map Char.toUpper⟩) with
           | some v => some v
           | none => gencache_get c ("SAF/DOMAIN/" ++ ⟨d.data.map Char.toUpper⟩)))
    ∧ gencache_get (saf_delete c (some d)).2 ("SAFJOIN/DOMAIN/" ++ ⟨d.data.map Char.toUpper⟩)
        = none
    ∧ gencache_get (saf_delete c (some d)).2 ("SAF/DOMAIN/" ++ ⟨d.data.map Char.toUpper⟩)
        = none := by
  rw [← saf_key_eq, ← saf_join_key_eq]
  refine ⟨?_, ?_, ?_⟩
  · intro hc
    unfold saf_fetch
    by_cases hd : d.length = 0
    · have hdata : d = "" := by
        cases d with
        | mk data =>
          cases data with
          | nil => rfl
          | cons x xs => exact absurd hd (by simp [String.length])
      subst hdata
      have hinv := saf_reachable_no_empty_domain c hc
      have k1 : saf_join_key "" = "SAFJOIN/DOMAIN/" := by decide
      have k2 : saf_key "" = "SAF/DOMAIN/" := by decide
      rw [k1, k2, hinv.1, hinv.2]
      rfl
    · simp only [hd, if_false]
  · simp only [saf_delete, gencache_get_del]
    simp
  · simp only [saf_delete, gencache_get_del]
    simp

/-- Witness for `C16_saf_fetch_prefers_join_key`: in a cache written by
`saf_store` and `saf_join_store`, the domain `wg` has both keys and the fetch
returns the join value, the domain `other` has the plain key only, and the
empty domain has none. -/
theorem C16_saf_fetch_prefers_join_key_witness :
    saf_reachable example_saf_cache
    ∧ saf_fetch example_saf_cache (some "wg")
        = (match gencache_get example_saf_cache
              ("SAFJOIN/DOMAIN/" ++ ⟨"wg".data.map Char.toUpper⟩) with
           | some v => some v
           | none => gencache_get example_saf_cache
              ("SAF/DOMAIN/" ++ ⟨"wg".data.map Char.toUpper⟩))
    ∧ gencache_get example_saf_cache "SAFJOIN/DOMAIN/WG" = some "dc2"
    ∧ gencache_get example_saf_cache "SAF/DOMAIN/WG" = some "dc1"
    ∧ saf_fetch example_saf_cache (some "wg") = some "dc2"
    ∧ saf_fetch example_saf_cache (some "other") = some "dc3"
    ∧ saf_fetch example_saf_cache (some "") = none :=
  ⟨example_saf_cache_reachable,
    (C16_saf_fetch_prefers_join_key example_saf_cache "wg").1 example_saf_cache_reachable,
    by decide, by decide, by decide, by decide, by decide⟩

/-- C17: for a name query whose request ended with an I/O timeout,
`name_query_recv` on a broadcast query returns `NT_STATUS_NOT_FOUND` when no
address was accumulated and otherwise success with the accumulated addresses,
rearranged into ascending `addr_compare` order; on a unicast query it returns
`NT_STATUS_IO_TIMEOUT`. -/
theorem C17_name_query_recv_timeout (qsort : QsortAddr) (ifs : Interfaces)
    (req : tevent_req_state) (state : name_query_state) (want_flags : Bool)
    (hq : qsort_addr_contract qsort)
    (hreq : tevent_req_is_nterror req = some NT_STATUS_IO_TIMEOUT) :
    (state.bcast = true →
      name_query_recv qsort ifs req state want_flags
        = (if state.addrs.length = 0 then (NT_STATUS_NOT_FOUND, none)
           else
            (NT_STATUS_OK,
              some { addrs := sort_addr_list qsort ifs state.addrs
                     num_addrs := state.addrs.length
                     flags := if want_flags then some state.flags else none }))
      ∧ (sort_addr_list qsort ifs state.addrs).Perm state.addrs
      ∧ (sort_addr_list qsort ifs state.addrs).Pairwise (fun a b => addr_compare ifs a b ≤ 0))
    ∧ (state.bcast = false →
      name_query_recv qsort ifs req state want_flags = (NT_STATUS_IO_TIMEOUT, none)) := by
  refine ⟨fun hb => ⟨?_, sort_addr_list_perm qsort hq ifs _, sort_addr_list_sorted qsort hq ifs _⟩,
    fun hb => ?_⟩
  · simp only [name_query_recv, hreq, hb]
    simp [NT_STATUS_IS_OK]
  · simp only [name_query_recv, hreq, hb]
    simp [NT_STATUS_IS_OK, NT_STATUS_IO_TIMEOUT, NT_STATUS_OK]

/-- Witness for `C17_name_query_recv_timeout`: a broadcast query that has
collected `10.0.0.7` and `192.168.1.9` when its deadline passes. -/
theorem C17_name_query_recv_timeout_witness :
    qsort_addr_contract qsort_addr_reversing
    ∧ tevent_req_is_nterror .timed_out = some NT_STATUS_IO_TIMEOUT
    ∧ name_query_recv qsort_addr_reversing example_interfaces .timed_out
        { bcast := true, validate_error := NT_STATUS_OK, flags := 0x85,
          addrs := [⟨AF_INET, 0x0A000007⟩, ⟨AF_INET, 0xC0A80109⟩] } true
      = (NT_STATUS_OK,
          some { addrs := [⟨AF_INET, 0xC0A80109⟩, ⟨AF_INET, 0x0A000007⟩]
                 num_addrs := 2
                 flags := some 0x85 }) :=
  ⟨qsort_addr_reversing_contract, rfl,
    ((C17_name_query_recv_timeout qsort_addr_reversing example_interfaces .timed_out
      { bcast := true, validate_error := NT_STATUS_OK, flags := 0x85,
        addrs := [⟨AF_INET, 0x0A000007⟩, ⟨AF_INET, 0xC0A80109⟩] } true
      qsort_addr_reversing_contract rfl).1 rfl).1.trans (by decide)⟩

/-- C18: for every memory `buf` whose first byte `n` is at least 1,
`parse_node_status` returns `n` entries, entry `i` having the name made of
the 15 bytes at offset `1 + 18 i` cut at the first NUL and without the
blanks at the end, the type at offset `1 + 18 i + 15` and the flags at offset
`1 + 18 i + 16`; the MAC address, when asked for, is the six bytes at offset
`1 + 18 n`. -/
theorem C18_parse_node_status_layout (buf : Nat → Nat) (extra : Bool)
    (hn : 1 ≤ CVAL buf 0) :
    parse_node_status buf extra
      = { ret := some ((List.range (CVAL buf 0)).map (fun i =>
                  ({ name := wire_name buf (1 + 18 * i)
                     type := CVAL buf (1 + 18 * i + 15)
                     flags := CVAL buf (1 + 18 * i + 16) } : node_status)))
          num_names := CVAL buf 0
          mac_addr :=
            if extra then
              some ((List.range 6).map (fun k => CVAL buf (1 + 18 * CVAL buf 0 + k)))
            else none }
    ∧ ((parse_node_status buf extra).ret.map List.length) = some (CVAL buf 0) := by
  have h0 : ¬ CVAL buf 0 = 0 := by omega
  have hmain : parse_node_status buf extra
      = { ret := some ((List.range (CVAL buf 0)).map (fun i =>
                  ({ name := wire_name buf (1 + 18 * i)
                     type := CVAL buf (1 + 18 * i + 15)
                     flags := CVAL buf (1 + 18 * i + 16) } : node_status)))
          num_names := CVAL buf 0
          mac_addr :=
            if extra then
              some ((List.range 6).map (fun k => CVAL buf (1 + 18 * CVAL buf 0 + k)))
            else none } := by
    simp only [parse_node_status, h0, if_false, parse_node_status_loop_eq]
  refine ⟨hmain, ?_⟩
  rw [hmain]
  simp

/-- Witness for `C18_parse_node_status_layout`: a reply with the two names
`AB` (type 0x20) and `WG` (type 0x00) and the MAC address 00:11:22:33:44:55. -/
theorem C18_parse_node_status_layout_witness :
    1 ≤ CVAL example_rdata 0
    ∧ parse_node_status example_rdata true
      = { ret := some [{ name := [65, 66], type := 0x20, flags := 0x04 },
                       { name := [87, 71], type := 0x00, flags := 0x84 }]
          num_names := 2
          mac_addr := some [0x00, 0x11, 0x22, 0x33, 0x44, 0x55] } :=
  ⟨by decide, (C18_parse_node_status_layout example_rdata true (by decide)).1.trans (by decide)⟩

/-- C21: in the probe of the servers `S`, after the queries to the first `k`
servers timed out (`k` may be 0), when server `k + 1` answers the unicast
query with a reply that has opcode 0 and a non-zero rcode: the probe ends
and `query_wins_list_recv` returns `NT_STATUS_NOT_FOUND`; the servers marked
dead are the `k` that timed out, so the answering server is not marked; the
servers queried are the first `k + 1`, whatever happens later; and when it
is the first server that answers so, exactly one query was started and no
server is marked dead. -/
theorem C21_negative_reply_ends_probe (qsort : QsortAddr) (ifs : Interfaces)
    (interpreted : Option sockaddr_storage) (S : List Nat)
    (touts later : List (tevent_req_state × name_query_state))
    (st : name_query_state) (nmb : nmb_packet)
    (hlen : touts.length < S.length)
    (htout : ∀ o ∈ touts, (name_query_recv qsort ifs o.1 o.2 true).1 = NT_STATUS_IO_TIMEOUT)
    (hb : st.bcast = false) (hop : nmb.header.opcode = 0) (hrc : nmb.header.rcode ≠ 0) :
    (name_query_validator st nmb).1 = true
    ∧ query_wins_list_recv
        (query_wins_list_reached qsort ifs interpreted S
          (touts ++ (name_query_done (name_query_validator st nmb).2 NT_STATUS_OK,
            (name_query_validator st nmb).2) :: later)) true true true
      = (NT_STATUS_NOT_FOUND, none)
    ∧ (query_wins_list_reached qsort ifs interpreted S
          (touts ++ (name_query_done (name_query_validator st nmb).2 NT_STATUS_OK,
            (name_query_validator st nmb).2) :: later)).dead
      = (S.take touts.length).map (fun ip => (ip, my_socket_addr_v4 interpreted))
    ∧ (query_wins_list_reached qsort ifs interpreted S
          (touts ++ (name_query_done (name_query_validator st nmb).2 NT_STATUS_OK,
            (name_query_validator st nmb).2) :: later)).queried
      = (S.take (touts.length + 1)).map in_addr_to_sockaddr_storage
    ∧ (touts = [] →
        (query_wins_list_reached qsort ifs interpreted S
          (touts ++ (name_query_done (name_query_validator st nmb).2 NT_STATUS_OK,
            (name_query_validator st nmb).2) :: later)).queried.length = 1
        ∧ (query_wins_list_reached qsort ifs interpreted S
          (touts ++ (name_query_done (name_query_validator st nmb).2 NT_STATUS_OK,
            (name_query_validator st nmb).2) :: later)).dead = []) := by
  have hacc : (name_query_validator st nmb).1 = true := by
    unfold name_query_validator
    rw [if_pos ⟨hop, hb, hrc⟩]
  have hrecv := name_query_negative_reply qsort ifs st nmb true hb hop hrc
  obtain ⟨_, hdead, hprog, _⟩ :=
    query_wins_list_timeouts qsort ifs interpreted S touts (Nat.le_of_lt hlen) htout
  obtain ⟨hreq, _, hq⟩ := hprog hlen
  have hrun : query_wins_list_reached qsort ifs interpreted S
        (touts ++ (name_query_done (name_query_validator st nmb).2 NT_STATUS_OK,
          (name_query_validator st nmb).2) :: later)
      = { query_wins_list_reached qsort ifs interpreted S touts with
          req := .user_error NT_STATUS_NOT_FOUND } := by
    unfold query_wins_list_reached at hreq ⊢
    rw [List.foldl_append, List.foldl_cons, query_wins_list_step, if_pos hreq]
    dsimp only
    rw [query_wins_list_done_error qsort ifs interpreted _ _ _ NT_STATUS_NOT_FOUND
      (by decide) (by decide) hrecv]
    apply query_wins_list_run_finished
    simp
  rw [hrun]
  refine ⟨hacc, rfl, hdead, hq, ?_⟩
  intro hnil
  subst hnil
  refine ⟨?_, ?_⟩
  · show (query_wins_list_reached qsort ifs interpreted S []).queried.length = 1
    rw [hq]
    have : 1 ≤ S.length := hlen
    simp
    omega
  · show (query_wins_list_reached qsort ifs interpreted S []).dead = []
    rw [hdead]
    rfl

/-- Witness for `C21_negative_reply_ends_probe`: the first of two servers
answers with rcode 3. -/
theorem C21_negative_reply_ends_probe_witness :
    (([] : List (tevent_req_state × name_query_state)).length < [0x0A000001, 0x0A000002].length
      ∧ (∀ o ∈ ([] : List (tevent_req_state × name_query_state)),
          (name_query_recv qsort_addr_reversing example_interfaces o.1 o.2 true).1
            = NT_STATUS_IO_TIMEOUT)
      ∧ (name_query_start false).bcast = false
      ∧ example_negative_reply.header.opcode = 0
      ∧ example_negative_reply.header.rcode ≠ 0)
    ∧ (query_wins_list_reached qsort_addr_reversing example_interfaces
        (some ⟨AF_INET, 0xC0A80105⟩) [0x0A000001, 0x0A000002]
        ([] ++ (name_query_done
            (name_query_validator (name_query_start false) example_negative_reply).2
            NT_STATUS_OK,
          (name_query_validator (name_query_start false) example_negative_reply).2)
          :: [])).queried
      = [⟨AF_INET, 0x0A000001⟩] :=
  ⟨⟨by decide, by decide, rfl, rfl, by decide⟩,
    (C21_negative_reply_ends_probe qsort_addr_reversing example_interfaces
      (some ⟨AF_INET, 0xC0A80105⟩) [0x0A000001, 0x0A000002] [] []
      (name_query_start false) example_negative_reply
      (by decide) (by decide) rfl rfl (by decide)).2.2.2.1.trans (by decide)⟩

/-- C22: a reply with opcode 0 and a non-zero rcode to a unicast query is
accepted by `name_query_validator`, which records `NT_STATUS_NOT_FOUND` as the
validation error and changes nothing else in the query state, so that
`name_query_done` fails the query with `NT_STATUS_NOT_FOUND` when the
transaction ends, and `name_query_recv` returns that status; a reply with a
non-zero rcode to a broadcast query is rejected and leaves the state as it
is. -/
theorem C22_negative_reply_unicast_not_found (state : name_query_state) (nmb : nmb_packet)
    (hrc : nmb.header.rcode ≠ 0) :
    (state.bcast = false → nmb.header.opcode = 0 →
      name_query_validator state nmb
        = (true, { state with validate_error := NT_STATUS_NOT_FOUND })
      ∧ (name_query_validator state nmb).2.addrs = state.addrs
      ∧ (name_query_validator state nmb).2.flags = state.flags
      ∧ name_query_done (name_query_validator state nmb).2 NT_STATUS_OK
          = .user_error NT_STATUS_NOT_FOUND
      ∧ ∀ (qsort : QsortAddr) (ifs : Interfaces) (want_flags : Bool),
          name_query_recv qsort ifs
              (name_query_done (name_query_validator state nmb).2 NT_STATUS_OK)
              (name_query_validator state nmb).2 want_flags
            = (NT_STATUS_NOT_FOUND, none))
    ∧ (state.bcast = true → name_query_validator state nmb = (false, state)) := by
  refine ⟨fun hb hop => ?_, fun hb => ?_⟩
  · have hv : name_query_validator state nmb
        = (true, { state with validate_error := NT_STATUS_NOT_FOUND }) := by
      unfold name_query_validator
      rw [if_pos ⟨hop, hb, hrc⟩]
    have hd : name_query_done (name_query_validator state nmb).2 NT_STATUS_OK
        = .user_error NT_STATUS_NOT_FOUND := by
      rw [hv]
      rfl
    refine ⟨hv, by rw [hv], by rw [hv], hd, ?_⟩
    intro qsort ifs want_flags
    rw [hd, hv]
    simp only [name_query_recv, tevent_req_is_nterror, hb]
    rfl
  · unfold name_query_validator
    have h1 : ¬ (nmb.header.opcode = 0 ∧ state.bcast = false ∧ nmb.header.rcode ≠ 0) := by
      rintro ⟨_, h, _⟩
      rw [hb] at h
      cases h
    rw [if_neg h1, if_pos (Or.inr (Or.inr (Or.inl hrc)))]

/-- Witness for `C22_negative_reply_unicast_not_found`: the reply with rcode 3
to a unicast query that has just been started. -/
theorem C22_negative_reply_unicast_not_found_witness :
    example_negative_reply.header.rcode ≠ 0
    ∧ (name_query_start false).bcast = false
    ∧ example_negative_reply.header.opcode = 0
    ∧ name_query_validator (name_query_start false) example_negative_reply
      = (true, { bcast := false, validate_error := NT_STATUS_NOT_FOUND, flags := 0, addrs := [] }) :=
  ⟨by decide, rfl, rfl,
    ((C22_negative_reply_unicast_not_found (name_query_start false) example_negative_reply
      (by decide)).1 rfl rfl).1⟩

/-- C23: from a query that has accumulated no address, after any sequence of
replies passed to `name_query_validator` the accumulated list has no zero
address and no address twice; every call leaves the list it found as a prefix
of the list afterwards; and a reply with opcode other than 0, with the
broadcast flag, with a non-zero rcode or with `ancount` 0 leaves the list and
the flags unchanged. -/
theorem C23_accumulator_invariant (bcast : Bool) (replies : List nmb_packet) :
    (∀ a ∈ (name_query_validate_all (name_query_start bcast) replies).addrs,
      is_zero_addr a = false)
    ∧ (name_query_validate_all (name_query_start bcast) replies).addrs.Nodup
    ∧ (∀ (state : name_query_state) (nmb : nmb_packet),
        state.addrs <+: (name_query_validator state nmb).2.addrs)
    ∧ (∀ (state : name_query_state) (nmb : nmb_packet),
        (nmb.header.opcode ≠ 0 ∨ nmb.header.nm_flags.bcast = true ∨ nmb.header.rcode ≠ 0
          ∨ nmb.header.ancount = 0) →
        (name_query_validator state nmb).2.addrs = state.addrs
        ∧ (name_query_validator state nmb).2.flags = state.flags) := by
  obtain ⟨h1, h2, _⟩ := name_query_validate_all_good replies (name_query_start bcast)
    (by intro a ha; cases ha) List.nodup_nil
  refine ⟨h1, h2, fun state nmb => (name_query_validator_good state nmb).1, ?_⟩
  intro state nmb hrej
  exact ⟨(name_query_validator_rejected state nmb hrej).1,
    (name_query_validator_rejected state nmb hrej).2.1⟩

/-- Witness for `C23_accumulator_invariant`: a positive reply with `10.0.0.7`
twice and `0.0.0.0` once leaves the single address `10.0.0.7`, and a negative
reply after it changes nothing. -/
theorem C23_accumulator_invariant_witness :
    (name_query_validate_all (name_query_start true)
        [example_positive_reply true, example_negative_reply]).addrs
      = [⟨AF_INET, 0x0A000007⟩]
    ∧ (example_negative_reply.header.opcode ≠ 0
        ∨ example_negative_reply.header.nm_flags.bcast = true
        ∨ example_negative_reply.header.rcode ≠ 0
        ∨ example_negative_reply.header.ancount = 0)
    ∧ (name_query_validator
        (name_query_validate_all (name_query_start true) [example_positive_reply true])
        example_negative_reply).2.addrs
      = (name_query_validate_all (name_query_start true) [example_positive_reply true]).addrs :=
  ⟨by decide, by decide,
    ((C23_accumulator_invariant true [example_positive_reply true]).2.2.2
      (name_query_validate_all (name_query_start true) [example_positive_reply true])
      example_negative_reply (by decide)).1⟩

/-- C24: for a positive reply (opcode 0, no broadcast flag, rcode 0, `ancount`
not 0): a broadcast query accepts it exactly when one of its `rdlength / 6`
records has `flags & 0x8000 = 0`, and whether it is accepted or not every
non-zero address of its records is in the accumulated list afterwards, which
is the list the record loop makes of the list before; a unicast query accepts
it. -/
theorem C24_unique_name_ends_collection (state : name_query_state) (nmb : nmb_packet)
    (hop : nmb.header.opcode = 0) (hb : nmb.header.nm_flags.bcast = false)
    (hrc : nmb.header.rcode = 0) (han : nmb.header.ancount ≠ 0) :
    (state.bcast = true →
      ((name_query_validator state nmb).1 = true
        ↔ ∃ k, k < nmb.answers.rdlength / 6
            ∧ RSVAL nmb.answers.rdata (k * 6) &&& 0x8000 = 0))
    ∧ (∀ k, k < nmb.answers.rdlength / 6 →
        is_zero_addr (putip nmb.answers.rdata (2 + k * 6)) = false →
        putip nmb.answers.rdata (2 + k * 6) ∈ (name_query_validator state nmb).2.addrs)
    ∧ (name_query_validator state nmb).2.addrs
        = (name_query_records nmb.answers.rdata (nmb.answers.rdlength / 6) 0
            (state.addrs, false)).1
    ∧ (state.bcast = false → (name_query_validator state nmb).1 = true) := by
  obtain ⟨h1, h2, _, _⟩ := name_query_validator_positive state nmb hop hb hrc han
  obtain ⟨_, _, _, r4, r5⟩ :=
    name_query_records_spec nmb.answers.rdata (nmb.answers.rdlength / 6) 0 state.addrs false
  refine ⟨fun hbc => ?_, ?_, h2, fun hbc => ?_⟩
  · rw [h1, hbc, if_pos rfl, r5]
    constructor
    · rintro (h | ⟨k, _, hk, hf⟩)
      · cases h
      · exact ⟨k, by omega, hf⟩
    · rintro ⟨k, hk, hf⟩
      exact Or.inr ⟨k, Nat.zero_le _, by omega, hf⟩
  · intro k hk hz
    rw [h2]
    exact r4 k (Nat.zero_le _) (by omega) hz
  · rw [h1, hbc]
    rfl

/-- Witness for `C24_unique_name_ends_collection`: a broadcast query rejects
the reply whose two records are group names and keeps its address; it accepts
the reply that has a unique name as well. -/
theorem C24_unique_name_ends_collection_witness :
    ((example_positive_reply false).header.opcode = 0
      ∧ (example_positive_reply false).header.nm_flags.bcast = false
      ∧ (example_positive_reply false).header.rcode = 0
      ∧ (example_positive_reply false).header.ancount ≠ 0)
    ∧ (name_query_validator (name_query_start true) (example_positive_reply false)).1 = false
    ∧ (name_query_validator (name_query_start true) (example_positive_reply false)).2.addrs
        = [⟨AF_INET, 0x0A000007⟩]
    ∧ (name_query_validator (name_query_start true) (example_positive_reply true)).1 = true :=
  ⟨⟨rfl, rfl, rfl, by decide⟩, by decide,
    (C24_unique_name_ends_collection (name_query_start true) (example_positive_reply false)
      rfl rfl rfl (by decide)).2.2.1.trans (by decide),
    ((C24_unique_name_ends_collection (name_query_start true) (example_positive_reply true)
      rfl rfl rfl (by decide)).1 rfl).mpr ⟨2, by decide, by decide⟩⟩

/-- C25 fails when the address of an IPv4 peer cannot be converted: the
datagram would complete the read (it parses as a packet of transaction 7 that
the validator accepts), but `tsocket_address_bsd_sockaddr` returns -1 and the
read request fails with the status of `errno`; with a successful conversion
the same datagram completes the read. -/
theorem C25_counterexample :
    (sock_packet_read_got_socket example_map_nt_error (fun p => (p.header.name_trn_id : Int))
        example_read_state (example_datagram (-1))).req
      = .user_error NT_STATUS_INVALID_PARAMETER
    ∧ (sock_packet_read_got_socket example_map_nt_error (fun p => (p.header.name_trn_id : Int))
        example_read_state (example_datagram 16)).req = .done := by
  decide

/-- C25 (amended): for a read that is running and a datagram that was
received (`received` is not -1): when the peer is IPv4 and the conversion of
its address fails, the read request fails with the status of `errno` and no
receive is posted; in every other case the read completes if and only if the
peer is IPv4, the datagram parses as a packet, `trn_id` is -1 or the
transaction id of the packet, and the validator, when there is one, accepts
the packet, and otherwise the request stays running, the packet is dropped
and a new receive is posted. -/
theorem C25_socket_datagram_acceptance {π : Type} (map_nt_error_from_unix : Nat → NTSTATUS)
    (packet_trn_id : nmb_packet → Int) (state : sock_packet_read_state π)
    (d : received_datagram)
    (hreq : state.req = .in_progress) (hrecv : d.received ≠ -1) :
    (d.is_inet_ipv4 = true → d.bsd_sockaddr = -1 →
      (sock_packet_read_got_socket map_nt_error_from_unix packet_trn_id state d).req
          = (tevent_req_nterror (map_nt_error_from_unix d.errno)).getD .in_progress
      ∧ (sock_packet_read_got_socket map_nt_error_from_unix packet_trn_id state
          d).has_socket_req = false)
    ∧ (¬ (d.is_inet_ipv4 = true ∧ d.bsd_sockaddr = -1) →
      ((sock_packet_read_got_socket map_nt_error_from_unix packet_trn_id state d).req = .done
        ↔ sock_packet_read_accepts packet_trn_id state d)
      ∧ (¬ sock_packet_read_accepts packet_trn_id state d →
        (sock_packet_read_got_socket map_nt_error_from_unix packet_trn_id state d).req
            = .in_progress
        ∧ (sock_packet_read_got_socket map_nt_error_from_unix packet_trn_id state
            d).has_socket_req = true
        ∧ (sock_packet_read_got_socket map_nt_error_from_unix packet_trn_id state
            d).packet = none)) := by
  have hne : tevent_req_state.in_progress ≠ .done := by decide
  refine ⟨fun hin hbsd => ?_, fun hnb => ?_⟩
  · unfold sock_packet_read_got_socket
    simp only [hrecv, if_false, hin, Bool.not_true, Bool.false_eq_true, hbsd, if_true, hreq]
    exact ⟨trivial, trivial⟩
  · by_cases hin : d.is_inet_ipv4 = true
    · have hbsd : ¬ d.bsd_sockaddr = -1 := fun h => hnb ⟨hin, h⟩
      cases hp : d.parsed with
      | none =>
        have hno : ¬ sock_packet_read_accepts packet_trn_id state d := by
          rintro ⟨_, p, h, _⟩
          rw [hp] at h
          cases h
        have hres : sock_packet_read_got_socket map_nt_error_from_unix packet_trn_id state d
            = sock_packet_read_retry { state with has_socket_req := false } := by
          unfold sock_packet_read_got_socket
          simp only [hrecv, if_false, hin, Bool.not_true, Bool.false_eq_true, hbsd, hp]
        rw [hres]
        refine ⟨⟨fun h => ?_, fun h => (hno h).elim⟩, fun _ => ⟨hreq, rfl, rfl⟩⟩
        have h2 : state.req = .done := h
        rw [hreq] at h2
        exact (hne h2).elim
      | some p =>
        by_cases htrn : state.trn_id ≠ -1 ∧ state.trn_id ≠ packet_trn_id p
        · have hno : ¬ sock_packet_read_accepts packet_trn_id state d := by
            rintro ⟨_, p2, h, h3, _⟩
            rw [hp] at h
            injection h with h
            subst h
            rcases h3 with h3 | h3
            · exact htrn.1 h3
            · exact htrn.2 h3
          have hres : sock_packet_read_got_socket map_nt_error_from_unix packet_trn_id state d
              = sock_packet_read_retry
                  { state with has_socket_req := false, packet := some p } := by
            unfold sock_packet_read_got_socket
            simp only [hrecv, if_false, hin, Bool.not_true, Bool.false_eq_true, hbsd, hp]
            rw [if_pos htrn]
          rw [hres]
          refine ⟨⟨fun h => ?_, fun h => (hno h).elim⟩, fun _ => ⟨hreq, rfl, rfl⟩⟩
          have h2 : state.req = .done := h
          rw [hreq] at h2
          exact (hne h2).elim
        · have htrn2 : state.trn_id = -1 ∨ state.trn_id = packet_trn_id p := by
            by_cases h1 : state.trn_id = -1
            · exact Or.inl h1
            · by_cases h2 : state.trn_id = packet_trn_id p
              · exact Or.inr h2
              · exact (htrn ⟨h1, h2⟩).elim
          cases hv : state.validator with
          | none =>
            have hyes : sock_packet_read_accepts packet_trn_id state d := by
              refine ⟨hin, p, hp, htrn2, ?_⟩
              intro v hv2
              rw [hv] at hv2
              cases hv2
            have hres : (sock_packet_read_got_socket map_nt_error_from_unix packet_trn_id state
                d).req = .done := by
              unfold sock_packet_read_got_socket
              simp only [hrecv, if_false, hin, Bool.not_true, Bool.false_eq_true, hbsd, hp]
              rw [if_neg htrn]
              simp only [hv]
            exact ⟨⟨fun _ => hyes, fun _ => hres⟩, fun h => (h hyes).elim⟩
          | some v =>
            by_cases hacc : (v p state.private_data).1 = true
            · have hyes : sock_packet_read_accepts packet_trn_id state d := by
                refine ⟨hin, p, hp, htrn2, ?_⟩
                intro v2 hv2
                rw [hv] at hv2
                injection hv2 with hv2
                subst hv2
                exact hacc
              have hres : (sock_packet_read_got_socket map_nt_error_from_unix packet_trn_id
                  state d).req = .done := by
                unfold sock_packet_read_got_socket
                simp only [hrecv, if_false, hin, Bool.not_true, Bool.false_eq_true, hbsd, hp]
                rw [if_neg htrn]
                simp only [hv, hacc, Bool.not_true, Bool.false_eq_true, if_false]
              exact ⟨⟨fun _ => hyes, fun _ => hres⟩, fun h => (h hyes).elim⟩
            · have hno : ¬ sock_packet_read_accepts packet_trn_id state d := by
                rintro ⟨_, p2, h, _, h4⟩
                rw [hp] at h
                injection h with h
                subst h
                exact hacc (h4 v hv)
              have hres : sock_packet_read_got_socket map_nt_error_from_unix packet_trn_id
                  state d
                  = sock_packet_read_retry
                      { state with
                        has_socket_req := false
                        packet := some p
                        private_data := (v p state.private_data).2 } := by
                unfold sock_packet_read_got_socket
                simp only [hrecv, if_false, hin, Bool.not_true, Bool.false_eq_true, hbsd, hp]
                rw [if_neg htrn]
                simp only [hv, Bool.eq_false_iff.mpr hacc, Bool.not_false, if_true]
              rw [hres]
              refine ⟨⟨fun h => ?_, fun h => (hno h).elim⟩, fun _ => ⟨hreq, rfl, rfl⟩⟩
              have h2 : state.req = .done := h
              rw [hreq] at h2
              exact (hne h2).elim
    · have hno : ¬ sock_packet_read_accepts packet_trn_id state d := fun h => hin h.1
      have hres : sock_packet_read_got_socket map_nt_error_from_unix packet_trn_id state d
          = sock_packet_read_retry { state with has_socket_req := false } := by
        unfold sock_packet_read_got_socket
        simp only [hrecv, if_false, Bool.eq_false_iff.mpr hin, Bool.not_false, if_true]
      rw [hres]
      refine ⟨⟨fun h => ?_, fun h => (hno h).elim⟩, fun _ => ⟨hreq, rfl, rfl⟩⟩
      have h2 : state.req = .done := h
      rw [hreq] at h2
      exact (hne h2).elim

/-- Witness for `C25_socket_datagram_acceptance`: the datagram of the
counterexample, with a failed and with a successful address conversion. -/
theorem C25_socket_datagram_acceptance_witness :
    (example_read_state.req = .in_progress ∧ (example_datagram (-1)).received ≠ -1
      ∧ (example_datagram (-1)).is_inet_ipv4 = true ∧ (example_datagram (-1)).bsd_sockaddr = -1)
    ∧ (sock_packet_read_got_socket example_map_nt_error (fun p => (p.header.name_trn_id : Int))
        example_read_state (example_datagram (-1))).has_socket_req = false :=
  ⟨⟨rfl, by decide, rfl, rfl⟩,
    ((C25_socket_datagram_acceptance example_map_nt_error
      (fun p => (p.header.name_trn_id : Int)) example_read_state (example_datagram (-1))
      rfl (by decide)).1 rfl rfl).2⟩

/-- C26 fails for the `ads` and `kdc` methods: `internal_resolve_name`
returns success with an empty list when the DC SRV query succeeds with no
record, and when the KDC SRV query gives a zero address only; and
`find_master_ip`, for a resolve order `ads` and a PDC SRV query that succeeds
with no record, reads entry 0 of the empty list. -/
theorem C26_success_with_empty_list :
    (internal_resolve_name example_env [] "EMPTY" 0x1C none (some ["ads"])).outcome
      = .ret NT_STATUS_OK []
    ∧ (internal_resolve_name
        { example_env with
          ads_dns_query_kdcs := fun _ _ =>
            (NT_STATUS_OK, [⟨"kdc1", 88, some [⟨AF_INET, 0⟩]⟩]) }
        [] "R" KDC_NAME_TYPE none (some ["kdc"])).outcome
      = .ret NT_STATUS_OK []
    ∧ (internal_resolve_name example_env_no_pdc_record [] "WORKGROUP" 0x1B none
        (some ["ads"])).outcome = .ret NT_STATUS_OK []
    ∧ (find_master_ip example_env_no_pdc_record
        { example_config with name_resolve_order := ["ads"] } [] false "WORKGROUP").outcome
      = .fault := by
  decide

/-- C27 fails for a candidate string with two `*` tokens: with the string
`, *, *` and an automatic lookup that finds two addresses, the first token
loop computes `num_addresses = 3`, and the second token loop copies the two
addresses for the first `*`, the first of them again for the second `*`, and
then writes a fourth entry past the three slots of the array. -/
theorem C27_second_star_overflows :
    ({ example_config with password_server := "*, *" } : Config).next_tokens
        (get_dc_list_pserver { example_config with password_server := "*, *" } [] "WG")
      = ["*", "*"]
    ∧ (get_dc_list_count example_env "WG" none
        (get_dc_list_policy DC_NORMAL_LOOKUP example_config.name_resolve_order) ["*", "*"]
        { num_addresses := 0, done_auto_lookup := false, auto_ip_list := [],
          cache := [(("WG", 0x1C), [⟨⟨AF_INET, 0x0A000001⟩, 0⟩, ⟨⟨AF_INET, 0x0A000002⟩, 0⟩])],
          trace := [], fault := false }).num_addresses = 3
    ∧ (get_dc_list_fill example_env { example_config with password_server := "*, *" } "WG"
        DC_NORMAL_LOOKUP 3 [⟨⟨AF_INET, 0x0A000001⟩, 0⟩, ⟨⟨AF_INET, 0x0A000002⟩, 0⟩] ["*", "*"]
        { return_iplist := [], ordered := false,
          cache := [(("WG", 0x1C), [⟨⟨AF_INET, 0x0A000001⟩, 0⟩, ⟨⟨AF_INET, 0x0A000002⟩, 0⟩])],
          trace := [], fault := false }).return_iplist
      = [⟨⟨AF_INET, 0x0A000001⟩, 0⟩, ⟨⟨AF_INET, 0x0A000002⟩, 0⟩, ⟨⟨AF_INET, 0x0A000001⟩, 0⟩]
    ∧ (get_dc_list_fill example_env { example_config with password_server := "*, *" } "WG"
        DC_NORMAL_LOOKUP 3 [⟨⟨AF_INET, 0x0A000001⟩, 0⟩, ⟨⟨AF_INET, 0x0A000002⟩, 0⟩] ["*", "*"]
        { return_iplist := [], ordered := false,
          cache := [(("WG", 0x1C), [⟨⟨AF_INET, 0x0A000001⟩, 0⟩, ⟨⟨AF_INET, 0x0A000002⟩, 0⟩])],
          trace := [], fault := false }).fault = true
    ∧ (get_dc_list example_env { example_config with password_server := "*, *" } []
        [(("WG", 0x1C), [⟨⟨AF_INET, 0x0A000001⟩, 0⟩, ⟨⟨AF_INET, 0x0A000002⟩, 0⟩])] "WG" none
        DC_NORMAL_LOOKUP).outcome = .fault := by
  decide

/-- C28 fails for `num_addrs = 0`: `name_queries_send` starts the query to
`addrs[0]` and stores its handle in `subreqs[0]` whatever `num_addrs` is, and
`name_resolve_bcast_send` on a host without IPv4 interface (no interface, or
IPv6 interfaces only) calls it with `num_bcast_addrs = 0`. -/
theorem C28_send_reads_index_zero :
    (name_queries_send 0).started = [0]
    ∧ (name_queries_send 0).num_addrs = 0
    ∧ (name_queries_send 0).oob = true
    ∧ (name_resolve_bcast_send false example_interfaces_ipv6).bcast_addrs = []
    ∧ (name_resolve_bcast_send false example_interfaces_ipv6).subreq
        = some (name_queries_send 0)
    ∧ (name_resolve_bcast_send false { bcast := [], iface_local := fun _ => false }).subreq
        = some (name_queries_send 0) := by
  decide

/-- C29: for every list `L`, `remove_duplicate_addrs2` returns a count `c` and
leaves in the first `c` slots the entries of `L` whose address is not zero,
with every later duplicate removed; no entry with a zero address is among
them; `c` is the number of distinct entries of `L` with a non-zero address;
and the call on these `c` entries returns `c` and leaves them as they are. -/
theorem C29_remove_duplicate_addrs2_result (L : List ip_service) :
    ∃ out c, remove_duplicate_addrs2 L L.length = some (out, c)
      ∧ out.take c = without_later_duplicates (nonzero_entries L)
      ∧ (∀ e ∈ out.take c, is_zero_addr e.ss = false)
      ∧ c = (nonzero_entries L).toFinset.card
      ∧ ∃ out2, remove_duplicate_addrs2 (out.take c) (out.take c).length = some (out2, c)
          ∧ out2.take c = out.take c := by
  obtain ⟨out, h1, _, h3⟩ := remove_duplicate_addrs2_spec L
  have heq : first_occurrences [] L = without_later_duplicates (nonzero_entries L) := by
    rw [first_occurrences_eq L []]
    unfold nonzero_entries
    congr 1
    apply List.filter_congr
    intro x _
    simp
  have hlen : (first_occurrences [] L).length = (nonzero_entries L).toFinset.card := by
    rw [heq, without_later_duplicates_length]
  refine ⟨out, (first_occurrences [] L).length, h1, h3.trans heq, ?_, hlen, ?_⟩
  · intro e he
    rw [h3] at he
    exact (first_occurrences_mem L [] e he).1
  · obtain ⟨out2, g1, _, g3⟩ := remove_duplicate_addrs2_spec (first_occurrences [] L)
    rw [first_occurrences_idem] at g1 g3
    rw [h3]
    exact ⟨out2, g1, g3⟩

/-- C30: when the RDATA of the packet starts with the name count 0,
`parse_node_status` returns no array and, for a query whose transaction ended
with success (the reply was accepted), `node_status_query_recv` returns
`NT_STATUS_NO_MEMORY` and writes neither the array nor the count; and
whenever `node_status_query_recv` returns success, for a query whose
transaction ended with any status, the count it writes is at least 1 and is
the length of the array it writes. -/
theorem C30_empty_node_status_is_no_memory (status : NTSTATUS) (packet : nmb_packet)
    (extra : Bool) :
    (CVAL packet.answers.rdata 0 = 0 →
      (parse_node_status packet.answers.rdata extra).ret = none
      ∧ node_status_query_done NT_STATUS_OK = .done
      ∧ node_status_query_recv (node_status_query_done NT_STATUS_OK) packet extra
          = { status := NT_STATUS_NO_MEMORY, node_status := none, num_names := none,
              mac_addr := none })
    ∧ ((node_status_query_recv (node_status_query_done status) packet extra).status
          = NT_STATUS_OK →
        ∃ l n, (node_status_query_recv (node_status_query_done status) packet extra).node_status
            = some l
          ∧ (node_status_query_recv (node_status_query_done status) packet extra).num_names
            = some n
          ∧ 1 ≤ n ∧ l.length = n ∧ n = CVAL packet.answers.rdata 0) := by
  refine ⟨fun h0 => ?_, fun hok => ?_⟩
  · have hp : parse_node_status packet.answers.rdata extra
        = { ret := none, num_names := CVAL packet.answers.rdata 0, mac_addr := none } := by
      simp only [parse_node_status, h0, if_true]
    refine ⟨by rw [hp], rfl, ?_⟩
    have hd : node_status_query_done NT_STATUS_OK = .done := rfl
    rw [hd]
    simp only [node_status_query_recv, tevent_req_is_nterror, hp]
  · by_cases hs : NT_STATUS_IS_OK status = true
    · have hd : node_status_query_done status = .done := by
        simp only [node_status_query_done, tevent_req_nterror, hs, if_true]
      rw [hd] at hok ⊢
      by_cases h0 : CVAL packet.answers.rdata 0 = 0
      · have hp : parse_node_status packet.answers.rdata extra
            = { ret := none, num_names := CVAL packet.answers.rdata 0, mac_addr := none } := by
          simp only [parse_node_status, h0, if_true]
        simp only [node_status_query_recv, tevent_req_is_nterror, hp] at hok
        exact absurd hok (by decide)
      · have hp := parse_node_status_loop_eq packet.answers.rdata
          (CVAL packet.answers.rdata 0) 1
        refine ⟨(parse_node_status_loop packet.answers.rdata (CVAL packet.answers.rdata 0) 1).1,
          CVAL packet.answers.rdata 0, ?_, ?_, by omega, ?_, rfl⟩
        · simp only [node_status_query_recv, tevent_req_is_nterror, parse_node_status, h0,
            if_false]
        · simp only [node_status_query_recv, tevent_req_is_nterror, parse_node_status, h0,
            if_false]
        · rw [hp]
          simp
    · have hd : node_status_query_done status = .user_error status := by
        simp only [node_status_query_done, tevent_req_nterror, hs, if_false]
        rfl
      rw [hd] at hok
      simp only [node_status_query_recv, tevent_req_is_nterror] at hok
      exact absurd ((is_ok_iff status).mpr hok) hs

/-- Witness for `C30_empty_node_status_is_no_memory`: an accepted reply whose
RDATA starts with the count 0. -/
theorem C30_empty_node_status_is_no_memory_witness :
    (node_status_query_validator example_empty_node_status = true
      ∧ CVAL example_empty_node_status.answers.rdata 0 = 0)
    ∧ node_status_query_recv (node_status_query_done NT_STATUS_OK) example_empty_node_status
        true
      = { status := NT_STATUS_NO_MEMORY, node_status := none, num_names := none,
          mac_addr := none } :=
  ⟨⟨by decide, by decide⟩,
    ((C30_empty_node_status_is_no_memory NT_STATUS_OK example_empty_node_status true).1
      (by decide)).2.2⟩

end Namequery
